import Mathlib

/-!
# Region timing and trim algorithms (`libs/ardour/region.cc`)

A shallow embedding of the region entity of `libs/ardour/region.cc`: the timing
attributes `start`, `length`, `position`, the shadow values, the flags, the
backing sources with their use counts, the constructors, source equivalence,
the change notification done by `Region::send_change`, the restoring of a
region from a node, its trim capabilities and its latest possible sample.

Every C++ mutator `void Region::f (args)` becomes a function
`Region.f : Env → Region → args → Region` returning the region after the call.
A function that moves use counts takes and returns them next to the region,
and one that can fail an `assert` returns an `Option`.
The signals a call emits are appended to the field `signals` of the region, in
emission order, so that "emits nothing" reads `signals` unchanged.
-/

namespace ARDOUR

/-- Modelled from the spec: the position type of the time-domain library
(`Temporal::timepos_t`), which is not among the sources here. The spec asks
the library for arithmetic, comparison and a clamped maximum; a position is
modelled by its integer value, counted in the units of the region's time
domain. `a.distance b` is `b - a`, `a.earlier d` is `a - d`. Positions on the
timeline are not negative; a theorem that needs this of a position says so. -/
abbrev timepos_t := Int

/-- Modelled from the spec: the duration type of the time-domain library
(`Temporal::timecnt_t`), which is not among the sources here: a signed
distance. Its origin position (changed by `timecnt_t::set_position`) has no
effect on the distance and is not modelled. `zero`, `positive` and `negative`
are `= 0`, `> 0` and `< 0`. -/
abbrev timecnt_t := Int

/-- The two time domains a position can be expressed in. -/
inductive TimeDomain
  | AudioTime
  | BeatTime
  deriving DecidableEq, Repr

/-- The data type of a region, fixed at construction. -/
inductive DataType
  | AUDIO
  | MIDI
  deriving DecidableEq, Repr

/-- Identities of the tracked properties: the descriptors of
`ARDOUR::Properties` declared at the top of `region.cc`, and `name`, which the
session object contributes. -/
inductive PropertyID
  | name
  | muted
  | opaque_id
  | locked
  | video_locked
  | automatic
  | whole_file
  | import_id
  | external
  | sync_marked
  | left_of_split
  | right_of_split
  | hidden
  | position_locked
  | valid_transients
  | start
  | length
  | position
  | beat
  | sync_position
  | layer
  | ancestral_start
  | ancestral_length
  | stretch
  | shift
  | layering_index
  | tags
  | contents
  | time_domain
  deriving DecidableEq, Repr

/-- Modelled from the spec: the change-set of the property-tracking framework
(`PBD::PropertyChange`, a set of property identities), which is not among the
sources here. The model is a list without repetitions. -/
abbrev PropertyChange := List PropertyID

namespace PropertyChange

/-- The body of `PropertyChange::add (id)`: insert one identity. -/
def add (c : PropertyChange) (p : PropertyID) : PropertyChange :=
  if p ∈ c then c else c ++ [p]

/-- The body of `PropertyChange::add (other)`: insert every identity of `other`. -/
def add_all (c other : PropertyChange) : PropertyChange :=
  other.foldl add c

/-- The body of `PropertyChange::contains (other)`: true when some identity of
`other` is in the set. -/
def contains_any (c other : PropertyChange) : Bool :=
  other.any (fun p => decide (p ∈ c))

end PropertyChange

/-- The part of a backing source (`ARDOUR::Source`) the region reads: its
identity, its `length ()`, whether it declares `length_mutable ()`, its
nesting `level ()` and its data `type ()`. The use count of a source is shared
by all its owners and is kept in `UseCount`, outside the region. -/
structure Source where
  id : Nat := 0
  length : timecnt_t := 0
  length_mutable : Bool := false
  level : Nat := 0
  type : DataType := DataType.AUDIO
  deriving DecidableEq, Repr

/-- Modelled from the spec: the use counts of the sources (`Source::_use_count`,
moved by `inc_use_count ()` and `dec_use_count ()`), which belong to the source
objects and are not among the sources here: one integer per source identity. -/
abbrev UseCount := Nat → Int

/-- Modelled from the spec: `Source::inc_use_count ()`, one more use of the
source `s`. -/
def inc_use_count (u : UseCount) (s : Source) : UseCount :=
  fun i => if i = s.id then u i + 1 else u i

/-- Modelled from the spec: `Source::dec_use_count ()`, one use less of the
source `s`. -/
def dec_use_count (u : UseCount) (s : Source) : UseCount :=
  fun i => if i = s.id then u i - 1 else u i

/-- The states of `Region::_first_edit`. -/
inductive FirstEdit
  | EditChangesNothing
  | EditChangesName
  | EditChangesID
  deriving DecidableEq, Repr

/-- A C++ `float` by the value it holds: a finite value is a sign and the
magnitude `mantissa * 2 ^ exponent` (both zeros are finite values with
mantissa 0), and the other values are the two infinities and the NaNs. The
region only compares such a value with `0.0f` and stores `1.0f`. -/
inductive float
  | finite (negative : Bool) (mantissa : Nat) (exponent : Int)
  | infinity (negative : Bool)
  | nan
  deriving DecidableEq, Repr

namespace float

/-- The comparison `x == 0.0f`: true for the positive and the negative zero,
false for every other value, a NaN included. -/
def is_zero : float → Bool
  | finite _ mantissa _ => decide (mantissa = 0)
  | _ => false

/-- The constant `1.0f`. -/
def one : float := finite false 1 0

end float

/-- The signals a region operation emits. `PropertyChanged` is the change
signal of the object itself, sent by the base `Stateful::send_change`;
`RegionPropertyChanged` is the static signal of `region.cc`, which carries a
shared reference to the region; `CheckNewRegion` is the factory signal
`first_edit` raises; `DropReferences` is what `drop_references ()` emits;
`NameChanged` is the signal the comment in `Region::set_name` attributes to
the base `SessionObject::set_name`. -/
inductive Signal
  | PropertyChanged (what : PropertyChange)
  | RegionPropertyChanged (what : PropertyChange)
  | CheckNewRegion
  | DropReferences
  | NameChanged
  deriving DecidableEq, Repr

/-- The state of one region: the members of `ARDOUR::Region` the operations
below read or write, the two members of the base `Stateful` that change
notification uses (`stateful_frozen`, `pending_changed`), whether a shared
handle to the region exists (`shared`, the success of `shared_from_this ()`),
the identities of the sources whose `DropReferences` the region is connected
to (`source_connections`), and the log of emitted signals. -/
structure Region where
  name : String := ""
  type : DataType := DataType.AUDIO
  sync_marked : Bool := false
  left_of_split : Bool := false
  right_of_split : Bool := false
  valid_transients : Bool := false
  start : timecnt_t := 0
  length : timecnt_t := 0
  position : timepos_t := 0
  position_time_domain : TimeDomain := TimeDomain.AudioTime
  sync_position : timecnt_t := 0
  user_transients : List Int := []
  transient_user_start : Int := 0
  transients : List Int := []
  onsets : List Int := []
  muted : Bool := false
  locked : Bool := false
  video_locked : Bool := false
  automatic : Bool := false
  whole_file : Bool := false
  external : Bool := false
  hidden : Bool := false
  position_locked : Bool := false
  stretch : float := float.one
  shift : float := float.one
  last_length : timecnt_t := 0
  last_position : timepos_t := 0
  first_edit : FirstEdit := FirstEdit.EditChangesNothing
  layer : Nat := 0
  sources : List Source := []
  master_sources : List Source := []
  source_connections : List Nat := []
  playlist : Option Nat := none
  shared : Bool := true
  stateful_frozen : Nat := 0
  pending_changed : PropertyChange := []
  signals : List Signal := []
  deriving DecidableEq, Repr

/-- What the region takes from its collaborators, none of which is among the
sources here: the maxima of the time-domain library (`timepos_t::max (domain)`
and `timecnt_t::max ()`), the movability predicate `can_move ()` and the
per-type policy `can_trim_start_before_source_start ()` of the region header,
and `RegionFactory::new_region_name`. The theorems hold for every choice. -/
structure Env where
  timepos_max : timepos_t
  timecnt_max : timecnt_t
  can_move : Region → Bool
  can_trim_start_before_source_start : Bool
  new_region_name : String → String

/-- Modelled from the spec: what `Region::_set_state` takes from the XML node,
whose class and whose reader `Stateful::set_values` are not among the sources
here. `set_values` is the effect of `Stateful::set_values (node)` on a region:
the region with the values stored in the node assigned to its properties, and
the identities of the properties that changed. `flags` is the text of the
legacy property "flags", when the node has one. The theorems hold for every
node. -/
structure XMLNode where
  set_values : Region → Region × PropertyChange
  flags : Option String

/-- The test `string::npos != s.find (sub)`: the text `sub` occurs in `s`. -/
def contains_text (s sub : String) : Bool :=
  s.toList.tails.any (fun t => sub.toList.isPrefixOf t)

/-- Modelled from the spec: the flag set `Trimmable::CanTrim` of the trimmable
interface, which is not among the sources here: one Boolean per flag, all
false for `CanTrim (0)`. -/
structure CanTrim where
  FrontTrimEarlier : Bool := false
  FrontTrimLater : Bool := false
  EndTrimEarlier : Bool := false
  EndTrimLater : Bool := false
  deriving DecidableEq, Repr

namespace Region

/-- The accessor `Stateful::property_changes_suspended ()`. -/
def property_changes_suspended (r : Region) : Bool :=
  decide (0 < r.stateful_frozen)

/-- The accessor `Region::source (0)`: the first backing source, if any. -/
def source (r : Region) : Option Source :=
  r.sources.head?

/-- The guard `source() && source()->length_mutable()` that opens each
`verify_*` function. -/
def source_length_mutable (r : Region) : Bool :=
  match r.source with
  | some s => s.length_mutable
  | none => false

/-- Modelled from the spec: the base `Stateful::send_change` of the
property-tracking framework, which is not among the sources here. An empty set
is ignored; while notification is suspended the set is merged into the pending
change-set; otherwise it is delivered on the object's own change signal. -/
def stateful_send_change (r : Region) (what_changed : PropertyChange) : Region :=
  if what_changed.isEmpty then r
  else if r.property_changes_suspended then
    { r with pending_changed := PropertyChange.add_all r.pending_changed what_changed }
  else
    { r with signals := r.signals ++ [Signal.PropertyChanged what_changed] }

/-- The function `Region::send_change`: nothing for an empty set; the base
class is told; when changes are not suspended `RegionPropertyChanged` is
emitted with a shared pointer to the region, and nothing when no shared
pointer exists (the `catch (...)` branch). -/
def send_change (r : Region) (what_changed : PropertyChange) : Region :=
  if what_changed.isEmpty then r
  else
    let r1 := stateful_send_change r what_changed
    if !r1.property_changes_suspended then
      if r1.shared then
        { r1 with signals := r1.signals ++ [Signal.RegionPropertyChanged what_changed] }
      else r1
    else r1

/-- The function `Region::set_length_internal`. -/
def set_length_internal (r : Region) (len : timecnt_t) : Region :=
  { r with last_length := r.length, length := len }

/-- The function `Region::set_start_internal`. -/
def set_start_internal (r : Region) (s : timecnt_t) : Region :=
  { r with start := s }

/-- The function `Region::maybe_uncopy`, which does nothing. -/
def maybe_uncopy (r : Region) : Region := r

/-- The hook `recompute_at_start ()`, pure virtual in the region entity and
implemented by the audio and MIDI subclasses; it does not touch the members
modelled here. -/
def recompute_at_start (r : Region) : Region := r

/-- The hook `recompute_at_end ()`, pure virtual in the region entity; see
`recompute_at_start`. -/
def recompute_at_end (r : Region) : Region := r

/-- The function `Region::first_edit`: when a first-edit rename is pending and
the region is in a playlist, rename, reset the state, notify the name change
and raise `CheckNewRegion`. -/
def do_first_edit (E : Env) (r : Region) : Region :=
  if r.first_edit ≠ FirstEdit.EditChangesNothing ∧ r.playlist.isSome then
    let r1 := { r with name := E.new_region_name r.name,
                       first_edit := FirstEdit.EditChangesNothing }
    let r2 := send_change r1 [PropertyID.name]
    { r2 with signals := r2.signals ++ [Signal.CheckNewRegion] }
  else r

/-- The function `Region::maybe_invalidate_transients`: clear the detected
onsets and notify when there were any or the transients were marked valid. -/
def maybe_invalidate_transients (r : Region) : Region :=
  let changed := !r.onsets.isEmpty
  let r1 := { r with onsets := [] }
  if r.valid_transients || changed then
    send_change r1 [PropertyID.valid_transients]
  else r1

/-- The loop shared by `verify_length` and `verify_start_and_length`:
`maxlen` starts at zero and takes `max (maxlen, source_length (n) - start)`
for each source in turn. -/
def maxlen_from (sources : List Source) (start : timecnt_t) : timecnt_t :=
  sources.foldl (fun maxlen s => max maxlen (s.length - start)) 0

/-- The function `Region::verify_length (len)`: the returned pair is the C++
result and the value left in the reference argument `len`. -/
def verify_length (r : Region) (len : timecnt_t) : Bool × timecnt_t :=
  if r.source_length_mutable then (true, len)
  else (true, min len (maxlen_from r.sources r.start))

/-- The function `Region::verify_start_and_length (new_start, new_length)`:
the returned pair is the C++ result and the value left in `new_length`. -/
def verify_start_and_length (r : Region) (new_start new_length : timecnt_t) :
    Bool × timecnt_t :=
  if r.source_length_mutable then (true, new_length)
  else (true, min new_length (maxlen_from r.sources new_start))

/-- The function `Region::verify_start (pos)`: false as soon as one source is
shorter than `pos + length`. -/
def verify_start (r : Region) (pos : timecnt_t) : Bool :=
  if r.source_length_mutable then true
  else r.sources.all (fun s => !decide (pos > s.length - r.length))

/-- The function `Region::set_length (len)`. -/
def set_length (E : Env) (r : Region) (len : timecnt_t) : Region :=
  if r.locked then r
  else if r.length ≠ len ∧ ¬ len = 0 then
    -- check that the current position would not make the new length impossible
    if E.timepos_max - len < r.position then r
    else
      let vl := r.verify_length len
      if !vl.1 then r
      else
        let r1 := r.set_length_internal vl.2
        let r2 := { r1 with whole_file := false }
        let r3 := do_first_edit E r2
        let r4 := maybe_uncopy r3
        let r5 := maybe_invalidate_transients r4
        let r6 := if !r5.property_changes_suspended then recompute_at_end r5 else r5
        send_change r6 [PropertyID.length]
  else r

/-- The function `Region::set_position_internal (pos)`: the shadow position
is refreshed first, also when `pos` is the current position; a position that
makes the current length impossible shrinks the length. The three calls of
`set_position` on the durations retarget their origin only. -/
def set_position_internal (E : Env) (r : Region) (pos : timepos_t) : Region :=
  let r1 := { r with last_position := r.position }
  if r1.position ≠ pos then
    let r2 := { r1 with position := pos }
    if E.timepos_max - r2.length < r2.position then
      { r2 with last_length := r2.length, length := E.timepos_max - r2.position }
    else r2
  else r1

/-- The function `Region::set_position (pos)`. -/
def set_position (E : Env) (r : Region) (pos : timepos_t) : Region :=
  if !E.can_move r then r
  else
    let p_and_l : PropertyChange := PropertyChange.add [] PropertyID.position
    let r1 := set_position_internal E r pos
    let p_and_l :=
      if r1.position_time_domain ≠ TimeDomain.AudioTime then
        PropertyChange.add p_and_l PropertyID.length
      else p_and_l
    send_change r1 p_and_l

/-- The function `Region::recompute_position_from_time_domain`, which does
nothing. -/
def recompute_position_from_time_domain (r : Region) : Region := r

/-- The function `Region::set_initial_position (pos)`. -/
def set_initial_position (E : Env) (r : Region) (pos : timepos_t) : Region :=
  if !E.can_move r then r
  else
    let r3 :=
      if r.position ≠ pos then
        let r1 := { r with position := pos }
        let r2 :=
          if E.timepos_max - r1.length < r1.position then
            { r1 with last_length := r1.length, length := E.timepos_max - r1.position }
          else r1
        let r2 := recompute_position_from_time_domain r2
        -- ensure that this move does not cause a range move
        { r2 with last_position := r2.position }
      else r
    send_change r3 [PropertyID.position]

/-- The position `Region::nudge_position (n)` moves the region to: the local
`new_position` of that function, for `n` other than zero. -/
def nudge_target (E : Env) (r : Region) (n : timecnt_t) : timepos_t :=
  if 0 < n then
    if r.position > E.timepos_max - n then E.timepos_max else r.position + n
  else
    if r.position < -n then 0 else r.position + n

/-- The function `Region::nudge_position (n)`. -/
def nudge_position (E : Env) (r : Region) (n : timecnt_t) : Region :=
  if r.locked || r.video_locked then r
  else if n = 0 then r
  else
    let new_position : timepos_t :=
      if 0 < n then
        if r.position > E.timepos_max - n then E.timepos_max
        else r.position + n
      else
        if r.position < -n then 0
        else r.position + n
    -- assumes non-musical nudge
    let r1 := set_position_internal E r new_position
    send_change r1 [PropertyID.position]

/-- The function `Region::set_start (pos)`. -/
def set_start (E : Env) (r : Region) (pos : timecnt_t) : Region :=
  if r.locked || r.position_locked || r.video_locked then r
  else if r.start ≠ pos then
    if !r.verify_start pos then r
    else
      let r1 := r.set_start_internal pos
      let r2 := { r1 with whole_file := false }
      let r3 := do_first_edit E r2
      let r4 := maybe_invalidate_transients r3
      send_change r4 [PropertyID.start]
  else r

/-- The start `Region::move_start (distance)` computes before it verifies it:
`none` stands for the early return when `verify_start` refuses. -/
def move_start_target (E : Env) (r : Region) (distance : timecnt_t) : Option timecnt_t :=
  if 0 < distance then
    let new_start :=
      if r.start > E.timecnt_max - distance then E.timecnt_max
      else r.start + distance
    if !r.verify_start new_start then none else some new_start
  else
    if r.start < -distance then some 0
    else some (r.start + distance)

/-- The function `Region::move_start (distance)`. -/
def move_start (E : Env) (r : Region) (distance : timecnt_t) : Region :=
  if r.locked || r.position_locked || r.video_locked then r
  else
    match move_start_target E r distance with
    | none => r
    | some new_start =>
      if new_start = r.start then r
      else
        let r1 := r.set_start_internal new_start
        let r2 := { r1 with whole_file := false }
        let r3 := do_first_edit E r2
        send_change r3 [PropertyID.start]

/-- The start `Region::trim_to_internal (pos, len)` derives from the shift of
the position, before verification. -/
def trim_new_start (E : Env) (r : Region) (pos : timepos_t) : timecnt_t :=
  let start_shift := pos - r.position
  if 0 < start_shift then
    if r.start > E.timecnt_max - start_shift then E.timecnt_max
    else r.start + start_shift
  else if start_shift < 0 then
    if r.start < -start_shift ∧ ¬ E.can_trim_start_before_source_start then 0
    else r.start + start_shift
  else r.start

/-- First block of `trim_to_internal` after verification: the start is set,
and recorded as changed, when it differs from the derived start `ns`. -/
def trim_step_start (r : Region) (ns : timecnt_t) (what_changed : PropertyChange) :
    Region × PropertyChange :=
  if r.start ≠ ns then
    (r.set_start_internal ns, PropertyChange.add what_changed PropertyID.start)
  else (r, what_changed)

/-- Second block of `trim_to_internal`: the position is set, before the
length, when it differs from `pos`; the shadow position is refreshed unless
property changes are suspended. -/
def trim_step_position (E : Env) (r : Region) (pos : timepos_t)
    (what_changed : PropertyChange) : Region × PropertyChange :=
  if r.position ≠ pos then
    let r1 :=
      if !r.property_changes_suspended then { r with last_position := r.position }
      else r
    (set_position_internal E r1 pos, PropertyChange.add what_changed PropertyID.position)
  else (r, what_changed)

/-- Third block of `trim_to_internal`: the length is set when it differs from
the verified length `nl`; the shadow length is refreshed unless property
changes are suspended. -/
def trim_step_length (r : Region) (nl : timecnt_t) (what_changed : PropertyChange) :
    Region × PropertyChange :=
  if r.length ≠ nl then
    let r1 :=
      if !r.property_changes_suspended then { r with last_length := r.length }
      else r
    (r1.set_length_internal nl, PropertyChange.add what_changed PropertyID.length)
  else (r, what_changed)

/-- The function `Region::trim_to_internal (pos, len)`: derive the start,
verify start and length together, then run the three blocks above in the
order start, position, length, clear `whole_file`, and notify once. -/
def trim_to_internal (E : Env) (r : Region) (pos : timepos_t) (len : timecnt_t) : Region :=
  if r.locked then r
  else
    let ns := trim_new_start E r pos
    let v := r.verify_start_and_length ns len
    if !v.1 then r
    else
      let nl := v.2
      let s1 := trim_step_start r ns []
      let s2 := trim_step_position E s1.1 pos s1.2
      let s3 := trim_step_length s2.1 nl s2.2
      let what_changed := s3.2
      let r4 := { s3.1 with whole_file := false }
      let start_and_length : PropertyChange :=
        PropertyChange.add (PropertyChange.add [] PropertyID.start) PropertyID.length
      let r5 :=
        if PropertyChange.contains_any what_changed start_and_length then do_first_edit E r4
        else r4
      if !what_changed.isEmpty then send_change r5 what_changed else r5

/-- The function `Region::trim_to (position, length)`. -/
def trim_to (E : Env) (r : Region) (position : timepos_t) (length : timecnt_t) : Region :=
  if r.locked then r
  else
    let r1 := trim_to_internal E r position length
    if !r1.property_changes_suspended then recompute_at_end (recompute_at_start r1)
    else r1

/-- Modelled from the spec: `timepos_t::decrement ()` of the time-domain
library, which is not among the sources here: the position one unit earlier,
so that a region at 0 of length 10, whose end is 10, has the last point 9. -/
def timepos_decrement (p : timepos_t) : timepos_t := p - 1

/-- The function `Region::end ()`: position plus length. -/
def end_ (r : Region) : timepos_t :=
  r.position + r.length

/-- The function `Region::source_position ()`: the position earlier by the
start. -/
def source_position (r : Region) : timepos_t :=
  r.position - r.start

/-- The position `np` that `Region::modify_front (new_position, ...)` trims
to: the requested one, not earlier than `source_zero` unless the region can
trim before its source start. -/
def modify_front_position (E : Env) (r : Region) (new_position : timepos_t) : timepos_t :=
  let source_zero : timepos_t :=
    if r.position > r.start then r.source_position
    else 0 -- its actually negative, but this will work for us
  if !E.can_trim_start_before_source_start then max new_position source_zero
  else new_position

/-- The length `newlen` that `Region::modify_front` asks for, which keeps the
end where it is when the front goes to `np`. -/
def modify_front_length (r : Region) (np : timepos_t) : timecnt_t :=
  if np > r.position then r.length - (np - r.position)
  else r.length + (r.position - np)

/-- The function `Region::modify_front (new_position, reset_fade)`. -/
def modify_front (E : Env) (r : Region) (new_position : timepos_t) (reset_fade : Bool) :
    Region :=
  if r.locked then r
  else
    let last := timepos_decrement r.end_
    if new_position < last then -- can't trim it zero or negative length
      let np := modify_front_position E r new_position
      let newlen := modify_front_length r np
      let r1 := trim_to_internal E r np newlen
      let r2 := if reset_fade then { r1 with right_of_split := true } else r1
      let r3 := if !r2.property_changes_suspended then recompute_at_start r2 else r2
      maybe_invalidate_transients r3
    else r

/-- The function `Region::trim_front (new_position)`. -/
def trim_front (E : Env) (r : Region) (new_position : timepos_t) : Region :=
  modify_front E r new_position false

/-- The function `Region::cut_front (new_position)`. -/
def cut_front (E : Env) (r : Region) (new_position : timepos_t) : Region :=
  modify_front E r new_position true

/-- The function `Region::modify_end (new_endpoint, reset_fade)`. -/
def modify_end (E : Env) (r : Region) (new_endpoint : timepos_t) (reset_fade : Bool) :
    Region :=
  if r.locked then r
  else if new_endpoint > r.position then
    let r1 := trim_to_internal E r r.position (new_endpoint - r.position)
    let r2 := if reset_fade then { r1 with left_of_split := true } else r1
    if !r2.property_changes_suspended then recompute_at_end r2 else r2
  else r

/-- The function `Region::trim_end (new_endpoint)`. Its comment in `region.cc`
reads: "New region end point, such that, for example, a region at 0 of length
10 has an endpoint of 9." -/
def trim_end (E : Env) (r : Region) (new_endpoint : timepos_t) : Region :=
  modify_end E r new_endpoint false

/-- The function `Region::cut_end (new_endpoint)`. -/
def cut_end (E : Env) (r : Region) (new_endpoint : timepos_t) : Region :=
  modify_end E r new_endpoint true

/-! ### Sources and use counts -/

/-- The loop of `Region::use_sources`: each source is pushed on `_sources` and
on `_master_sources`, with one `inc_use_count` for each push; the region
connects to the `DropReferences` of a source the first time the source is met
in this call (`unique` is the local set `unique_srcs`). -/
def use_sources_loop : List Source → List Nat → Region → UseCount → Region × UseCount
  | [], _, r, u => (r, u)
  | x :: rest, unique, r, u =>
    let r1 := { r with sources := r.sources ++ [x], master_sources := r.master_sources ++ [x] }
    let u1 := inc_use_count (inc_use_count u x) x
    if x.id ∈ unique then use_sources_loop rest unique r1 u1
    else
      use_sources_loop rest (unique ++ [x.id])
        { r1 with source_connections := r1.source_connections ++ [x.id] } u1

/-- The function `Region::use_sources (s)`. -/
def use_sources (r : Region) (u : UseCount) (s : List Source) : Region × UseCount :=
  use_sources_loop s [] r u

/-- The function `Region::drop_sources ()`: one `dec_use_count` for each entry
of `_sources`, then of `_master_sources`, and both lists are cleared. -/
def drop_sources (r : Region) (u : UseCount) : Region × UseCount :=
  let u1 := r.sources.foldl dec_use_count u
  let u2 := r.master_sources.foldl dec_use_count u1
  ({ r with sources := [], master_sources := [] }, u2)

/-- The function `Region::set_master_sources (srcs)`; `none` is the failure of
`assert (_sources.size() == _master_sources.size())`. -/
def set_master_sources (r : Region) (u : UseCount) (srcs : List Source) :
    Option (Region × UseCount) :=
  let u1 := r.master_sources.foldl dec_use_count u
  let r1 := { r with master_sources := srcs }
  if r1.sources.length = r1.master_sources.length then
    some (r1, r1.master_sources.foldl inc_use_count u1)
  else none

/-- The function `Region::source_deleted`: the sources are dropped and, unless
the session is being deleted, `drop_references ()` is called. -/
def source_deleted (r : Region) (u : UseCount) (deletion_in_progress : Bool) :
    Region × UseCount :=
  let d := drop_sources r u
  if !deletion_in_progress then
    ({ d.1 with signals := d.1.signals ++ [Signal.DropReferences] }, d.2)
  else d

/-- The function `Region::source_equivalent (other)`; `none` is a null
pointer. -/
def source_equivalent (r : Region) (other : Option Region) : Bool :=
  match other with
  | none => false
  | some o =>
    if r.sources.length ≠ o.sources.length
        ∨ r.master_sources.length ≠ o.master_sources.length then false
    else if (r.sources.zip o.sources).any (fun p => decide (p.1.id ≠ p.2.id)) then false
    else if (r.master_sources.zip o.master_sources).any (fun p => decide (p.1.id ≠ p.2.id))
      then false
    else true

/-- The function `Region::any_source_equivalent (other)`; `none` is a null
pointer. -/
def any_source_equivalent (r : Region) (other : Option Region) : Bool :=
  match other with
  | none => false
  | some o => (r.sources.zip o.sources).any (fun p => decide (p.1.id = p.2.id))

/-! ### Constructors -/

/-- The macro `REGION_DEFAULT_STATE (s, l)` with the members each constructor
adds to it, for a region of data type `type`: what a region holds before any
source is attached. No shared handle exists inside a constructor. -/
def default_state (name : String) (type : DataType) (s l : timecnt_t) : Region where
  name := name
  type := type
  sync_marked := false
  left_of_split := false
  right_of_split := false
  valid_transients := false
  start := s
  length := l
  position := 0
  position_time_domain :=
    if type = DataType.MIDI then TimeDomain.BeatTime else TimeDomain.AudioTime
  sync_position := s
  transient_user_start := 0
  muted := false
  locked := false
  video_locked := false
  automatic := false
  whole_file := false
  external := false
  hidden := false
  position_locked := false
  stretch := float.one
  shift := float.one
  last_length := l
  last_position := 0
  first_edit := FirstEdit.EditChangesNothing
  layer := 0
  shared := false

/-- The macro `REGION_COPY_STATE (other)` with the members the copying
constructors add to it (`_last_length`, `_last_position`, `_layer` from
`other`, `_first_edit` reset): the region before the constructor body runs,
with no source, no playlist, no detected onsets and a fresh notification
state. -/
def copy_state (other : Region) : Region where
  name := other.name
  type := other.type
  sync_marked := other.sync_marked
  left_of_split := other.left_of_split
  right_of_split := other.right_of_split
  valid_transients := other.valid_transients
  start := other.start
  length := other.length
  position := other.position
  position_time_domain := other.position_time_domain
  sync_position := other.sync_position
  user_transients := other.user_transients
  transient_user_start := other.transient_user_start
  transients := other.transients
  muted := other.muted
  locked := other.locked
  video_locked := other.video_locked
  automatic := other.automatic
  whole_file := other.whole_file
  external := other.external
  hidden := other.hidden
  position_locked := other.position_locked
  stretch := other.stretch
  shift := other.shift
  last_length := other.last_length
  last_position := other.last_position
  first_edit := FirstEdit.EditChangesNothing
  layer := other.layer
  shared := false

/-- The constructor `Region (Session&, start, length, name, type)`, which
attaches no source. -/
def new_without_sources (start length : timecnt_t) (name : String) (type : DataType) :
    Region :=
  default_state name type start length

/-- The constructor `Region (const SourceList& srcs)`; `none` when `srcs` is
empty, where `srcs.front ()` and `assert (_sources.size() > 0)` fail. -/
def new_from_sources (u : UseCount) (srcs : List Source) : Option (Region × UseCount) :=
  match srcs.head? with
  | none => none
  | some front => some (use_sources (default_state "toBeRenamed" front.type 0 0) u srcs)

/-- The sync point a full copy of `other` takes, once the start of the new
region `r` is set: the last block of `Region (shared_ptr<const Region>)`. -/
def copy_sync (r other : Region) : Region :=
  if other.sync_marked then
    if other.start < other.sync_position then
      -- sync pos was after the start point of the other region
      { r with sync_position := other.sync_position - other.start }
    else
      { r with sync_marked := false, sync_position := r.start }
  else
    { r with sync_marked := false, sync_position := r.start }

/-- The constructor `Region (shared_ptr<const Region> other)`, a full copy;
`none` is the failed assertion of `set_master_sources`. -/
def new_copy (u : UseCount) (other : Region) : Option (Region × UseCount) :=
  let r0 := copy_state other
  let r1 := { r0 with position := other.position, locked := false, whole_file := false,
                      hidden := false }
  let su := use_sources r1 u other.sources
  match set_master_sources su.1 su.2 other.master_sources with
  | none => none
  | some (r2, u2) =>
    let r3 := { r2 with first_edit := other.first_edit }
    let r4 := { r3 with start := other.start }
    some (copy_sync r4 other, u2)

/-- The sync point a copy of `other` with an offset takes, once the start of
the new region `r` is set: the last block of
`Region (shared_ptr<const Region>, timecnt_t const&)`. -/
def offset_copy_sync (r other : Region) : Region :=
  if other.sync_marked then
    if other.sync_position < r.start then
      { r with sync_marked := false, sync_position := r.start }
    else
      { r with sync_position := other.sync_position }
  else
    { r with sync_marked := false, sync_position := r.start }

/-- The constructor `Region (shared_ptr<const Region> other, timecnt_t const&
offset)`, a copy of part of `other`; `none` is the failed assertion of
`set_master_sources`. -/
def new_copy_with_offset (u : UseCount) (other : Region) (offset : timecnt_t) :
    Option (Region × UseCount) :=
  let r0 := copy_state other
  let r1 := { r0 with locked := false, whole_file := false, hidden := false }
  let su := use_sources r1 u other.sources
  match set_master_sources su.1 su.2 other.master_sources with
  | none => none
  | some (r2, u2) =>
    let r3 := { r2 with position := other.position + offset }
    let r4 := { r3 with start := other.start + offset }
    some (offset_copy_sync r4 other, u2)

/-- The constructor `Region (shared_ptr<const Region> other, const SourceList&
srcs)`, a copy of `other` over other sources. The result holds the new region,
`other` after the call (its `_first_edit` is written) and the use counts;
`none` when `srcs` is empty. -/
def new_copy_with_sources (u : UseCount) (other : Region) (srcs : List Source) :
    Option (Region × Region × UseCount) :=
  match srcs.head? with
  | none => none
  | some front =>
    let r0 := { copy_state other with type := front.type,
                                      first_edit := FirstEdit.EditChangesID }
    let r1 := { r0 with locked := false, position_locked := false }
    let other1 := { other with first_edit := FirstEdit.EditChangesName }
    let su := use_sources r1 u srcs
    some (su.1, other1, su.2)

/-- One call on the source lists of a region. -/
inductive SourceOp
  | use_sources (s : List Source)
  | set_master_sources (srcs : List Source)
  | drop_sources
  | source_deleted (deletion_in_progress : Bool)

/-- Apply one call; `none` is a failed assertion. -/
def apply_source_op (st : Region × UseCount) : SourceOp → Option (Region × UseCount)
  | SourceOp.use_sources s => some (use_sources st.1 st.2 s)
  | SourceOp.set_master_sources srcs => set_master_sources st.1 st.2 srcs
  | SourceOp.drop_sources => some (drop_sources st.1 st.2)
  | SourceOp.source_deleted d => some (source_deleted st.1 st.2 d)

/-- Apply a sequence of calls in order, stopping at the first failed
assertion. -/
def apply_source_ops : List SourceOp → Region × UseCount → Option (Region × UseCount)
  | [], st => some st
  | op :: rest, st =>
    match apply_source_op st op with
    | none => none
    | some st1 => apply_source_ops rest st1

/-! ### Sync point -/

/-- The function `Region::set_sync_position (absolute_pos)`. -/
def set_sync_position (r : Region) (absolute_pos : timepos_t) : Region :=
  -- position within our file
  let file_pos : timecnt_t := r.start + (absolute_pos - r.position)
  if file_pos ≠ r.sync_position then
    let r1 := { r with sync_marked := true, sync_position := file_pos }
    let r2 := if !r1.property_changes_suspended then maybe_uncopy r1 else r1
    send_change r2 [PropertyID.sync_position]
  else r

/-- The function `Region::clear_sync_position ()`. -/
def clear_sync_position (r : Region) : Region :=
  if r.sync_marked then
    let r1 := { r with sync_marked := false }
    let r2 := if !r1.property_changes_suspended then maybe_uncopy r1 else r1
    send_change r2 [PropertyID.sync_position]
  else r

/-- The function `Region::sync_offset (int& dir)`: the returned pair is the
C++ result and the value left in the reference argument `dir`. -/
def sync_offset (r : Region) : timecnt_t × Int :=
  if r.sync_marked then
    if r.sync_position > r.start then (r.sync_position - r.start, 1)
    else (r.start - r.sync_position, -1)
  else (0, 0)

/-- The function `Region::adjust_to_sync (pos)`. -/
def adjust_to_sync (E : Env) (r : Region) (pos : timepos_t) : timepos_t :=
  let so := r.sync_offset
  let offset := so.1
  let sync_dir := so.2
  if sync_dir > 0 then
    if pos > offset then pos - offset
    else 0
  else
    if E.timepos_max - pos > offset then pos + offset
    else pos

/-- The function `Region::sync_position ()`, the sync position in session
time (the member `_sync_position` is the field `sync_position`). -/
def get_sync_position (r : Region) : timepos_t :=
  if r.sync_marked then r.source_position + r.sync_position
  else r.position -- if sync has not been marked, use the start of the region

/-! ### Name and flags -/

/-- Modelled from the spec: the base `SessionObject::set_name`, which is not
among the sources here: the name is stored and the name-change signal of the
object is emitted, as the comment at its call in `Region::set_name` says. -/
def session_object_set_name (r : Region) (str : String) : Region :=
  { r with name := str, signals := r.signals ++ [Signal.NameChanged] }

/-- The function `Region::set_name (str)`: the returned pair is the C++
result and the region after the call. -/
def set_name (r : Region) (str : String) : Bool × Region :=
  if r.name = str then (true, r)
  else
    let r1 := session_object_set_name r str
    (true, send_change r1 [PropertyID.name])

/-- The function `Region::set_hidden (yn)`. -/
def set_hidden (r : Region) (yn : Bool) : Region :=
  if r.hidden ≠ yn then send_change { r with hidden := yn } [PropertyID.hidden] else r

/-- The function `Region::set_whole_file (yn)`, which sends no change
signal. -/
def set_whole_file (r : Region) (yn : Bool) : Region :=
  { r with whole_file := yn }

/-- The function `Region::set_automatic (yn)`, which sends no change
signal. -/
def set_automatic (r : Region) (yn : Bool) : Region :=
  { r with automatic := yn }

/-- The function `Region::set_muted (yn)`. -/
def set_muted (r : Region) (yn : Bool) : Region :=
  if r.muted ≠ yn then send_change { r with muted := yn } [PropertyID.muted] else r

/-- The function `Region::set_locked (yn)`. -/
def set_locked (r : Region) (yn : Bool) : Region :=
  if r.locked ≠ yn then send_change { r with locked := yn } [PropertyID.locked] else r

/-- The function `Region::set_video_locked (yn)`. -/
def set_video_locked (r : Region) (yn : Bool) : Region :=
  if r.video_locked ≠ yn then
    send_change { r with video_locked := yn } [PropertyID.video_locked]
  else r

/-- The function `Region::set_position_locked (yn)`, which sends
`Properties::locked`. -/
def set_position_locked (r : Region) (yn : Bool) : Region :=
  if r.position_locked ≠ yn then
    send_change { r with position_locked := yn } [PropertyID.locked]
  else r

/-! ### Restoring from a node, trim capabilities, latest sample -/

/-- First block of `_set_state` after `set_values`: the length of a region of
an earlier "Destructive/Tape" track, longer than its first source, is reset
from the source length. The time domain of the length is that of the
region. -/
def set_state_reset_length (r : Region) : Region :=
  match r.source with
  | some front =>
    if r.type = DataType.AUDIO then
      if r.position_time_domain = TimeDomain.AudioTime ∧ r.length > front.length then
        { r with length := front.length - r.start }
      else r
    else r
  | none => r

/-- Second block of `_set_state`: "fix problems with old sessions corrupted by
impossible values for _stretch or _shift". -/
def set_state_fix_stretch_shift (r : Region) : Region :=
  let r1 := if r.stretch.is_zero then { r with stretch := float.one } else r
  if r1.shift.is_zero then { r1 with shift := float.one } else r1

/-- Third block of `_set_state`: "quick fix for 2.x sessions when region is
muted", on the text of the property "flags" of the node. -/
def set_state_legacy_mute (r : Region) (flags : Option String) : Region :=
  match flags with
  | some text => if contains_text text "Muted" then set_muted r true else r
  | none => r

/-- The function `Region::_set_state (node, version, what_changed, send)`: the
triple is the C++ result, the value left in the reference argument
`what_changed`, and the region after the call. The extra XML and the identity
that the base class reads from the node are not modelled. -/
def _set_state (r : Region) (node : XMLNode) (send : Bool) : Int × PropertyChange × Region :=
  let sv := node.set_values r
  let what_changed := sv.2
  let r2 := set_state_reset_length sv.1
  let r4 := set_state_fix_stretch_shift r2
  let r5 := if send then send_change r4 what_changed else r4
  let r6 := set_state_legacy_mute r5 node.flags
  -- saved property is invalid, region-transients are not saved
  let r7 := if r6.user_transients.length = 0 then { r6 with valid_transients := false } else r6
  (0, what_changed, r7)

/-- The function `Region::can_trim ()`. -/
def can_trim (E : Env) (r : Region) : CanTrim :=
  let ct : CanTrim := {}
  if r.locked then ct
  else
    -- if not locked, we can always move the front later, and the end earlier
    let ct := { ct with FrontTrimLater := true, EndTrimEarlier := true }
    let ct :=
      if r.start ≠ 0 ∨ E.can_trim_start_before_source_start then
        { ct with FrontTrimEarlier := true }
      else ct
    match r.source with
    | some front =>
      if r.start + r.length < front.length then { ct with EndTrimLater := true } else ct
    | none => ct

/-- The function `Region::latest_possible_sample ()`: `minlen` starts at the
maximum and takes `min (minlen, source length)` for each source in turn; the
result is in samples, the unit of the positions of an audio region. -/
def latest_possible_sample (E : Env) (r : Region) : Int :=
  let minlen := r.sources.foldl (fun minlen s => min minlen s.length) E.timecnt_max
  (r.position + minlen) - 1

/-- The number of entries of `sources` and of `master_sources` that are the
source with identity `i`. -/
def occurrences (r : Region) (i : Nat) : Int :=
  ((r.sources.map Source.id).count i : Int) + ((r.master_sources.map Source.id).count i : Int)

/-! ### Suspension of change notification -/

/-- Modelled from the spec: the base `Stateful::suspend_property_changes`,
which is not among the sources here: one more level of suspension. -/
def stateful_suspend_property_changes (r : Region) : Region :=
  { r with stateful_frozen := r.stateful_frozen + 1 }

/-- The function `Region::suspend_property_changes ()`: the base class
suspends, and the shadow values take the current length and position. -/
def suspend_property_changes (r : Region) : Region :=
  let r1 := stateful_suspend_property_changes r
  { r1 with last_length := r1.length, last_position := r1.position }

/-- The function `Region::mid_thaw (what_changed)`. -/
def mid_thaw (r : Region) (what_changed : PropertyChange) : Region :=
  if PropertyID.length ∈ what_changed then
    let r1 := if PropertyID.position ∈ what_changed then recompute_at_start r else r
    recompute_at_end r1
  else r

/-- Modelled from the spec: the base `Stateful::resume_property_changes`,
which is not among the sources here: one level of suspension less; when none
is left, the pending change-set is taken and cleared, `mid_thaw` sees it, and
it is sent as one change-set through `send_change`. -/
def resume_property_changes (r : Region) : Region :=
  let r1 :=
    if r.property_changes_suspended then { r with stateful_frozen := r.stateful_frozen - 1 }
    else r
  if r1.property_changes_suspended then r1
  else
    let what_changed := r1.pending_changed
    let r2 := { r1 with pending_changed := [] }
    let r3 := mid_thaw r2 what_changed
    send_change r3 what_changed

/-- One call of a mutator of the region. -/
inductive Mutation
  | set_position (pos : timepos_t)
  | set_initial_position (pos : timepos_t)
  | nudge_position (n : timecnt_t)
  | set_start (pos : timecnt_t)
  | move_start (distance : timecnt_t)
  | set_length (len : timecnt_t)
  | trim_to (position : timepos_t) (length : timecnt_t)
  | trim_front (new_position : timepos_t)
  | cut_front (new_position : timepos_t)
  | trim_end (new_endpoint : timepos_t)
  | cut_end (new_endpoint : timepos_t)
  | set_sync_position (absolute_pos : timepos_t)
  | clear_sync_position
  | set_name (str : String)
  | set_hidden (yn : Bool)
  | set_muted (yn : Bool)
  | set_locked (yn : Bool)
  | set_video_locked (yn : Bool)
  | set_position_locked (yn : Bool)
  | set_whole_file (yn : Bool)
  | set_automatic (yn : Bool)
  deriving DecidableEq, Repr

/-- The region after one mutator call. -/
def mutate (E : Env) (r : Region) : Mutation → Region
  | Mutation.set_position pos => set_position E r pos
  | Mutation.set_initial_position pos => set_initial_position E r pos
  | Mutation.nudge_position n => nudge_position E r n
  | Mutation.set_start pos => set_start E r pos
  | Mutation.move_start distance => move_start E r distance
  | Mutation.set_length len => set_length E r len
  | Mutation.trim_to position length => trim_to E r position length
  | Mutation.trim_front new_position => trim_front E r new_position
  | Mutation.cut_front new_position => cut_front E r new_position
  | Mutation.trim_end new_endpoint => trim_end E r new_endpoint
  | Mutation.cut_end new_endpoint => cut_end E r new_endpoint
  | Mutation.set_sync_position absolute_pos => set_sync_position r absolute_pos
  | Mutation.clear_sync_position => clear_sync_position r
  | Mutation.set_name str => (set_name r str).2
  | Mutation.set_hidden yn => set_hidden r yn
  | Mutation.set_muted yn => set_muted r yn
  | Mutation.set_locked yn => set_locked r yn
  | Mutation.set_video_locked yn => set_video_locked r yn
  | Mutation.set_position_locked yn => set_position_locked r yn
  | Mutation.set_whole_file yn => set_whole_file r yn
  | Mutation.set_automatic yn => set_automatic r yn

/-- The region after a sequence of mutator calls, in order. -/
def mutate_all (E : Env) (r : Region) : List Mutation → Region
  | [] => r
  | m :: rest => mutate_all E (mutate E r m) rest

/-- The identities one mutator call reports when it runs on the region `r`
while notification is suspended: what it leaves in the pending change-set
when that set starts empty. -/
def touched (E : Env) (r : Region) (m : Mutation) : PropertyChange :=
  (mutate E { r with pending_changed := [] } m).pending_changed

/-- The identities each call of a sequence reports, each call running on the
region the calls before it left. -/
def touched_all (E : Env) (r : Region) : List Mutation → List PropertyChange
  | [] => []
  | m :: rest => touched E r m :: touched_all E (mutate E r m) rest

/-- Whether a signal carries a change-set (`PropertyChanged` or
`RegionPropertyChanged`). -/
def is_change_signal : Signal → Bool
  | Signal.PropertyChanged _ => true
  | Signal.RegionPropertyChanged _ => true
  | _ => false

/-- The region `r` with the pending change-set replaced by `pending`. -/
def with_pending (r : Region) (pending : PropertyChange) : Region :=
  { r with pending_changed := pending }

/-- The regions `a` and `b` differ at most in the pending change-set, and the
one of `a` holds the identities of `P` and those pending in `b`. -/
def pending_extends (P : PropertyChange) (a b : Region) : Prop :=
  ∃ Q : PropertyChange, a = with_pending b Q
    ∧ ∀ p : PropertyID, p ∈ Q ↔ p ∈ P ∨ p ∈ b.pending_changed

/-- From `a` to `b` the suspension level and the shared handle are kept, and
no signal that carries a change-set is added if `a` is suspended. -/
def quiet (a b : Region) : Prop :=
  b.stateful_frozen = a.stateful_frozen ∧ b.shared = a.shared
    ∧ (a.property_changes_suspended = true →
        b.signals.filter is_change_signal = a.signals.filter is_change_signal)


end Region

/-- A sample environment: maxima `2 ^ 62`, a region moves unless it is locked
or position-locked, no trimming before the source start, and renaming that
appends a suffix. -/
def sample_env : Env where
  timepos_max := 4611686018427387904
  timecnt_max := 4611686018427387904
  can_move := fun r => !r.locked && !r.position_locked
  can_trim_start_before_source_start := false
  new_region_name := fun n => n ++ ".1"

/-- An audio region over one fixed-length source of length 10, covering it
entirely from position 0. -/
def region_one_source : Region where
  start := 0
  length := 10
  position := 0
  last_length := 10
  sources := [{ id := 1, length := 10 }]
  master_sources := [{ id := 1, length := 10 }]

/-- A region over two fixed-length sources, of lengths 10 and 20. -/
def region_two_sources : Region where
  start := 0
  length := 5
  position := 0
  last_length := 5
  sources := [{ id := 1, length := 10 }, { id := 2, length := 20 }]
  master_sources := [{ id := 1, length := 10 }, { id := 2, length := 20 }]

/-- A region whose first source has mutable length and whose second source
has the fixed length 10. -/
def region_first_source_mutable : Region where
  start := 0
  length := 5
  position := 0
  last_length := 5
  sources := [{ id := 1, length := 20, length_mutable := true }, { id := 2, length := 10 }]
  master_sources := [{ id := 1, length := 20, length_mutable := true }, { id := 2, length := 10 }]

/-- A region of length 5 whose start is at the end of its only source, of
fixed length 10: what the partial-copy constructor builds from a region with
start 5 and length 5 and the offset 5, since it copies the length and adds the
offset to the start. -/
def region_at_source_end : Region where
  start := 10
  length := 5
  position := 5
  last_length := 5
  sources := [{ id := 1, length := 10 }]
  master_sources := [{ id := 1, length := 10 }]

/-- A region whose start lies before the start of its only source (start -5,
length 12, fixed source length 10): what `set_start (-5)` followed by
`set_length (12)` makes of a region with start 0 and length 7 over that
source, since `verify_start` accepts a negative start. -/
def region_negative_start : Region where
  start := -5
  length := 12
  position := 0
  last_length := 12
  sources := [{ id := 1, length := 10 }]
  master_sources := [{ id := 1, length := 10 }]

/-- A region at position 5 with one fixed-length source. -/
def region_at_five : Region where
  start := 0
  length := 10
  position := 5
  last_length := 10
  last_position := 5
  sources := [{ id := 1, length := 10 }]
  master_sources := [{ id := 1, length := 10 }]

/-- The region `region_at_five` after `trim_front (7)`, with an empty signal
log: start 2, length 8, position 7 over a fixed-length source of length 10. -/
def region_trimmed_front : Region where
  start := 2
  length := 8
  position := 7
  last_length := 10
  last_position := 5
  sources := [{ id := 1, length := 10 }]
  master_sources := [{ id := 1, length := 10 }]

/-- A region with a marked sync point after its start: start 2, sync
position 5. -/
def region_sync_after_start : Region where
  start := 2
  length := 10
  position := 100
  sync_marked := true
  sync_position := 5
  last_length := 10
  last_position := 100
  sources := [{ id := 1, length := 20 }]
  master_sources := [{ id := 1, length := 20 }]

/-- A region with a marked sync point before its start: start 5, sync
position 2. -/
def region_sync_before_start : Region where
  start := 5
  length := 10
  position := 100
  sync_marked := true
  sync_position := 2
  last_length := 10
  last_position := 100
  sources := [{ id := 1, length := 20 }]
  master_sources := [{ id := 1, length := 20 }]

/-- Use counts that are zero for every source. -/
def no_use : UseCount := fun _ => 0

/-- A sequence of calls on the source lists: drop, use two sources, replace
the master sources by two others, lose a source, use one source. -/
def sample_source_ops : List Region.SourceOp :=
  [Region.SourceOp.drop_sources,
   Region.SourceOp.use_sources [{ id := 1, length := 10 }, { id := 2, length := 20 }],
   Region.SourceOp.set_master_sources [{ id := 3, length := 10 }, { id := 4, length := 20 }],
   Region.SourceOp.source_deleted false,
   Region.SourceOp.use_sources [{ id := 5, length := 10 }]]

/-- A region without sources, as the constructor without sources leaves
it. -/
def region_without_sources : Region :=
  Region.new_without_sources 0 10 "placeholder" DataType.AUDIO

/-- A region at position 10 with start 0 and no sync point marked, its stored
sync position at the start. -/
def region_at_ten : Region where
  start := 0
  length := 20
  position := 10
  last_length := 20
  last_position := 10
  sources := [{ id := 1, length := 30 }]
  master_sources := [{ id := 1, length := 30 }]

/-- The region `region_at_ten` after `set_sync_position (17)` and
`clear_sync_position ()`, with an empty signal log: the sync point is not
marked and the stored sync position is still 7. -/
def region_sync_cleared : Region where
  start := 0
  length := 20
  position := 10
  sync_marked := false
  sync_position := 7
  last_length := 20
  last_position := 10
  sources := [{ id := 1, length := 30 }]
  master_sources := [{ id := 1, length := 30 }]

/-- A region with a backward sync point of offset 5: start 5, sync position 0,
marked. -/
def region_sync_backward : Region where
  start := 5
  length := 10
  position := 0
  sync_marked := true
  sync_position := 0
  last_length := 10
  sources := [{ id := 1, length := 20 }]
  master_sources := [{ id := 1, length := 20 }]

/-- A whole-file region with detected onsets, over sources of lengths 10 and
20. -/
def region_with_onsets : Region where
  start := 0
  length := 5
  position := 0
  whole_file := true
  onsets := [3]
  user_transients := [4]
  last_length := 5
  sources := [{ id := 1, length := 10 }, { id := 2, length := 20 }]
  master_sources := [{ id := 1, length := 10 }, { id := 2, length := 20 }]

/-- Three mutator calls that each change an attribute: a move, a new length
and a new start. -/
def sample_mutations : List Region.Mutation :=
  [Region.Mutation.set_position 7, Region.Mutation.set_length 3, Region.Mutation.set_start 1]

/-- Two mutator calls that report nothing: `set_whole_file (true)`, which
changes the flag without a change signal, and the rejected `set_length (0)`. -/
def silent_mutations : List Region.Mutation :=
  [Region.Mutation.set_whole_file true, Region.Mutation.set_length 0]

/-- A node of a legacy session: the stored stretch is zero, the stored shift
is 1.5, and the property "flags" names the region muted. -/
def node_legacy_muted : XMLNode where
  set_values := fun r =>
    ({ r with stretch := float.finite false 0 0, shift := float.finite false 3 (-1) },
      [PropertyID.stretch, PropertyID.shift])
  flags := some "Opaque,Muted,DefaultFadeIn"

/-- Two trims by `trim_to`, each moving the front and shortening the
region. -/
def two_trims : List Region.Mutation :=
  [Region.Mutation.trim_to 7 3, Region.Mutation.trim_to 9 2]

/-- A trim of the front followed by a trim of the end. -/
def front_then_end_trim : List Region.Mutation :=
  [Region.Mutation.trim_front 7, Region.Mutation.trim_end 12]

/-- A position-locked region. -/
def region_position_locked : Region where
  length := 10
  position := 5
  position_locked := true
  sources := [{ id := 1, length := 10 }]
  master_sources := [{ id := 1, length := 10 }]

namespace Region

/-! ## What the notification helpers leave alone -/

@[simp] theorem send_change_start (r : Region) (c : PropertyChange) :
    (send_change r c).start = r.start := by
  unfold send_change stateful_send_change; dsimp only; split_ifs <;> rfl

@[simp] theorem send_change_length (r : Region) (c : PropertyChange) :
    (send_change r c).length = r.length := by
  unfold send_change stateful_send_change; dsimp only; split_ifs <;> rfl

@[simp] theorem send_change_position (r : Region) (c : PropertyChange) :
    (send_change r c).position = r.position := by
  unfold send_change stateful_send_change; dsimp only; split_ifs <;> rfl

@[simp] theorem send_change_sources (r : Region) (c : PropertyChange) :
    (send_change r c).sources = r.sources := by
  unfold send_change stateful_send_change; dsimp only; split_ifs <;> rfl

@[simp] theorem do_first_edit_start (E : Env) (r : Region) :
    (do_first_edit E r).start = r.start := by
  unfold do_first_edit; dsimp only; split_ifs <;> simp

@[simp] theorem do_first_edit_length (E : Env) (r : Region) :
    (do_first_edit E r).length = r.length := by
  unfold do_first_edit; dsimp only; split_ifs <;> simp

@[simp] theorem do_first_edit_position (E : Env) (r : Region) :
    (do_first_edit E r).position = r.position := by
  unfold do_first_edit; dsimp only; split_ifs <;> simp

@[simp] theorem do_first_edit_sources (E : Env) (r : Region) :
    (do_first_edit E r).sources = r.sources := by
  unfold do_first_edit; dsimp only; split_ifs <;> simp

@[simp] theorem maybe_invalidate_transients_start (r : Region) :
    (maybe_invalidate_transients r).start = r.start := by
  unfold maybe_invalidate_transients; dsimp only; split_ifs <;> simp

@[simp] theorem maybe_invalidate_transients_length (r : Region) :
    (maybe_invalidate_transients r).length = r.length := by
  unfold maybe_invalidate_transients; dsimp only; split_ifs <;> simp

@[simp] theorem maybe_invalidate_transients_position (r : Region) :
    (maybe_invalidate_transients r).position = r.position := by
  unfold maybe_invalidate_transients; dsimp only; split_ifs <;> simp

@[simp] theorem maybe_invalidate_transients_sources (r : Region) :
    (maybe_invalidate_transients r).sources = r.sources := by
  unfold maybe_invalidate_transients; dsimp only; split_ifs <;> simp

@[simp] theorem set_position_internal_position (E : Env) (r : Region) (pos : timepos_t) :
    (set_position_internal E r pos).position = pos := by
  unfold set_position_internal
  by_cases h : r.position = pos
  · simp [h]
  · simp only [h, ne_eq, not_false_eq_true, if_true]; split_ifs <;> rfl

@[simp] theorem set_position_internal_start (E : Env) (r : Region) (pos : timepos_t) :
    (set_position_internal E r pos).start = r.start := by
  unfold set_position_internal; dsimp only; split_ifs <;> rfl

@[simp] theorem set_position_internal_sources (E : Env) (r : Region) (pos : timepos_t) :
    (set_position_internal E r pos).sources = r.sources := by
  unfold set_position_internal; dsimp only; split_ifs <;> rfl

/-- What `send_change` emits when notification is not suspended: the set goes
out on the object's signal, then on `RegionPropertyChanged` if a shared handle
exists. -/
theorem send_change_signals (r : Region) (c : PropertyChange) (hc : c ≠ [])
    (hs : r.property_changes_suspended = false) :
    (send_change r c).signals
      = r.signals ++ (Signal.PropertyChanged c ::
          (if r.shared then [Signal.RegionPropertyChanged c] else [])) := by
  have hemp : c.isEmpty = false := by
    cases c with
    | nil => exact absurd rfl hc
    | cons a t => rfl
  unfold property_changes_suspended at hs
  unfold send_change stateful_send_change
  simp only [hemp, property_changes_suspended, hs, Bool.false_eq_true, if_false,
    Bool.not_false, if_true]
  cases hsh : r.shared <;> simp

theorem set_start_position (E : Env) (r : Region) (pos : timecnt_t) :
    (set_start E r pos).position = r.position := by
  unfold set_start set_start_internal; dsimp only
  split_ifs <;> simp

theorem set_start_length (E : Env) (r : Region) (pos : timecnt_t) :
    (set_start E r pos).length = r.length := by
  unfold set_start set_start_internal; dsimp only
  split_ifs <;> simp

theorem move_start_position (E : Env) (r : Region) (distance : timecnt_t) :
    (move_start E r distance).position = r.position := by
  unfold move_start set_start_internal
  split_ifs
  · rfl
  · split
    · rfl
    · dsimp only; split_ifs <;> simp

theorem move_start_length (E : Env) (r : Region) (distance : timecnt_t) :
    (move_start E r distance).length = r.length := by
  unfold move_start set_start_internal
  split_ifs
  · rfl
  · split
    · rfl
    · dsimp only; split_ifs <;> simp

/-! ## The clamp of `verify_length` and `verify_start_and_length` -/

theorem foldl_maxlen_le (sources : List Source) (start acc B : Int)
    (hacc : acc ≤ B) (hB : ∀ s ∈ sources, s.length - start ≤ B) :
    sources.foldl (fun maxlen s => max maxlen (s.length - start)) acc ≤ B := by
  induction sources generalizing acc with
  | nil => simpa using hacc
  | cons s t ih =>
    simp only [List.foldl_cons]
    apply ih
    · exact max_le hacc (hB s (List.mem_cons_self s t))
    · intro x hx
      exact hB x (List.mem_cons_of_mem s hx)

/-- The clamp never allows more than the room between `start` and any bound
`L` on the source lengths, as long as `start` itself is within `L`. -/
theorem maxlen_from_le (sources : List Source) (start L : Int)
    (hL : ∀ s ∈ sources, s.length ≤ L) (hs : start ≤ L) :
    maxlen_from sources start ≤ L - start := by
  unfold maxlen_from
  apply foldl_maxlen_le
  · unfold timecnt_t at *; omega
  · intro s h
    have := hL s h
    unfold timecnt_t at *; omega

theorem set_position_internal_length (E : Env) (r : Region) (pos : timepos_t) :
    (set_position_internal E r pos).length
      = if r.position ≠ pos ∧ E.timepos_max - r.length < pos then E.timepos_max - pos
        else r.length := by
  unfold set_position_internal; dsimp only
  split_ifs <;> first | rfl | simp_all

theorem trim_step_start_fields (r : Region) (ns : timecnt_t) (wc : PropertyChange) :
    (trim_step_start r ns wc).1.start = ns
      ∧ (trim_step_start r ns wc).1.position = r.position
      ∧ (trim_step_start r ns wc).1.sources = r.sources := by
  unfold trim_step_start set_start_internal
  by_cases h : r.start = ns
  · simp [h]
  · simp [h]

theorem trim_step_position_fields (E : Env) (r : Region) (pos : timepos_t)
    (wc : PropertyChange) :
    (trim_step_position E r pos wc).1.start = r.start
      ∧ (trim_step_position E r pos wc).1.position = pos
      ∧ (trim_step_position E r pos wc).1.sources = r.sources := by
  unfold trim_step_position
  by_cases h : r.position = pos
  · simp [h]
  · simp only [h, ne_eq, not_false_eq_true, if_true, set_position_internal_start,
      set_position_internal_position, set_position_internal_sources]
    split_ifs <;> simp

theorem trim_step_length_fields (r : Region) (nl : timecnt_t) (wc : PropertyChange) :
    (trim_step_length r nl wc).1.start = r.start
      ∧ (trim_step_length r nl wc).1.position = r.position
      ∧ (trim_step_length r nl wc).1.length = nl
      ∧ (trim_step_length r nl wc).1.sources = r.sources := by
  unfold trim_step_length set_length_internal
  by_cases h : r.length = nl
  · simp [h]
  · simp only [h, ne_eq, not_false_eq_true, if_true]
    split_ifs <;> simp

/-- What `trim_to_internal` leaves in the three timing attributes of an
unlocked region: the derived start, the verified length and the requested
position. -/
theorem trim_to_internal_fields (E : Env) (r : Region) (pos : timepos_t) (len : timecnt_t)
    (hl : r.locked = false) :
    (trim_to_internal E r pos len).start = trim_new_start E r pos
      ∧ (trim_to_internal E r pos len).length
          = (r.verify_start_and_length (trim_new_start E r pos) len).2
      ∧ (trim_to_internal E r pos len).position = pos
      ∧ (trim_to_internal E r pos len).sources = r.sources := by
  have hv : (r.verify_start_and_length (trim_new_start E r pos) len).1 = true := by
    unfold verify_start_and_length; split_ifs <;> rfl
  unfold trim_to_internal
  simp only [hl, hv, Bool.false_eq_true, if_false, Bool.not_true]
  generalize (r.verify_start_and_length (trim_new_start E r pos) len).2 = nl
  generalize trim_new_start E r pos = ns
  obtain ⟨a1, a2, a3⟩ := trim_step_start_fields r ns []
  obtain ⟨b1, b2, b3⟩ := trim_step_position_fields E (trim_step_start r ns []).1 pos
    (trim_step_start r ns []).2
  obtain ⟨c1, c2, c3, c4⟩ := trim_step_length_fields
    (trim_step_position E (trim_step_start r ns []).1 pos (trim_step_start r ns []).2).1 nl
    (trim_step_position E (trim_step_start r ns []).1 pos (trim_step_start r ns []).2).2
  generalize trim_step_length
    (trim_step_position E (trim_step_start r ns []).1 pos (trim_step_start r ns []).2).1 nl
    (trim_step_position E (trim_step_start r ns []).1 pos (trim_step_start r ns []).2).2 = s3
    at c1 c2 c3 c4 ⊢
  rw [b1, a1] at c1
  rw [b2] at c2
  rw [b3, a3] at c4
  split_ifs <;> simp [c1, c2, c3, c4]

/-- The same for the public `trim_to`. -/
theorem trim_to_fields (E : Env) (r : Region) (pos : timepos_t) (len : timecnt_t)
    (hl : r.locked = false) :
    (trim_to E r pos len).start = trim_new_start E r pos
      ∧ (trim_to E r pos len).length
          = (r.verify_start_and_length (trim_new_start E r pos) len).2
      ∧ (trim_to E r pos len).position = pos
      ∧ (trim_to E r pos len).sources = r.sources := by
  have h := trim_to_internal_fields E r pos len hl
  unfold trim_to recompute_at_end recompute_at_start
  simp only [hl, Bool.false_eq_true, if_false]
  split_ifs <;> exact h

theorem set_length_start (E : Env) (r : Region) (len : timecnt_t) :
    (set_length E r len).start = r.start := by
  unfold set_length set_length_internal maybe_uncopy recompute_at_end; dsimp only
  split_ifs <;> simp

theorem set_length_sources (E : Env) (r : Region) (len : timecnt_t) :
    (set_length E r len).sources = r.sources := by
  unfold set_length set_length_internal maybe_uncopy recompute_at_end; dsimp only
  split_ifs <;> simp

/-- Either `set_length` keeps the length, or the new length is the one
`verify_length` left in its argument. -/
theorem set_length_length (E : Env) (r : Region) (len : timecnt_t) :
    (set_length E r len).length = r.length
      ∨ (set_length E r len).length = (r.verify_length len).2 := by
  unfold set_length set_length_internal maybe_uncopy recompute_at_end; dsimp only
  split_ifs <;> simp

theorem set_start_sources (E : Env) (r : Region) (pos : timecnt_t) :
    (set_start E r pos).sources = r.sources := by
  unfold set_start set_start_internal; dsimp only
  split_ifs <;> simp

/-- Either `set_start` keeps the start, or `verify_start` accepted `pos` and
the start is `pos`. -/
theorem set_start_start (E : Env) (r : Region) (pos : timecnt_t) :
    (set_start E r pos).start = r.start
      ∨ ((set_start E r pos).start = pos ∧ r.verify_start pos = true) := by
  unfold set_start set_start_internal; dsimp only
  split_ifs <;> simp_all

theorem move_start_sources (E : Env) (r : Region) (distance : timecnt_t) :
    (move_start E r distance).sources = r.sources := by
  unfold move_start set_start_internal
  split_ifs
  · rfl
  · split
    · rfl
    · dsimp only; split_ifs <;> simp

/-- Either `move_start` keeps the start, or the start is the target it
computed. -/
theorem move_start_start (E : Env) (r : Region) (distance : timecnt_t) :
    (move_start E r distance).start = r.start
      ∨ move_start_target E r distance = some (move_start E r distance).start := by
  unfold move_start set_start_internal
  split_ifs
  · left; rfl
  · split
    · left; rfl
    · rename_i ns hns
      dsimp only; split_ifs
      · left; rfl
      · right; simp [hns]

/-- When the first source has fixed length, an accepted start leaves room for
the current length in every source. -/
theorem verify_start_sound (r : Region) (pos : timecnt_t)
    (hm : r.source_length_mutable = false) (hv : r.verify_start pos = true) :
    ∀ s ∈ r.sources, pos + r.length ≤ s.length := by
  unfold verify_start at hv
  simp only [hm, Bool.false_eq_true, if_false, List.all_eq_true, Bool.not_eq_true',
    decide_eq_false_iff_not] at hv
  intro s hs
  have := hv s hs
  unfold timecnt_t at *
  omega

end Region

/-! ## Source extent and zero length (C1 to C5) -/

/-- C1, the code at a failing input: over two fixed-length sources of
lengths 10 and 20, `trim_to (0, 15)` changes the region and leaves
`start + length = 15`, more than the shorter source, because
`verify_start_and_length` clamps the length against the longest source. The
sibling `verify_start` tests every source: it makes `set_start (6)` on the
same region return without a change (6 + 5 is beyond the source of length
10), and it rejects the start of the region that `trim_to (0, 15)` left. -/
theorem C1_trim_to_exceeds_shortest_source :
    region_two_sources.locked = false
      ∧ (∀ s ∈ region_two_sources.sources, s.length_mutable = false)
      ∧ Region.trim_to sample_env region_two_sources 0 15 ≠ region_two_sources
      ∧ (∃ s ∈ (Region.trim_to sample_env region_two_sources 0 15).sources,
          s.length < (Region.trim_to sample_env region_two_sources 0 15).start
            + (Region.trim_to sample_env region_two_sources 0 15).length)
      ∧ (Region.trim_to sample_env region_two_sources 0 15).start
          + (Region.trim_to sample_env region_two_sources 0 15).length = 15
      ∧ Region.set_start sample_env region_two_sources 6 = region_two_sources
      ∧ Region.verify_start (Region.trim_to sample_env region_two_sources 0 15)
          (Region.trim_to sample_env region_two_sources 0 15).start = false := by
  decide

/-- What the clamp of `verify_start_and_length` does bound in `trim_to`: the
length is `len` unclamped when the first source has mutable length; when the
first source has fixed length, and the resulting start is not beyond a bound
`L` on all source lengths, `start + length` is at most `L`. -/
theorem trim_to_within_longest_source (E : Env) (r : Region) (pos : timepos_t)
    (len : timecnt_t) (L : Int) (hl : r.locked = false) :
    (r.source_length_mutable = true → (Region.trim_to E r pos len).length = len)
      ∧ (r.source_length_mutable = false → (∀ s ∈ r.sources, s.length ≤ L) →
          (Region.trim_to E r pos len).start ≤ L →
          (Region.trim_to E r pos len).start + (Region.trim_to E r pos len).length ≤ L) := by
  obtain ⟨h1, h2, -, -⟩ := Region.trim_to_fields E r pos len hl
  constructor
  · intro hm
    rw [h2]; unfold Region.verify_start_and_length; simp [hm]
  · intro hm hL hs
    rw [h1] at hs ⊢
    rw [h2]
    unfold Region.verify_start_and_length
    simp only [hm, Bool.false_eq_true, if_false]
    have hb := Region.maxlen_from_le r.sources (Region.trim_new_start E r pos) L hL hs
    have hmin : min len (Region.maxlen_from r.sources (Region.trim_new_start E r pos))
        ≤ Region.maxlen_from r.sources (Region.trim_new_start E r pos) := min_le_right _ _
    unfold timecnt_t at *
    omega

/-- C2, the code at a failing input: over two fixed-length sources of
lengths 10 and 20, `set_length (15)` changes the length and leaves
`start + length = 15`, more than the shortest source, which is not mutable,
because `verify_length` clamps the length against the longest source. The
sibling `verify_start` tests every source: it makes `set_start (6)` on the
same region return without a change, and it rejects the start of the region
that `set_length (15)` left. -/
theorem C2_set_length_exceeds_shortest_source :
    region_two_sources.locked = false
      ∧ region_two_sources.sources ≠ []
      ∧ (Region.set_length sample_env region_two_sources 15).length
          ≠ region_two_sources.length
      ∧ (∃ s ∈ (Region.set_length sample_env region_two_sources 15).sources,
          s.length_mutable = false
          ∧ (∀ t ∈ (Region.set_length sample_env region_two_sources 15).sources,
              s.length ≤ t.length)
          ∧ s.length < (Region.set_length sample_env region_two_sources 15).start
              + (Region.set_length sample_env region_two_sources 15).length)
      ∧ (Region.set_length sample_env region_two_sources 15).start
          + (Region.set_length sample_env region_two_sources 15).length = 15
      ∧ Region.set_start sample_env region_two_sources 6 = region_two_sources
      ∧ Region.verify_start (Region.set_length sample_env region_two_sources 15)
          (Region.set_length sample_env region_two_sources 15).start = false := by
  decide

/-- What the clamp of `verify_length` does bound in `set_length`: whenever the
length changes, it is `len` unclamped when the first source has mutable
length; when the first source has fixed length and the start is not beyond a
bound `L` on all source lengths, `start + length` is at most `L`. -/
theorem set_length_within_longest_source (E : Env) (r : Region) (len : timecnt_t)
    (L : Int) (hchg : (Region.set_length E r len).length ≠ r.length) :
    (r.source_length_mutable = true → (Region.set_length E r len).length = len)
      ∧ (r.source_length_mutable = false → (∀ s ∈ r.sources, s.length ≤ L) →
          r.start ≤ L →
          (Region.set_length E r len).start + (Region.set_length E r len).length ≤ L) := by
  have h2 : (Region.set_length E r len).length = (r.verify_length len).2 := by
    rcases Region.set_length_length E r len with h | h
    · exact absurd h hchg
    · exact h
  constructor
  · intro hm
    rw [h2]; unfold Region.verify_length; simp [hm]
  · intro hm hL hs
    rw [Region.set_length_start, h2]
    unfold Region.verify_length
    simp only [hm, Bool.false_eq_true, if_false]
    have hb := Region.maxlen_from_le r.sources r.start L hL hs
    have hmin : min len (Region.maxlen_from r.sources r.start)
        ≤ Region.maxlen_from r.sources r.start := min_le_right _ _
    unfold timecnt_t at *
    omega

/-- C3, as stated, fails for a region whose start is negative: with start -5,
length 12 and one fixed-length source of length 10, `start + length = 7` is
within the source, and `move_start (-1)` changes the start to 0, which leaves
`start + length = 12`, beyond the source. -/
theorem C3_move_start_from_negative_start_leaves_extent :
    region_negative_start.source_length_mutable = false
      ∧ (∀ s ∈ region_negative_start.sources,
          region_negative_start.start + region_negative_start.length ≤ s.length)
      ∧ (Region.move_start sample_env region_negative_start (-1)).start
          ≠ region_negative_start.start
      ∧ ∃ s ∈ (Region.move_start sample_env region_negative_start (-1)).sources,
          s.length < (Region.move_start sample_env region_negative_start (-1)).start
            + (Region.move_start sample_env region_negative_start (-1)).length := by
  decide

/-- C3, amended: for every region whose first source has fixed length and
whose `start + length` is within every source's length, `start + length` is
within every source's length after `set_start (pos)`, and, when the start is
not negative, after `move_start (distance)`. -/
theorem C3_start_moves_stay_within_sources (E : Env) (r : Region) (pos distance : timecnt_t)
    (hm : r.source_length_mutable = false)
    (hinv : ∀ s ∈ r.sources, r.start + r.length ≤ s.length) :
    (∀ s ∈ (Region.set_start E r pos).sources,
        (Region.set_start E r pos).start + (Region.set_start E r pos).length ≤ s.length)
      ∧ (0 ≤ r.start →
          ∀ s ∈ (Region.move_start E r distance).sources,
            (Region.move_start E r distance).start + (Region.move_start E r distance).length
              ≤ s.length) := by
  constructor
  · intro s hs
    rw [Region.set_start_sources] at hs
    rw [Region.set_start_length]
    rcases Region.set_start_start E r pos with h | ⟨h, hv⟩
    · rw [h]; exact hinv s hs
    · rw [h]; exact Region.verify_start_sound r pos hm hv s hs
  · intro h0 s hs
    rw [Region.move_start_sources] at hs
    rw [Region.move_start_length]
    rcases Region.move_start_start E r distance with h | h
    · rw [h]; exact hinv s hs
    · generalize (Region.move_start E r distance).start = ns at h ⊢
      unfold Region.move_start_target at h
      have hi := hinv s hs
      by_cases hd : 0 < distance
      · simp only [hd, if_true] at h
        generalize (if r.start > E.timecnt_max - distance then E.timecnt_max
          else r.start + distance) = target at h
        by_cases hv : r.verify_start target = true
        · simp only [hv, Bool.not_true, Bool.false_eq_true, if_false] at h
          have hns := Option.some.inj h
          rw [← hns]
          exact Region.verify_start_sound r _ hm hv s hs
        · simp [hv] at h
      · simp only [hd, if_false] at h
        split_ifs at h with hlt
        · have hns := Option.some.inj h
          unfold timecnt_t at *
          omega
        · have hns := Option.some.inj h
          unfold timecnt_t at *
          omega

/-- C3 at work: a start move inside a source of length 10. -/
theorem C3_start_moves_stay_within_sources_witness :
    region_two_sources.source_length_mutable = false
      ∧ (∀ s ∈ region_two_sources.sources,
          region_two_sources.start + region_two_sources.length ≤ s.length)
      ∧ (0 : Int) ≤ region_two_sources.start
      ∧ (Region.move_start sample_env region_two_sources 4).start = 4
      ∧ ∀ s ∈ (Region.move_start sample_env region_two_sources 4).sources,
          (Region.move_start sample_env region_two_sources 4).start
            + (Region.move_start sample_env region_two_sources 4).length ≤ s.length :=
  ⟨by decide, by decide, by decide, by decide,
    (C3_start_moves_stay_within_sources sample_env region_two_sources 4 4 (by decide)
      (by decide)).2 (by decide)⟩

/-- C4, the code at two failing inputs: on a region of length 10 over one
fixed-length source of length 10, `trim_to (0, 0)` leaves the length 0, and so
does `trim_to (10, 5)`, whose position pushes the start to the end of the
source. -/
theorem C4_trim_to_leaves_zero_length :
    region_one_source.locked = false
      ∧ region_one_source.length = 10
      ∧ (Region.trim_to sample_env region_one_source 0 0).length = 0
      ∧ (Region.trim_to sample_env region_one_source 10 5).start = 10
      ∧ (Region.trim_to sample_env region_one_source 10 5).length = 0 := by
  decide

/-- C5, the code at a failing input: with the start at the end of the only
source (start 10, length 5, fixed source length 10), `set_length (3)` passes
the zero test on the request, is clamped to 0 by `verify_length`, and changes
the length from 5 to 0. -/
theorem C5_set_length_leaves_zero_length :
    region_at_source_end.locked = false
      ∧ region_at_source_end.length = 5
      ∧ (Region.set_length sample_env region_at_source_end 3).length = 0 := by
  decide

/-! ## Rejections and position moves (C6 to C10) -/

/-- C6: for every region, `set_length (0)` returns the region as it was, so
`length`, `start`, `position`, `last_length` and `whole_file` are unchanged
and no signal is emitted or left pending; applying it twice is the same as
applying it once. -/
theorem C6_set_length_zero_is_rejected (E : Env) (r : Region) :
    Region.set_length E r 0 = r
      ∧ (Region.set_length E r 0).length = r.length
      ∧ (Region.set_length E r 0).signals = r.signals
      ∧ Region.set_length E (Region.set_length E r 0) 0 = Region.set_length E r 0 := by
  have h : Region.set_length E r 0 = r := by
    unfold Region.set_length
    simp
  refine ⟨h, ?_, ?_, ?_⟩
  · rw [h]
  · rw [h]
  · rw [h, h]

/-- C7: for every region that can move and whose notifications are not
suspended, and every `p` (the current position included), `set_position (p)`
emits exactly one change-set, which contains the position identity: it goes
out once on the object's own signal and, when a shared handle to the region
exists, once more on `RegionPropertyChanged`; nothing else is emitted. -/
theorem C7_set_position_emits_one_change_set (E : Env) (r : Region) (p : timepos_t)
    (hmove : E.can_move r = true) (hsusp : r.property_changes_suspended = false) :
    ∃ what : PropertyChange, PropertyID.position ∈ what
      ∧ (Region.set_position E r p).signals
          = r.signals ++ (Signal.PropertyChanged what ::
              (if r.shared then [Signal.RegionPropertyChanged what] else [])) := by
  have hpi : (Region.set_position_internal E r p).property_changes_suspended = false
      ∧ (Region.set_position_internal E r p).shared = r.shared
      ∧ (Region.set_position_internal E r p).signals = r.signals
      ∧ (Region.set_position_internal E r p).position_time_domain = r.position_time_domain := by
    unfold Region.property_changes_suspended at hsusp ⊢
    unfold Region.set_position_internal; dsimp only
    split_ifs <;> exact ⟨hsusp, rfl, rfl, rfl⟩
  obtain ⟨h1, h2, h3, h4⟩ := hpi
  unfold Region.set_position
  simp only [hmove, Bool.not_true, Bool.false_eq_true, if_false]
  by_cases hd : r.position_time_domain = TimeDomain.AudioTime
  · refine ⟨[PropertyID.position], by simp, ?_⟩
    simp only [h4, hd, ne_eq, not_true_eq_false, if_false]
    rw [Region.send_change_signals _ _ (by simp [PropertyChange.add]) h1, h2, h3]
    rfl
  · refine ⟨[PropertyID.position, PropertyID.length], by simp, ?_⟩
    simp only [h4, hd, ne_eq, not_false_eq_true, if_true]
    rw [Region.send_change_signals _ _ (by simp [PropertyChange.add]) h1, h2, h3]
    rfl

/-- C7 at work: moving a region at position 5 to position 5. -/
theorem C7_set_position_emits_one_change_set_witness :
    sample_env.can_move region_at_five = true
      ∧ region_at_five.property_changes_suspended = false
      ∧ ∃ what : PropertyChange, PropertyID.position ∈ what
        ∧ (Region.set_position sample_env region_at_five 5).signals
            = region_at_five.signals ++ (Signal.PropertyChanged what ::
                (if region_at_five.shared then [Signal.RegionPropertyChanged what] else [])) :=
  ⟨by decide, by decide,
    C7_set_position_emits_one_change_set sample_env region_at_five 5 (by decide) (by decide)⟩

/-- C8: when `can_move` is false, `set_position (p)` and
`set_initial_position (p)` return the region as it was for every `p`:
`position`, `start`, `length`, `last_position` and `last_length` are unchanged
and no signal is emitted. -/
theorem C8_immovable_region_is_untouched (E : Env) (r : Region) (p : timepos_t)
    (hmove : E.can_move r = false) :
    Region.set_position E r p = r ∧ Region.set_initial_position E r p = r := by
  unfold Region.set_position Region.set_initial_position
  simp [hmove]

/-- C8 at work: a position-locked region cannot move. -/
theorem C8_immovable_region_is_untouched_witness :
    sample_env.can_move region_position_locked = false
      ∧ Region.set_position sample_env region_position_locked 7 = region_position_locked
      ∧ Region.set_initial_position sample_env region_position_locked 7
          = region_position_locked :=
  ⟨by decide, C8_immovable_region_is_untouched sample_env region_position_locked 7 (by decide)⟩

/-- C9: if the region is locked, position-locked or video-locked,
`set_start (pos)` and `move_start (distance)` return the region as it was
(no state change, no signal); and in every case, locked or not, they leave
`position` and `length` unchanged. -/
theorem C9_start_moves_keep_position_and_length (E : Env) (r : Region)
    (pos distance : timecnt_t) :
    ((r.locked = true ∨ r.position_locked = true ∨ r.video_locked = true) →
        Region.set_start E r pos = r ∧ Region.move_start E r distance = r)
      ∧ (Region.set_start E r pos).position = r.position
      ∧ (Region.set_start E r pos).length = r.length
      ∧ (Region.move_start E r distance).position = r.position
      ∧ (Region.move_start E r distance).length = r.length := by
  refine ⟨?_, ?_, ?_, ?_, ?_⟩
  · intro h
    have hg : (r.locked || r.position_locked || r.video_locked) = true := by
      rcases h with h | h | h <;> simp [h]
    unfold Region.set_start Region.move_start
    simp [hg]
  · exact Region.set_start_position E r pos
  · exact Region.set_start_length E r pos
  · exact Region.move_start_position E r distance
  · exact Region.move_start_length E r distance

/-- C9 at work: start moves on a position-locked region. -/
theorem C9_start_moves_keep_position_and_length_witness :
    region_position_locked.position_locked = true
      ∧ Region.set_start sample_env region_position_locked 3 = region_position_locked
      ∧ Region.move_start sample_env region_position_locked 2 = region_position_locked :=
  ⟨by decide,
    (C9_start_moves_keep_position_and_length sample_env region_position_locked 3 2).1
      (Or.inr (Or.inl (by decide)))⟩

/-- C10: for every region that is neither locked nor video-locked and every
non-zero `n`, `nudge_position (n)` leaves the position at `0` when `n` is
negative and `position < -n`, at the domain maximum when `n` is positive and
`position > max - n`, and at `position + n` otherwise; from a position in
`[0, max]` the result is again in `[0, max]`, never negative. -/
theorem C10_nudge_position_clamps (E : Env) (r : Region) (n : timecnt_t)
    (hl : r.locked = false) (hv : r.video_locked = false) (hn : n ≠ 0) :
    (n < 0 → r.position < -n → (Region.nudge_position E r n).position = 0)
      ∧ (0 < n → r.position > E.timepos_max - n →
          (Region.nudge_position E r n).position = E.timepos_max)
      ∧ (¬ (n < 0 ∧ r.position < -n) → ¬ (0 < n ∧ r.position > E.timepos_max - n) →
          (Region.nudge_position E r n).position = r.position + n)
      ∧ (0 ≤ r.position → 0 ≤ E.timepos_max →
          0 ≤ (Region.nudge_position E r n).position)
      ∧ (0 ≤ r.position → r.position ≤ E.timepos_max →
          (Region.nudge_position E r n).position ≤ E.timepos_max) := by
  have hpos : (Region.nudge_position E r n).position =
      (if 0 < n then
        if r.position > E.timepos_max - n then E.timepos_max else r.position + n
      else
        if r.position < -n then 0 else r.position + n) := by
    unfold Region.nudge_position
    simp [hl, hv, hn]
  rw [hpos]
  unfold timepos_t timecnt_t at *
  refine ⟨?_, ?_, ?_, ?_, ?_⟩
  · intro h1 h2
    rw [if_neg (by omega), if_pos h2]
  · intro h1 h2
    rw [if_pos h1, if_pos h2]
  · intro h1 h2
    split_ifs <;> first | rfl | omega
  · intro h1 h2
    split_ifs <;> omega
  · intro h1 h2
    split_ifs <;> omega

/-- C10 at work: a nudge by -10 from position 5 stops at 0. -/
theorem C10_nudge_position_clamps_witness :
    region_at_five.locked = false ∧ region_at_five.video_locked = false
      ∧ region_at_five.position = 5
      ∧ (Region.nudge_position sample_env region_at_five (-10)).position = 0 :=
  ⟨by decide, by decide, by decide,
    (C10_nudge_position_clamps sample_env region_at_five (-10) (by decide) (by decide)
      (by decide)).1 (by decide) (by decide)⟩

namespace Region

/-! ## Trims by absolute target -/

/-- The timing attributes after an accepted `modify_front` are those its call
of `trim_to_internal` leaves. -/
theorem modify_front_fields (E : Env) (r : Region) (p : timepos_t) (b : Bool)
    (hl : r.locked = false) (hlt : p < timepos_decrement r.end_) :
    (modify_front E r p b).start
        = (trim_to_internal E r (modify_front_position E r p)
            (modify_front_length r (modify_front_position E r p))).start
      ∧ (modify_front E r p b).length
        = (trim_to_internal E r (modify_front_position E r p)
            (modify_front_length r (modify_front_position E r p))).length
      ∧ (modify_front E r p b).position
        = (trim_to_internal E r (modify_front_position E r p)
            (modify_front_length r (modify_front_position E r p))).position := by
  unfold modify_front recompute_at_start
  simp only [hl, hlt, Bool.false_eq_true, if_false, if_true]
  generalize trim_to_internal E r (modify_front_position E r p)
    (modify_front_length r (modify_front_position E r p)) = t
  simp only [maybe_invalidate_transients_start, maybe_invalidate_transients_length,
    maybe_invalidate_transients_position]
  cases b <;> simp

/-- The timing attributes after an accepted `modify_end` are those its call of
`trim_to_internal` leaves. -/
theorem modify_end_fields (E : Env) (r : Region) (e : timepos_t) (b : Bool)
    (hl : r.locked = false) (hgt : e > r.position) :
    (modify_end E r e b).start = (trim_to_internal E r r.position (e - r.position)).start
      ∧ (modify_end E r e b).length
          = (trim_to_internal E r r.position (e - r.position)).length
      ∧ (modify_end E r e b).position
          = (trim_to_internal E r r.position (e - r.position)).position := by
  unfold modify_end recompute_at_end
  simp only [hl, hgt, Bool.false_eq_true, if_false, if_true]
  generalize trim_to_internal E r r.position (e - r.position) = t
  cases b <;> simp

theorem le_foldl_maxlen (sources : List Source) (start acc : Int) :
    acc ≤ sources.foldl (fun maxlen s => max maxlen (s.length - start)) acc
      ∧ ∀ s ∈ sources,
          s.length - start ≤ sources.foldl (fun maxlen s => max maxlen (s.length - start)) acc := by
  induction sources generalizing acc with
  | nil => simp
  | cons x t ih =>
    simp only [List.foldl_cons, List.mem_cons, forall_eq_or_imp]
    obtain ⟨h1, h2⟩ := ih (max acc (x.length - start))
    exact ⟨le_trans (le_max_left _ _) h1, le_trans (le_max_right _ _) h1, h2⟩

/-- The clamp leaves at least the room each source has past `start`. -/
theorem le_maxlen_from (sources : List Source) (start : Int) (s : Source)
    (hs : s ∈ sources) : s.length - start ≤ maxlen_from sources start := by
  unfold maxlen_from
  exact (le_foldl_maxlen sources start 0).2 s hs

/-- A trim that keeps the position keeps the start. -/
theorem trim_new_start_same_position (E : Env) (r : Region) :
    trim_new_start E r r.position = r.start := by
  unfold trim_new_start
  simp

end Region

/-! ## Trim scenarios (C11 to C13) -/

/-- C11: for every unlocked region over one fixed-length source with
`start + length` within that source, and every position `p` with
`position - start ≤ p < end - 1`, `trim_front (p)` leaves `position = p`,
`start = start + (p - position)` and `length = length - (p - position)`, so
the end is where it was. The position `p` is not negative and the source
length is a duration, not beyond the maximum of durations. -/
theorem C11_trim_front_moves_front_only (E : Env) (r : Region) (s : Source) (p : timepos_t)
    (hl : r.locked = false) (hsrc : r.sources = [s]) (hfix : s.length_mutable = false)
    (hext : r.start + r.length ≤ s.length) (hmax : s.length ≤ E.timecnt_max)
    (hp0 : 0 ≤ p) (hlo : r.position - r.start ≤ p) (hhi : p < r.position + r.length - 1) :
    (Region.trim_front E r p).position = p
      ∧ (Region.trim_front E r p).start = r.start + (p - r.position)
      ∧ (Region.trim_front E r p).length = r.length - (p - r.position)
      ∧ (Region.trim_front E r p).position + (Region.trim_front E r p).length
          = r.position + r.length := by
  have hlt : p < Region.timepos_decrement r.end_ := by
    unfold Region.timepos_decrement Region.end_; exact hhi
  have hnp : Region.modify_front_position E r p = p := by
    unfold Region.modify_front_position Region.source_position
    dsimp only
    unfold timepos_t timecnt_t at *
    split_ifs <;> first | rfl | (apply max_eq_left; omega)
  have hnl : Region.modify_front_length r p = r.length - (p - r.position) := by
    unfold Region.modify_front_length
    unfold timepos_t timecnt_t at *
    split_ifs <;> omega
  have hns : Region.trim_new_start E r p = r.start + (p - r.position) := by
    unfold Region.trim_new_start
    dsimp only
    unfold timepos_t timecnt_t at *
    split_ifs <;> omega
  have hmut : r.source_length_mutable = false := by
    unfold Region.source_length_mutable Region.source
    simp [hsrc, hfix]
  have hv : (r.verify_start_and_length (r.start + (p - r.position))
      (r.length - (p - r.position))).2 = r.length - (p - r.position) := by
    unfold Region.verify_start_and_length Region.maxlen_from
    simp only [hmut, Bool.false_eq_true, if_false, hsrc, List.foldl_cons, List.foldl_nil]
    apply min_eq_left
    apply le_max_of_le_right
    unfold timecnt_t at *
    omega
  obtain ⟨f1, f2, f3⟩ := Region.modify_front_fields E r p false hl hlt
  obtain ⟨t1, t2, t3, -⟩ := Region.trim_to_internal_fields E r p
    (r.length - (p - r.position)) hl
  rw [hnp, hnl] at f1 f2 f3
  rw [hns] at t1 t2
  rw [hv] at t2
  unfold Region.trim_front
  rw [f1, f2, f3, t1, t2, t3]
  refine ⟨rfl, rfl, rfl, ?_⟩
  unfold timepos_t timecnt_t at *
  omega

/-- C11 at work: start 0, length 10, position 5 over a source of length 10;
`trim_front (7)` gives start 2, length 8, position 7. -/
theorem C11_trim_front_moves_front_only_witness :
    region_at_five.start = 0 ∧ region_at_five.length = 10 ∧ region_at_five.position = 5
      ∧ (Region.trim_front sample_env region_at_five 7).position = 7
      ∧ (Region.trim_front sample_env region_at_five 7).start = 0 + (7 - 5)
      ∧ (Region.trim_front sample_env region_at_five 7).length = 10 - (7 - 5)
      ∧ (Region.trim_front sample_env region_at_five 7).position
          + (Region.trim_front sample_env region_at_five 7).length = 5 + 10 :=
  ⟨by decide, by decide, by decide,
    C11_trim_front_moves_front_only sample_env region_at_five { id := 1, length := 10 } 7
      (by decide) (by decide) (by decide) (by decide) (by decide) (by decide) (by decide)
      (by decide)⟩

/-- C12: for every unlocked region and every end point `e` after the position
for which `e - position` fits in the source extent past the start (the first
source has mutable length, or some source reaches that far), `cut_end (e)`
sets the length to `e - position` and leaves position and start unchanged. -/
theorem C12_cut_end_sets_length (E : Env) (r : Region) (e : timepos_t)
    (hl : r.locked = false) (hgt : e > r.position)
    (hfit : r.source_length_mutable = true
      ∨ ∃ s ∈ r.sources, e - r.position ≤ s.length - r.start) :
    (Region.cut_end E r e).length = e - r.position
      ∧ (Region.cut_end E r e).position = r.position
      ∧ (Region.cut_end E r e).start = r.start := by
  obtain ⟨f1, f2, f3⟩ := Region.modify_end_fields E r e true hl hgt
  obtain ⟨t1, t2, t3, -⟩ := Region.trim_to_internal_fields E r r.position
    (e - r.position) hl
  rw [Region.trim_new_start_same_position] at t1 t2
  unfold Region.cut_end
  rw [f1, f2, f3, t1, t2, t3]
  refine ⟨?_, rfl, rfl⟩
  unfold Region.verify_start_and_length
  cases hm : r.source_length_mutable
  · simp only [Bool.false_eq_true, if_false]
    rcases hfit with h | ⟨s, hs, hle⟩
    · rw [hm] at h; cases h
    · apply min_eq_left
      exact le_trans hle (Region.le_maxlen_from r.sources r.start s hs)
  · simp

/-- C12 at work: start 2, length 8, position 7 over a source of length 10;
`cut_end (9)` gives length 2 at position 7. -/
theorem C12_cut_end_sets_length_witness :
    region_trimmed_front.start = 2 ∧ region_trimmed_front.length = 8
      ∧ region_trimmed_front.position = 7
      ∧ (Region.cut_end sample_env region_trimmed_front 9).length = 9 - 7
      ∧ (Region.cut_end sample_env region_trimmed_front 9).position = 7
      ∧ (Region.cut_end sample_env region_trimmed_front 9).start = 2 :=
  ⟨by decide, by decide, by decide,
    C12_cut_end_sets_length sample_env region_trimmed_front 9 (by decide) (by decide)
      (Or.inr (by decide))⟩

/-- C13, the code at a failing input: a region at position 0 of length 10,
over a fixed-length source of length 10, has the last point 9 by the comment
of `trim_end`; `trim_end (9)` changes its length to 9. -/
theorem C13_trim_end_at_last_point_shortens :
    region_one_source.locked = false
      ∧ region_one_source.position = 0
      ∧ region_one_source.length = 10
      ∧ (Region.trim_end sample_env region_one_source
          (region_one_source.position + region_one_source.length - 1)).length = 9 := by
  decide

namespace Region

/-! ## Source lists and use counts -/

/-- The loop of `use_sources` appends the list to both source lists. -/
theorem use_sources_loop_lists (s : List Source) (unique : List Nat) (r : Region)
    (u : UseCount) :
    (use_sources_loop s unique r u).1.sources = r.sources ++ s
      ∧ (use_sources_loop s unique r u).1.master_sources = r.master_sources ++ s := by
  induction s generalizing unique r u with
  | nil => simp [use_sources_loop]
  | cons x t ih =>
    unfold use_sources_loop
    dsimp only
    split_ifs
    · obtain ⟨h1, h2⟩ := ih unique
        { r with sources := r.sources ++ [x], master_sources := r.master_sources ++ [x] }
        (inc_use_count (inc_use_count u x) x)
      rw [h1, h2]; simp
    · obtain ⟨h1, h2⟩ := ih (unique ++ [x.id])
        { r with sources := r.sources ++ [x], master_sources := r.master_sources ++ [x],
                 source_connections := r.source_connections ++ [x.id] }
        (inc_use_count (inc_use_count u x) x)
      rw [h1, h2]; simp

theorem use_sources_lists (r : Region) (u : UseCount) (s : List Source) :
    (use_sources r u s).1.sources = r.sources ++ s
      ∧ (use_sources r u s).1.master_sources = r.master_sources ++ s :=
  use_sources_loop_lists s [] r u

/-- Each entry of the list costs the source one use. -/
theorem foldl_dec_use_count (l : List Source) (u : UseCount) (i : Nat) :
    (l.foldl dec_use_count u) i = u i - ((l.map Source.id).count i : Int) := by
  induction l generalizing u with
  | nil => simp
  | cons x t ih =>
    simp only [List.foldl_cons, List.map_cons, List.count_cons]
    rw [ih]
    unfold dec_use_count
    by_cases h : i = x.id
    · subst h; simp; omega
    · have h2 : ¬ x.id = i := fun e => h e.symm
      simp [h, h2]

/-- Each entry of the list gives the source one use. -/
theorem foldl_inc_use_count (l : List Source) (u : UseCount) (i : Nat) :
    (l.foldl inc_use_count u) i = u i + ((l.map Source.id).count i : Int) := by
  induction l generalizing u with
  | nil => simp
  | cons x t ih =>
    simp only [List.foldl_cons, List.map_cons, List.count_cons]
    rw [ih]
    unfold inc_use_count
    by_cases h : i = x.id
    · subst h; simp; omega
    · have h2 : ¬ x.id = i := fun e => h e.symm
      simp [h, h2]

/-- The loop of `use_sources` gives a source two uses for each of its entries
in the list. -/
theorem use_sources_loop_counts (s : List Source) (unique : List Nat) (r : Region)
    (u : UseCount) (i : Nat) :
    (use_sources_loop s unique r u).2 i = u i + 2 * ((s.map Source.id).count i : Int) := by
  induction s generalizing unique r u with
  | nil => simp [use_sources_loop]
  | cons x t ih =>
    unfold use_sources_loop
    dsimp only
    have hstep : inc_use_count (inc_use_count u x) x i
        = u i + 2 * (if x.id = i then (1 : Int) else 0) := by
      unfold inc_use_count
      by_cases h : i = x.id
      · subst h; simp; omega
      · have h2 : ¬ x.id = i := fun e => h e.symm
        simp [h, h2]
    simp only [List.map_cons, List.count_cons, beq_iff_eq]
    by_cases hx : x.id = i
    · simp only [hx, if_true] at hstep ⊢
      split_ifs <;> (rw [ih, hstep]; push_cast; omega)
    · simp only [hx, if_false] at hstep ⊢
      split_ifs <;> (rw [ih, hstep]; push_cast; omega)

theorem use_sources_counts (r : Region) (u : UseCount) (s : List Source) (i : Nat) :
    (use_sources r u s).2 i = u i + 2 * ((s.map Source.id).count i : Int) :=
  use_sources_loop_counts s [] r u i

end Region

namespace Region

/-- The assertion of `set_master_sources` holds exactly when the new list is
as long as `_sources`, and then the lists of the result are as long as each
other. -/
theorem set_master_sources_some (r : Region) (u : UseCount) (srcs : List Source) :
    (r.sources.length = srcs.length → ∃ st, set_master_sources r u srcs = some st)
      ∧ (∀ st, set_master_sources r u srcs = some st →
          st.1.sources = r.sources ∧ st.1.master_sources = srcs
            ∧ r.sources.length = srcs.length) := by
  unfold set_master_sources
  dsimp only
  constructor
  · intro h
    rw [if_pos h]
    exact ⟨_, rfl⟩
  · intro st h
    split_ifs at h with hc
    cases h
    exact ⟨rfl, rfl, hc⟩

/-- After `source_deleted` both source lists are empty. -/
theorem source_deleted_lists (r : Region) (u : UseCount) (d : Bool) :
    (source_deleted r u d).1.sources = []
      ∧ (source_deleted r u d).1.master_sources = [] := by
  unfold source_deleted drop_sources
  cases d <;> exact ⟨rfl, rfl⟩

/-- The body shared by the two copying constructors: after
`use_sources (other->_sources)` on a region without sources,
`set_master_sources (other->_master_sources)` passes its assertion exactly
when the lists of `other` are as long as each other. -/
theorem copy_sources_some (r1 : Region) (u : UseCount) (other : Region)
    (h1 : r1.sources = []) :
    (other.sources.length = other.master_sources.length →
        ∃ st, set_master_sources (use_sources r1 u other.sources).1
          (use_sources r1 u other.sources).2 other.master_sources = some st)
      ∧ (∀ st, set_master_sources (use_sources r1 u other.sources).1
          (use_sources r1 u other.sources).2 other.master_sources = some st →
          st.1.sources = other.sources ∧ st.1.master_sources = other.master_sources
            ∧ other.sources.length = other.master_sources.length) := by
  obtain ⟨a, b⟩ := set_master_sources_some (use_sources r1 u other.sources).1
    (use_sources r1 u other.sources).2 other.master_sources
  obtain ⟨l1, -⟩ := use_sources_lists r1 u other.sources
  rw [h1, List.nil_append] at l1
  rw [l1] at a b
  exact ⟨a, b⟩

end Region

/-- The full copy returns for an `other` whose source lists are as long as
each other. -/
theorem new_copy_returns (u : UseCount) (other : Region)
    (hsz : other.sources.length = other.master_sources.length) :
    ∃ st, Region.new_copy u other = some st := by
  obtain ⟨st, hst⟩ := (Region.copy_sources_some
    { Region.copy_state other with position := other.position, locked := false,
                                   whole_file := false, hidden := false }
    u other rfl).1 hsz
  unfold Region.new_copy
  dsimp only
  rw [hst]
  exact ⟨_, rfl⟩

/-- The copy with an offset returns for an `other` whose source lists are as
long as each other. -/
theorem new_copy_with_offset_returns (u : UseCount) (other : Region) (o : timecnt_t)
    (hsz : other.sources.length = other.master_sources.length) :
    ∃ st, Region.new_copy_with_offset u other o = some st := by
  obtain ⟨st, hst⟩ := (Region.copy_sources_some
    { Region.copy_state other with locked := false, whole_file := false, hidden := false }
    u other rfl).1 hsz
  unfold Region.new_copy_with_offset
  dsimp only
  rw [hst]
  exact ⟨_, rfl⟩

/-! ## Copies (C14 to C16) -/

/-- C14: for every region `other` and every offset `o`, the region the
constructor `Region (other, o)` builds has `start = other.start + o` and
`position = other.position + o`; the constructor returns, without a failed
assertion, for every `other` whose two source lists are as long as each
other. -/
theorem C14_offset_copy_shifts_start_and_position (u : UseCount) (other : Region)
    (o : timecnt_t) :
    (∀ st, Region.new_copy_with_offset u other o = some st →
        st.1.start = other.start + o ∧ st.1.position = other.position + o)
      ∧ (other.sources.length = other.master_sources.length →
          ∃ st, Region.new_copy_with_offset u other o = some st) := by
  constructor
  · intro st h
    unfold Region.new_copy_with_offset at h
    dsimp only at h
    split at h
    · cases h
    · cases h
      unfold Region.offset_copy_sync
      dsimp only
      split_ifs <;> exact ⟨rfl, rfl⟩
  · intro hsz
    obtain ⟨st, hst⟩ := (Region.copy_sources_some
      { Region.copy_state other with locked := false, whole_file := false, hidden := false }
      u other rfl).1 hsz
    unfold Region.new_copy_with_offset
    dsimp only
    rw [hst]
    exact ⟨_, rfl⟩

/-- C14 at work: `other.start = 2`, `other.position = 100` and the offset 3
give start 5 and position 103. -/
theorem C14_offset_copy_shifts_start_and_position_witness :
    region_sync_after_start.start = 2 ∧ region_sync_after_start.position = 100
      ∧ ∃ st, Region.new_copy_with_offset no_use region_sync_after_start 3 = some st
          ∧ st.1.start = 5 ∧ st.1.position = 103 := by
  refine ⟨by decide, by decide, ?_⟩
  obtain ⟨st, hst⟩ := (C14_offset_copy_shifts_start_and_position no_use
    region_sync_after_start 3).2 (by decide)
  obtain ⟨h1, h2⟩ := (C14_offset_copy_shifts_start_and_position no_use
    region_sync_after_start 3).1 st hst
  exact ⟨st, hst, h1, h2⟩

/-- C15, the code at a failing input: `other` has start 2 and a marked sync
point at 5, after its start, so its offset `sync_position - start` is 3. The
full copy keeps the mark and the start 2 and stores the sync position
`5 - 2 = 3`, so its offset is 1. -/
theorem C15_full_copy_moves_sync_offset :
    region_sync_after_start.sync_marked = true
      ∧ region_sync_after_start.start < region_sync_after_start.sync_position
      ∧ region_sync_after_start.sync_position - region_sync_after_start.start = 3
      ∧ (Region.new_copy no_use region_sync_after_start).map
          (fun st => (st.1.sync_marked, st.1.start, st.1.sync_position,
            st.1.sync_position - st.1.start))
          = some (true, 2, 3, 1) := by
  decide

/-- C16: for every region `other` whose sync point is unmarked, or marked and
not after its start, the full copy `Region (other)` has `sync_marked = false`
and a stored `sync_position` equal to its own start; the constructor returns
for every `other` whose two source lists are as long as each other. -/
theorem C16_full_copy_drops_early_sync (u : UseCount) (other : Region)
    (hsync : other.sync_marked = false ∨ ¬ other.start < other.sync_position) :
    (∀ st, Region.new_copy u other = some st →
        st.1.sync_marked = false ∧ st.1.sync_position = st.1.start)
      ∧ (other.sources.length = other.master_sources.length →
          ∃ st, Region.new_copy u other = some st) := by
  constructor
  · intro st h
    unfold Region.new_copy at h
    dsimp only at h
    split at h
    · cases h
    · cases h
      unfold Region.copy_sync
      dsimp only
      rcases hsync with hm | hns
      · simp [hm]
      · cases hm : other.sync_marked
        · simp
        · simp [hns]
  · intro hsz
    obtain ⟨st, hst⟩ := (Region.copy_sources_some
      { Region.copy_state other with position := other.position, locked := false,
                                     whole_file := false, hidden := false }
      u other rfl).1 hsz
    unfold Region.new_copy
    dsimp only
    rw [hst]
    exact ⟨_, rfl⟩

/-- C16 at work: a sync point at 2, before the start 5, is dropped by the
full copy. -/
theorem C16_full_copy_drops_early_sync_witness :
    region_sync_before_start.sync_marked = true
      ∧ ¬ region_sync_before_start.start < region_sync_before_start.sync_position
      ∧ ∃ st, Region.new_copy no_use region_sync_before_start = some st
          ∧ st.1.sync_marked = false ∧ st.1.sync_position = st.1.start := by
  refine ⟨by decide, by decide, ?_⟩
  obtain ⟨st, hst⟩ := (C16_full_copy_drops_early_sync no_use region_sync_before_start
    (Or.inr (by decide))).2 (by decide)
  obtain ⟨h1, h2⟩ := (C16_full_copy_drops_early_sync no_use region_sync_before_start
    (Or.inr (by decide))).1 st hst
  exact ⟨st, hst, h1, h2⟩

/-! ## Source ownership (C17 and C18) -/

/-- C17: for every region whose sources and master sources are the list `L`,
as `use_sources (L)` sets them, `drop_sources` followed by `use_sources (L)`
leaves `sources` and `master_sources` equal to `L` again and gives every
source, those of `L` included, the use count it had before `drop_sources`. -/
theorem C17_drop_then_use_restores_use_counts (r : Region) (u : UseCount) (L : List Source)
    (hs : r.sources = L) (hm : r.master_sources = L) :
    (Region.use_sources (Region.drop_sources r u).1 (Region.drop_sources r u).2 L).1.sources = L
      ∧ (Region.use_sources (Region.drop_sources r u).1
          (Region.drop_sources r u).2 L).1.master_sources = L
      ∧ (∀ s ∈ L, (Region.use_sources (Region.drop_sources r u).1
          (Region.drop_sources r u).2 L).2 s.id = u s.id)
      ∧ ∀ i : Nat, (Region.use_sources (Region.drop_sources r u).1
          (Region.drop_sources r u).2 L).2 i = u i := by
  obtain ⟨l1, l2⟩ := Region.use_sources_lists (Region.drop_sources r u).1
    (Region.drop_sources r u).2 L
  have hc : ∀ i : Nat, (Region.use_sources (Region.drop_sources r u).1
      (Region.drop_sources r u).2 L).2 i = u i := by
    intro i
    rw [Region.use_sources_counts]
    unfold Region.drop_sources
    dsimp only
    rw [Region.foldl_dec_use_count, Region.foldl_dec_use_count, hs, hm]
    omega
  refine ⟨?_, ?_, fun s _ => hc s.id, hc⟩
  · rw [l1]; unfold Region.drop_sources; simp
  · rw [l2]; unfold Region.drop_sources; simp

/-- C17 at work: a region over sources 1 and 2, each used twice by it. -/
theorem C17_drop_then_use_restores_use_counts_witness :
    region_two_sources.sources = region_two_sources.master_sources
      ∧ (Region.use_sources (Region.drop_sources region_two_sources (fun _ => 2)).1
          (Region.drop_sources region_two_sources (fun _ => 2)).2
          region_two_sources.sources).1.sources = region_two_sources.sources
      ∧ (Region.drop_sources region_two_sources (fun _ => 2)).2 1 = 0
      ∧ (Region.use_sources (Region.drop_sources region_two_sources (fun _ => 2)).1
          (Region.drop_sources region_two_sources (fun _ => 2)).2
          region_two_sources.sources).2 1 = 2 :=
  ⟨by decide,
    (C17_drop_then_use_restores_use_counts region_two_sources (fun _ => 2)
      region_two_sources.sources rfl (by decide)).1,
    by decide,
    (C17_drop_then_use_restores_use_counts region_two_sources (fun _ => 2)
      region_two_sources.sources rfl (by decide)).2.2.2 1⟩

/-- C18: `sources.size() == master_sources.size()` holds after every
constructor (the copying ones return exactly for an `other` that has the
property, the ones over a source list for a list that is not empty), and every
sequence of `use_sources`, `set_master_sources`, `drop_sources` and
`source_deleted` calls that runs without a failed assertion keeps it; a
sequence without `set_master_sources` cannot fail, and `set_master_sources`
passes its assertion exactly for a list as long as `sources`. -/
theorem C18_source_lists_have_equal_size (u : UseCount) (other : Region)
    (srcs : List Source) (o start length : timecnt_t) (name : String) (type : DataType) :
    (Region.new_without_sources start length name type).sources.length
        = (Region.new_without_sources start length name type).master_sources.length
      ∧ (∀ st, Region.new_from_sources u srcs = some st →
          st.1.sources.length = st.1.master_sources.length)
      ∧ (srcs ≠ [] → ∃ st, Region.new_from_sources u srcs = some st)
      ∧ (∀ st, Region.new_copy u other = some st →
          st.1.sources.length = st.1.master_sources.length)
      ∧ (∀ st, Region.new_copy_with_offset u other o = some st →
          st.1.sources.length = st.1.master_sources.length)
      ∧ (other.sources.length = other.master_sources.length →
          (∃ st, Region.new_copy u other = some st)
            ∧ ∃ st, Region.new_copy_with_offset u other o = some st)
      ∧ (∀ st, Region.new_copy_with_sources u other srcs = some st →
          st.1.sources.length = st.1.master_sources.length)
      ∧ (srcs ≠ [] → ∃ st, Region.new_copy_with_sources u other srcs = some st)
      ∧ (∀ (ops : List Region.SourceOp) (r : Region) (v : UseCount),
          r.sources.length = r.master_sources.length →
          ∀ st, Region.apply_source_ops ops (r, v) = some st →
            st.1.sources.length = st.1.master_sources.length)
      ∧ (∀ (ops : List Region.SourceOp) (r : Region) (v : UseCount),
          (∀ op ∈ ops, ∀ l, op ≠ Region.SourceOp.set_master_sources l) →
          ∃ st, Region.apply_source_ops ops (r, v) = some st)
      ∧ (∀ (r : Region) (v : UseCount) (l : List Source),
          (∃ st, Region.set_master_sources r v l = some st) ↔ r.sources.length = l.length) := by
  have huse : ∀ (r : Region) (v : UseCount) (l : List Source),
      r.sources.length = r.master_sources.length →
      (Region.use_sources r v l).1.sources.length
        = (Region.use_sources r v l).1.master_sources.length := by
    intro r v l h
    obtain ⟨a, b⟩ := Region.use_sources_lists r v l
    rw [a, b, List.length_append, List.length_append, h]
  refine ⟨rfl, ?_, ?_, ?_, ?_, ?_, ?_, ?_, ?_, ?_, ?_⟩
  · intro st h
    unfold Region.new_from_sources at h
    split at h
    · cases h
    · cases h
      exact huse _ _ _ rfl
  · intro hne
    cases srcs with
    | nil => exact absurd rfl hne
    | cons x t => exact ⟨_, rfl⟩
  · intro st h
    unfold Region.new_copy at h
    dsimp only at h
    split at h
    · cases h
    · rename_i r2 u2 heq
      cases h
      obtain ⟨a, b, c⟩ := (Region.copy_sources_some _ u other rfl).2 _ heq
      unfold Region.copy_sync
      dsimp only at a b ⊢
      split_ifs <;> (dsimp only; rw [a, b, c])
  · intro st h
    unfold Region.new_copy_with_offset at h
    dsimp only at h
    split at h
    · cases h
    · rename_i r2 u2 heq
      cases h
      obtain ⟨a, b, c⟩ := (Region.copy_sources_some _ u other rfl).2 _ heq
      unfold Region.offset_copy_sync
      dsimp only at a b ⊢
      split_ifs <;> (dsimp only; rw [a, b, c])
  · intro hsz
    exact ⟨(new_copy_returns u other hsz),
      (new_copy_with_offset_returns u other o hsz)⟩
  · intro st h
    unfold Region.new_copy_with_sources at h
    split at h
    · cases h
    · cases h
      exact huse _ _ _ rfl
  · intro hne
    cases srcs with
    | nil => exact absurd rfl hne
    | cons x t => exact ⟨_, rfl⟩
  · intro ops
    induction ops with
    | nil =>
      intro r v h st hst
      cases hst
      exact h
    | cons op rest ih =>
      intro r v h st hst
      unfold Region.apply_source_ops at hst
      cases op with
      | use_sources l =>
        exact ih _ _ (huse r v l h) st hst
      | set_master_sources l =>
        simp only [Region.apply_source_op] at hst
        split at hst
        · cases hst
        · rename_i st1 heq
          obtain ⟨a, b, c⟩ := (Region.set_master_sources_some r v l).2 st1 heq
          exact ih st1.1 st1.2 (by rw [a, b, c]) st hst
      | drop_sources =>
        exact ih _ _ rfl st hst
      | source_deleted d =>
        obtain ⟨a, b⟩ := Region.source_deleted_lists r v d
        exact ih (Region.source_deleted r v d).1 (Region.source_deleted r v d).2
          (by rw [a, b]) st hst
  · intro ops
    induction ops with
    | nil => intro r v _; exact ⟨_, rfl⟩
    | cons op rest ih =>
      intro r v hno
      have hrest : ∀ op2 ∈ rest, ∀ l, op2 ≠ Region.SourceOp.set_master_sources l :=
        fun op2 h2 => hno op2 (List.mem_cons_of_mem op h2)
      unfold Region.apply_source_ops
      cases op with
      | use_sources l => exact ih _ _ hrest
      | set_master_sources l => exact absurd rfl (hno _ (List.mem_cons_self _ _) l)
      | drop_sources => exact ih _ _ hrest
      | source_deleted d => exact ih _ _ hrest
  · intro r v l
    constructor
    · rintro ⟨st, hst⟩
      exact ((Region.set_master_sources_some r v l).2 st hst).2.2
    · exact (Region.set_master_sources_some r v l).1

/-- C18 at work: a sequence of five calls on a region over two sources runs
to its end and leaves lists of equal size. -/
theorem C18_source_lists_have_equal_size_witness :
    region_two_sources.sources.length = region_two_sources.master_sources.length
      ∧ ∃ st, Region.apply_source_ops sample_source_ops (region_two_sources, no_use) = some st
          ∧ st.1.sources.length = st.1.master_sources.length := by
  have hsome : (Region.apply_source_ops sample_source_ops
      (region_two_sources, no_use)).isSome = true := by decide
  obtain ⟨st, hst⟩ := Option.isSome_iff_exists.mp hsome
  exact ⟨by decide, st, hst,
    (C18_source_lists_have_equal_size no_use region_two_sources [] 0 0 0 ""
      DataType.AUDIO).2.2.2.2.2.2.2.2.1 sample_source_ops region_two_sources no_use
      (by decide) st hst⟩

namespace Region

/-! ## Source equivalence -/

/-- Some pair of the zipped lists satisfies `p` exactly when some index holds
entries of both lists that satisfy `p`. -/
theorem zip_any_iff (p : Source → Source → Bool) (l1 l2 : List Source) :
    (l1.zip l2).any (fun q => p q.1 q.2) = true
      ↔ ∃ (i : Nat) (x y : Source), l1[i]? = some x ∧ l2[i]? = some y ∧ p x y = true := by
  induction l1 generalizing l2 with
  | nil => simp
  | cons a t ih =>
    cases l2 with
    | nil => simp
    | cons b t2 =>
      simp only [List.zip_cons_cons, List.any_cons, Bool.or_eq_true, ih]
      constructor
      · rintro (h | ⟨i, x, y, h1, h2, h3⟩)
        · exact ⟨0, a, b, List.getElem?_cons_zero, List.getElem?_cons_zero, h⟩
        · exact ⟨i + 1, x, y, by simpa using h1, by simpa using h2, h3⟩
      · rintro ⟨i, x, y, h1, h2, h3⟩
        cases i with
        | zero =>
          simp only [List.getElem?_cons_zero, Option.some.injEq] at h1 h2
          subst h1 h2
          exact Or.inl h3
        | succ j =>
          exact Or.inr ⟨j, x, y, by simpa using h1, by simpa using h2, h3⟩

/-- No pair of the zipped lists differs in identity exactly when the entries
at every common index have the same identity. -/
theorem zip_all_same_iff (l1 l2 : List Source) :
    (l1.zip l2).any (fun q => decide (q.1.id ≠ q.2.id)) = false
      ↔ ∀ (i : Nat) (x y : Source), l1[i]? = some x → l2[i]? = some y → x.id = y.id := by
  have h := zip_any_iff (fun x y => decide (x.id ≠ y.id)) l1 l2
  rw [← Bool.not_eq_true, h]
  constructor
  · intro hn i x y h1 h2
    by_contra hne
    exact hn ⟨i, x, y, h1, h2, by simpa using hne⟩
  · rintro hall ⟨i, x, y, h1, h2, h3⟩
    exact (by simpa using h3 : ¬ x.id = y.id) (hall i x y h1 h2)

/-- The result of `source_equivalent` on a region that is not null. -/
theorem source_equivalent_iff (a b : Region) :
    source_equivalent a (some b) = true
      ↔ a.sources.length = b.sources.length
        ∧ a.master_sources.length = b.master_sources.length
        ∧ (∀ (i : Nat) (x y : Source), a.sources[i]? = some x → b.sources[i]? = some y → x.id = y.id)
        ∧ (∀ (i : Nat) (x y : Source), a.master_sources[i]? = some x → b.master_sources[i]? = some y →
            x.id = y.id) := by
  rw [← zip_all_same_iff, ← zip_all_same_iff]
  unfold source_equivalent
  dsimp only
  by_cases h1 : a.sources.length = b.sources.length
  · by_cases h2 : a.master_sources.length = b.master_sources.length
    · cases h3 : (a.sources.zip b.sources).any (fun q => decide (q.1.id ≠ q.2.id))
      · cases h4 : (a.master_sources.zip b.master_sources).any
          (fun q => decide (q.1.id ≠ q.2.id))
        · simp [h1, h2, h3, h4]
        · simp [h1, h2, h3, h4]
      · simp [h1, h2, h3]
    · simp [h1, h2]
  · simp [h1]

/-- Pairwise identity of two lists of equal length is an equivalence; this is
its transitivity. -/
theorem pairwise_id_trans (l1 l2 l3 : List Source) (hlen : l1.length = l2.length)
    (h12 : ∀ (i : Nat) (x y : Source), l1[i]? = some x → l2[i]? = some y → x.id = y.id)
    (h23 : ∀ (i : Nat) (x y : Source), l2[i]? = some x → l3[i]? = some y → x.id = y.id) :
    ∀ (i : Nat) (x z : Source), l1[i]? = some x → l3[i]? = some z → x.id = z.id := by
  intro i x z h1 h3
  obtain ⟨hi, -⟩ := List.getElem?_eq_some_iff.mp h1
  have hi2 : i < l2.length := hlen ▸ hi
  have h2 : l2[i]? = some l2[i] := List.getElem?_eq_getElem hi2
  exact (h12 i x _ h1 h2).trans (h23 i _ z h2 h3)

end Region

/-! ## Source equivalence (C19 and C20) -/

/-- C19: `a.source_equivalent (b)` is false for a null `b`, and for a `b`
that is not null it is true if and only if the source lists have equal
length, the master-source lists have equal length, and the source identities
are equal at every index of both pairs of lists; so `source_equivalent` is
reflexive, symmetric and transitive. -/
theorem C19_source_equivalent_is_pairwise_identity (a b c : Region) :
    Region.source_equivalent a none = false
      ∧ (Region.source_equivalent a (some b) = true
          ↔ a.sources.length = b.sources.length
            ∧ a.master_sources.length = b.master_sources.length
            ∧ (∀ (i : Nat) (x y : Source), a.sources[i]? = some x → b.sources[i]? = some y → x.id = y.id)
            ∧ (∀ (i : Nat) (x y : Source), a.master_sources[i]? = some x → b.master_sources[i]? = some y →
                x.id = y.id))
      ∧ Region.source_equivalent a (some a) = true
      ∧ (Region.source_equivalent a (some b) = true →
          Region.source_equivalent b (some a) = true)
      ∧ (Region.source_equivalent a (some b) = true →
          Region.source_equivalent b (some c) = true →
          Region.source_equivalent a (some c) = true) := by
  refine ⟨rfl, Region.source_equivalent_iff a b, ?_, ?_, ?_⟩
  · rw [Region.source_equivalent_iff]
    refine ⟨rfl, rfl, ?_, ?_⟩ <;>
    · intro i x y h1 h2
      rw [h1] at h2
      cases h2
      rfl
  · rw [Region.source_equivalent_iff, Region.source_equivalent_iff]
    rintro ⟨h1, h2, h3, h4⟩
    exact ⟨h1.symm, h2.symm, fun i x y hx hy => (h3 i y x hy hx).symm,
      fun i x y hx hy => (h4 i y x hy hx).symm⟩
  · rw [Region.source_equivalent_iff, Region.source_equivalent_iff,
      Region.source_equivalent_iff]
    rintro ⟨h1, h2, h3, h4⟩ ⟨k1, k2, k3, k4⟩
    exact ⟨h1.trans k1, h2.trans k2,
      Region.pairwise_id_trans _ _ _ h1 h3 k3, Region.pairwise_id_trans _ _ _ h2 h4 k4⟩

/-- C19 at work: two regions over sources with the same identities, of which
one is position-locked, are source-equivalent both ways. -/
theorem C19_source_equivalent_is_pairwise_identity_witness :
    Region.source_equivalent region_at_five (some region_position_locked) = true
      ∧ Region.source_equivalent region_position_locked (some region_at_five) = true :=
  ⟨by decide,
    (C19_source_equivalent_is_pairwise_identity region_at_five region_position_locked
      region_at_five).2.2.2.1 (by decide)⟩

/-- C20, as stated, fails for regions without sources: two regions built by
the constructor that attaches no source are source-equivalent, and not
any-source-equivalent. -/
theorem C20_source_equivalent_without_any_source_equivalent :
    Region.source_equivalent region_without_sources (some region_without_sources) = true
      ∧ Region.any_source_equivalent region_without_sources (some region_without_sources)
          = false := by
  decide

/-- C20, amended: for every pair of regions `a` and `b` where `a` has at
least one source, `a.source_equivalent (b)` implies
`a.any_source_equivalent (b)`; and `a.any_source_equivalent (b)` holds exactly
when some index below both source-list lengths holds sources of equal
identity (it is false for a null `b`). -/
theorem C20_any_source_equivalent_is_weaker (a b : Region) :
    (a.sources ≠ [] → Region.source_equivalent a (some b) = true →
        Region.any_source_equivalent a (some b) = true)
      ∧ (Region.any_source_equivalent a (some b) = true
          ↔ ∃ (i : Nat) (x y : Source), a.sources[i]? = some x ∧ b.sources[i]? = some y ∧ x.id = y.id)
      ∧ Region.any_source_equivalent a none = false := by
  have hany : Region.any_source_equivalent a (some b) = true
      ↔ ∃ (i : Nat) (x y : Source), a.sources[i]? = some x ∧ b.sources[i]? = some y ∧ x.id = y.id := by
    have h := Region.zip_any_iff (fun x y => decide (x.id = y.id)) a.sources b.sources
    unfold Region.any_source_equivalent
    dsimp only
    rw [h]
    simp
  refine ⟨?_, hany, rfl⟩
  intro hne heq
  rw [hany]
  obtain ⟨h1, -, h3, -⟩ := (Region.source_equivalent_iff a b).mp heq
  have ha : 0 < a.sources.length := List.length_pos.mpr hne
  have hb : 0 < b.sources.length := h1 ▸ ha
  exact ⟨0, a.sources[0], b.sources[0], List.getElem?_eq_getElem ha,
    List.getElem?_eq_getElem hb,
    h3 0 _ _ (List.getElem?_eq_getElem ha) (List.getElem?_eq_getElem hb)⟩

/-- C20 at work: a region over two sources is source-equivalent, and so
any-source-equivalent, to itself. -/
theorem C20_any_source_equivalent_is_weaker_witness :
    region_two_sources.sources ≠ []
      ∧ Region.source_equivalent region_two_sources (some region_two_sources) = true
      ∧ Region.any_source_equivalent region_two_sources (some region_two_sources) = true :=
  ⟨by decide, by decide,
    (C20_any_source_equivalent_is_weaker region_two_sources region_two_sources).1
      (by decide) (by decide)⟩

namespace Region

/-- The offset `sync_offset` returns is never negative. -/
theorem sync_offset_nonneg (r : Region) : 0 ≤ (sync_offset r).1 := by
  unfold sync_offset
  unfold timecnt_t at *
  split_ifs <;> simp <;> omega

@[simp] theorem send_change_sync_marked (r : Region) (c : PropertyChange) :
    (send_change r c).sync_marked = r.sync_marked := by
  unfold send_change stateful_send_change; dsimp only; split_ifs <;> rfl

@[simp] theorem send_change_sync_position (r : Region) (c : PropertyChange) :
    (send_change r c).sync_position = r.sync_position := by
  unfold send_change stateful_send_change; dsimp only; split_ifs <;> rfl

/-- What `set_sync_position (a)` leaves: start and position as they were, the
stored offset `start + (a - position)`, and the mark set when that offset is
not the one stored before. -/
theorem set_sync_position_fields (r : Region) (a : timepos_t) :
    (set_sync_position r a).start = r.start
      ∧ (set_sync_position r a).position = r.position
      ∧ (set_sync_position r a).sync_position = r.start + (a - r.position)
      ∧ (r.start + (a - r.position) ≠ r.sync_position →
          (set_sync_position r a).sync_marked = true)
      ∧ (r.start + (a - r.position) = r.sync_position →
          (set_sync_position r a).sync_marked = r.sync_marked) := by
  unfold set_sync_position maybe_uncopy
  dsimp only
  by_cases hne : r.start + (a - r.position) = r.sync_position
  · simp [hne]
  · simp only [hne, ne_eq, not_false_eq_true, if_true, send_change_start,
      send_change_position, send_change_sync_position, send_change_sync_marked]
    split_ifs <;> simp

/-- The round trip of the sync point when `set_sync_position` stores a new
offset or the sync point was marked before: `sync_position ()` then answers
the position that was set. -/
theorem sync_position_round_trip (r : Region) (a : timepos_t)
    (h : r.sync_marked = true ∨ r.start + (a - r.position) ≠ r.sync_position) :
    get_sync_position (set_sync_position r a) = a := by
  obtain ⟨h1, h2, h3, h4, h5⟩ := set_sync_position_fields r a
  have hm : (set_sync_position r a).sync_marked = true := by
    by_cases hne : r.start + (a - r.position) = r.sync_position
    · rcases h with h | h
      · rw [h5 hne, h]
      · exact absurd hne h
    · exact h4 hne
  unfold get_sync_position source_position
  rw [hm, if_pos rfl, h1, h2, h3]
  unfold timepos_t timecnt_t at *
  omega

end Region

/-! ## Sync point (C21 to C24) -/

/-- C21, the code at a failing input: on a region at position 10 with start 0
whose sync point was set to 17 and cleared (stored offset 7, not marked),
`set_sync_position (17)` finds the stored offset equal to `start + (17 -
position)` and returns without marking the sync point. The same happens from
a fresh region when the sync point is set, cleared and set again. -/
theorem C21_set_sync_position_leaves_sync_unmarked :
    region_sync_cleared.sync_marked = false
      ∧ region_sync_cleared.start + (17 - region_sync_cleared.position) = 7
      ∧ (Region.set_sync_position region_sync_cleared 17).sync_position = 7
      ∧ (Region.set_sync_position region_sync_cleared 17).sync_marked = false
      ∧ (Region.set_sync_position (Region.clear_sync_position
          (Region.set_sync_position region_at_ten 17)) 17).sync_marked = false := by
  decide

/-- C22, the code at a failing input: a region at position 10 with start 0
(so `start ≤ position`) whose sync point is set to 17, cleared, and set to 17
again answers `sync_position ()` with 10, its position, and not with 17:
the second `set_sync_position (17)` does not mark the sync point. -/
theorem C22_sync_position_round_trip_fails_after_clear :
    region_at_ten.start ≤ region_at_ten.position
      ∧ Region.get_sync_position (Region.set_sync_position region_at_ten 17) = 17
      ∧ Region.get_sync_position (Region.clear_sync_position
          (Region.set_sync_position region_at_ten 17)) = 10
      ∧ Region.get_sync_position (Region.set_sync_position (Region.clear_sync_position
          (Region.set_sync_position region_at_ten 17)) 17) = 10 := by
  decide

/-- C23: `sync_offset (dir)` returns an offset that is never negative; when
the sync point is marked the offset is `|sync_position - start|`, `dir` is 1
exactly when the sync point is marked and after the start, and -1 when it is
marked and not after the start; when it is not marked, `dir` is 0 and the
offset is zero. -/
theorem C23_sync_offset_direction (r : Region) :
    0 ≤ (Region.sync_offset r).1
      ∧ (r.sync_marked = true → (Region.sync_offset r).1 = |r.sync_position - r.start|)
      ∧ ((Region.sync_offset r).2 = 1 ↔ (r.sync_marked = true ∧ r.sync_position > r.start))
      ∧ (r.sync_marked = true → ¬ r.sync_position > r.start → (Region.sync_offset r).2 = -1)
      ∧ (r.sync_marked = false → (Region.sync_offset r).2 = 0 ∧ (Region.sync_offset r).1 = 0) := by
  unfold Region.sync_offset
  cases hm : r.sync_marked
  · simp
  · by_cases hgt : r.sync_position > r.start
    · have h1 : (0 : Int) < r.sync_position - r.start := by
        unfold timecnt_t at *; omega
      simp only [hgt, if_true, if_false, abs_of_pos h1]
      exact ⟨le_of_lt h1, by simp, by simp, by simp, by simp⟩
    · have h1 : r.sync_position - r.start ≤ (0 : Int) := by
        unfold timecnt_t at *; omega
      simp only [hgt, if_true, if_false, abs_of_nonpos h1]
      refine ⟨?_, fun _ => ?_, by simp, by simp, by simp⟩
      · unfold timecnt_t at *; omega
      · unfold timecnt_t at *; omega

/-- C23 at work: a sync point at 5 after the start 2 is forward with offset 3;
a sync point at 0 before the start 5 is backward with offset 5. -/
theorem C23_sync_offset_direction_witness :
    region_sync_after_start.sync_marked = true
      ∧ (Region.sync_offset region_sync_after_start).1 = |(5 : Int) - 2|
      ∧ region_sync_backward.sync_marked = true
      ∧ ¬ region_sync_backward.sync_position > region_sync_backward.start
      ∧ (Region.sync_offset region_sync_backward).2 = -1 :=
  ⟨by decide, (C23_sync_offset_direction region_sync_after_start).2.1 (by decide),
    by decide, by decide,
    (C23_sync_offset_direction region_sync_backward).2.2.2.1 (by decide) (by decide)⟩

/-- C24, as stated, fails at the boundary: with a backward sync of offset 5
and `pos` five units before the domain maximum, `pos + 5` is the maximum, not
past it, and `adjust_to_sync (pos)` returns `pos`, not `pos + 5`. -/
theorem C24_adjust_to_sync_stops_short_of_maximum :
    (Region.sync_offset region_sync_backward) = (5, -1)
      ∧ sample_env.timepos_max - 5 + 5 ≤ sample_env.timepos_max
      ∧ Region.adjust_to_sync sample_env region_sync_backward (sample_env.timepos_max - 5)
          = sample_env.timepos_max - 5
      ∧ Region.adjust_to_sync sample_env region_sync_backward (sample_env.timepos_max - 5)
          ≠ sample_env.timepos_max - 5 + 5 := by
  decide

/-- C24, amended: for every region and position `pos`, with a forward sync of
offset `d`, `adjust_to_sync (pos)` returns `pos - d` when `pos > d` and 0
otherwise; with a backward sync of offset `d` it returns `pos + d` unless that
would reach or pass the domain maximum, in which case `pos`; with no marked
sync it returns `pos`; the result is never negative for a position
`pos ≥ 0`. -/
theorem C24_adjust_to_sync_clamps (E : Env) (r : Region) (pos : timepos_t) :
    ((Region.sync_offset r).2 = 1 →
        (pos > (Region.sync_offset r).1 →
          Region.adjust_to_sync E r pos = pos - (Region.sync_offset r).1)
        ∧ (¬ pos > (Region.sync_offset r).1 → Region.adjust_to_sync E r pos = 0))
      ∧ ((Region.sync_offset r).2 = -1 →
          (pos + (Region.sync_offset r).1 < E.timepos_max →
            Region.adjust_to_sync E r pos = pos + (Region.sync_offset r).1)
          ∧ (¬ pos + (Region.sync_offset r).1 < E.timepos_max →
            Region.adjust_to_sync E r pos = pos))
      ∧ (r.sync_marked = false → Region.adjust_to_sync E r pos = pos)
      ∧ (0 ≤ pos → 0 ≤ Region.adjust_to_sync E r pos) := by
  have hnn : 0 ≤ (Region.sync_offset r).1 := Region.sync_offset_nonneg r
  have hdir : r.sync_marked = false → (Region.sync_offset r) = (0, 0) := by
    intro h; unfold Region.sync_offset; simp [h]
  unfold Region.adjust_to_sync
  dsimp only
  generalize Region.sync_offset r = so at hnn hdir ⊢
  obtain ⟨d, dir⟩ := so
  dsimp only at hnn ⊢
  unfold timepos_t timecnt_t at *
  refine ⟨?_, ?_, ?_, ?_⟩
  · intro h1
    subst h1
    constructor
    · intro h; simp [h]
    · intro h; simp [h]
  · intro h1
    subst h1
    constructor
    · intro h
      have h2 : E.timepos_max - pos > d := by linarith
      simp [h2]
    · intro h
      have h2 : ¬ E.timepos_max - pos > d := fun hh => h (by linarith)
      simp [h2]
  · intro h
    have h2 := hdir h
    simp only [Prod.mk.injEq] at h2
    obtain ⟨h3, h4⟩ := h2
    subst h3 h4
    simp
  · intro h
    split_ifs <;> omega

/-- C24 at work: a backward sync of offset 5 moves position 100 to 105; a
forward sync of offset 3 moves position 2 to 0. -/
theorem C24_adjust_to_sync_clamps_witness :
    (Region.sync_offset region_sync_backward).2 = -1
      ∧ Region.adjust_to_sync sample_env region_sync_backward 100
          = 100 + (Region.sync_offset region_sync_backward).1
      ∧ (Region.sync_offset region_sync_after_start).2 = 1
      ∧ Region.adjust_to_sync sample_env region_sync_after_start 2 = 0 :=
  ⟨by decide,
    ((C24_adjust_to_sync_clamps sample_env region_sync_backward 100).2.1 (by decide)).1
      (by decide),
    by decide,
    ((C24_adjust_to_sync_clamps sample_env region_sync_after_start 2).1 (by decide)).2
      (by decide)⟩

/-! ## Name, shadow values and flags (C25, C27 to C30) -/

/-- C25, as stated, fails when the name does not change: `set_name` with the
current name returns true, not false. -/
theorem C25_set_name_returns_true_when_unchanged :
    region_without_sources.name = "placeholder"
      ∧ (Region.set_name region_without_sources "placeholder").1 = true
      ∧ (Region.set_name region_without_sources "placeholder").2 = region_without_sources := by
  decide

/-- C25, amended: `set_name (str)` returns true in every case. When `str`
differs from the current name, the name is `str` afterwards and the name
change is notified: the object's name signal is emitted and, when
notification is not suspended, the change-set holding the name identity goes
out once on the object's signal and, when a shared handle exists, once on
`RegionPropertyChanged`. When `str` is the current name nothing is changed or
emitted. -/
theorem C25_set_name_reports_success (r : Region) (str : String) :
    (Region.set_name r str).1 = true
      ∧ (str ≠ r.name →
          (Region.set_name r str).2.name = str
            ∧ (r.property_changes_suspended = false →
                (Region.set_name r str).2.signals
                  = r.signals ++ [Signal.NameChanged, Signal.PropertyChanged [PropertyID.name]]
                      ++ (if r.shared then [Signal.RegionPropertyChanged [PropertyID.name]]
                          else [])))
      ∧ (str = r.name → (Region.set_name r str).2 = r) := by
  unfold Region.set_name Region.session_object_set_name
  by_cases h : r.name = str
  · simp [h]
  · have h2 : ¬ str = r.name := fun e => h e.symm
    simp only [h, if_false, h2, ne_eq, not_false_eq_true, true_implies, false_implies,
      and_true, true_and]
    constructor
    · unfold Region.send_change Region.stateful_send_change
      dsimp only
      split_ifs <;> rfl
    · intro hs
      rw [Region.send_change_signals _ _ (by simp) (by
        unfold Region.property_changes_suspended at hs ⊢; exact hs)]
      cases r.shared <;> simp

/-- C25 at work: renaming a region without sources, which has no shared
handle. -/
theorem C25_set_name_reports_success_witness :
    "take" ≠ region_without_sources.name
      ∧ region_without_sources.property_changes_suspended = false
      ∧ (Region.set_name region_without_sources "take").1 = true
      ∧ (Region.set_name region_without_sources "take").2.name = "take"
      ∧ (Region.set_name region_without_sources "take").2.signals
          = region_without_sources.signals
              ++ [Signal.NameChanged, Signal.PropertyChanged [PropertyID.name]]
              ++ (if region_without_sources.shared
                    then [Signal.RegionPropertyChanged [PropertyID.name]] else []) :=
  ⟨by decide, by decide, (C25_set_name_reports_success region_without_sources "take").1,
    ((C25_set_name_reports_success region_without_sources "take").2.1 (by decide)).1,
    ((C25_set_name_reports_success region_without_sources "take").2.1 (by decide)).2
      (by decide)⟩

/-- C27, as stated, fails when the position changes: on a movable region at
position 5 whose shadow position is 5, `set_initial_position (7)` leaves the
shadow position 7. -/
theorem C27_set_initial_position_moves_last_position :
    sample_env.can_move region_at_five = true
      ∧ region_at_five.last_position = 5
      ∧ (Region.set_initial_position sample_env region_at_five 7).last_position = 7 := by
  decide

/-- C27, amended: for every movable region and every `pos`,
`set_initial_position (pos)` leaves both shadow values unchanged when `pos` is
the current position; otherwise the shadow position is the new position (no
move is implied), and the shadow length is unchanged unless the length had to
shrink to fit below the domain maximum, in which case it is the length before
the call. -/
theorem C27_set_initial_position_shadow_values (E : Env) (r : Region) (pos : timepos_t)
    (hmove : E.can_move r = true) :
    (pos = r.position →
        (Region.set_initial_position E r pos).last_position = r.last_position
          ∧ (Region.set_initial_position E r pos).last_length = r.last_length)
      ∧ (pos ≠ r.position →
          (Region.set_initial_position E r pos).last_position = pos
            ∧ (Region.set_initial_position E r pos).position = pos
            ∧ (Region.set_initial_position E r pos).last_length
                = if E.timepos_max - r.length < pos then r.length else r.last_length) := by
  have hsc : ∀ (x : Region) (c : PropertyChange),
      (Region.send_change x c).last_position = x.last_position
        ∧ (Region.send_change x c).last_length = x.last_length := by
    intro x c
    unfold Region.send_change Region.stateful_send_change; dsimp only
    split_ifs <;> exact ⟨rfl, rfl⟩
  unfold Region.set_initial_position Region.recompute_position_from_time_domain
  simp only [hmove, Bool.not_true, Bool.false_eq_true, if_false]
  constructor
  · intro h
    have h2 : ¬ r.position ≠ pos := fun e => e h.symm
    simp only [h2, if_false]
    exact hsc r _
  · intro h
    have h2 : r.position ≠ pos := fun e => h e.symm
    simp only [h2, if_true, Region.send_change_position]
    rw [(hsc _ _).1, (hsc _ _).2]
    split_ifs <;> exact ⟨rfl, rfl, rfl⟩

/-- C27 at work: an initial position equal to the current one. -/
theorem C27_set_initial_position_shadow_values_witness :
    sample_env.can_move region_at_five = true
      ∧ (5 : Int) = region_at_five.position
      ∧ (Region.set_initial_position sample_env region_at_five 5).last_position
          = region_at_five.last_position
      ∧ (Region.set_initial_position sample_env region_at_five 5).last_length
          = region_at_five.last_length :=
  ⟨by decide, by decide,
    (C27_set_initial_position_shadow_values sample_env region_at_five 5 (by decide)).1
      (by decide)⟩

/-- C29, the code at a failing input: on a region with one detected onset,
`move_start (2)` changes the start from 0 to 2 and leaves the onset in place;
`set_start (2)` on the same region empties the onsets. -/
theorem C29_move_start_keeps_onsets :
    region_with_onsets.onsets = [3]
      ∧ (Region.move_start sample_env region_with_onsets 2).start = 2
      ∧ (Region.move_start sample_env region_with_onsets 2).onsets = [3]
      ∧ (Region.set_start sample_env region_with_onsets 2).start = 2
      ∧ (Region.set_start sample_env region_with_onsets 2).onsets = []
      ∧ (Region.set_start sample_env region_with_onsets 2).user_transients = [4] := by
  decide

/-- C30, the code at a failing input: on a region that is not position-locked,
`set_position_locked (true)` sets the flag and emits the change-set that
holds the identity `locked`, which does not contain `position_locked`;
`set_locked (true)` emits the same change-set. -/
theorem C30_set_position_locked_reports_locked :
    region_at_five.position_locked = false
      ∧ (Region.set_position_locked region_at_five true).position_locked = true
      ∧ (Region.set_position_locked region_at_five true).signals
          = [Signal.PropertyChanged [PropertyID.locked],
             Signal.RegionPropertyChanged [PropertyID.locked]]
      ∧ PropertyID.position_locked ∉ [PropertyID.locked]
      ∧ (Region.set_locked region_at_five true).signals
          = [Signal.PropertyChanged [PropertyID.locked],
             Signal.RegionPropertyChanged [PropertyID.locked]]
      ∧ Region.set_position_locked region_at_five false = region_at_five := by
  decide

namespace Region

/-! ## The whole-file flag -/

@[simp] theorem send_change_whole_file (r : Region) (c : PropertyChange) :
    (send_change r c).whole_file = r.whole_file := by
  unfold send_change stateful_send_change; dsimp only; split_ifs <;> rfl

@[simp] theorem do_first_edit_whole_file (E : Env) (r : Region) :
    (do_first_edit E r).whole_file = r.whole_file := by
  unfold do_first_edit; dsimp only; split_ifs <;> simp

@[simp] theorem maybe_invalidate_transients_whole_file (r : Region) :
    (maybe_invalidate_transients r).whole_file = r.whole_file := by
  unfold maybe_invalidate_transients; dsimp only; split_ifs <;> simp

/-- Either `set_start` returns the region as it was, or it cleared
`whole_file`. -/
theorem set_start_whole_file (E : Env) (r : Region) (pos : timecnt_t) :
    set_start E r pos = r ∨ (set_start E r pos).whole_file = false := by
  unfold set_start set_start_internal; dsimp only
  split_ifs <;> simp

/-- Either `move_start` returns the region as it was, or it cleared
`whole_file`. -/
theorem move_start_whole_file (E : Env) (r : Region) (distance : timecnt_t) :
    move_start E r distance = r ∨ (move_start E r distance).whole_file = false := by
  unfold move_start set_start_internal
  split_ifs
  · left; rfl
  · split
    · left; rfl
    · dsimp only; split_ifs <;> simp

/-- Either `set_length` returns the region as it was, or it cleared
`whole_file`. -/
theorem set_length_whole_file (E : Env) (r : Region) (len : timecnt_t) :
    set_length E r len = r ∨ (set_length E r len).whole_file = false := by
  unfold set_length set_length_internal maybe_uncopy recompute_at_end; dsimp only
  split_ifs <;> simp

/-- Either `trim_to_internal` returns the region as it was (it is locked), or
it cleared `whole_file`. -/
theorem trim_to_internal_whole_file (E : Env) (r : Region) (pos : timepos_t)
    (len : timecnt_t) :
    trim_to_internal E r pos len = r ∨ (trim_to_internal E r pos len).whole_file = false := by
  unfold trim_to_internal
  dsimp only
  split_ifs <;> simp

/-- Either `trim_to` returns the region as it was, or it cleared
`whole_file`. -/
theorem trim_to_whole_file (E : Env) (r : Region) (pos : timepos_t) (len : timecnt_t) :
    trim_to E r pos len = r ∨ (trim_to E r pos len).whole_file = false := by
  have h := trim_to_internal_whole_file E r pos len
  unfold trim_to recompute_at_end recompute_at_start
  dsimp only
  split_ifs
  · left; rfl
  · exact h
  · exact h

/-- Either `modify_front` leaves start and length as they were, or it cleared
`whole_file`. -/
theorem modify_front_whole_file (E : Env) (r : Region) (p : timepos_t) (b : Bool) :
    ((modify_front E r p b).start = r.start ∧ (modify_front E r p b).length = r.length)
      ∨ (modify_front E r p b).whole_file = false := by
  unfold modify_front recompute_at_start
  dsimp only
  by_cases hl : r.locked = true
  · simp [hl]
  · by_cases hlt : p < timepos_decrement r.end_
    · simp only [hl, hlt, if_false, if_true, Bool.false_eq_true,
        maybe_invalidate_transients_start, maybe_invalidate_transients_length,
        maybe_invalidate_transients_whole_file]
      rcases trim_to_internal_whole_file E r (modify_front_position E r p)
        (modify_front_length r (modify_front_position E r p)) with h | h
      · left; rw [h]; cases b <;> simp
      · right; cases b <;> simp [h]
    · simp [hl, hlt]

/-- Either `modify_end` leaves start and length as they were, or it cleared
`whole_file`. -/
theorem modify_end_whole_file (E : Env) (r : Region) (e : timepos_t) (b : Bool) :
    ((modify_end E r e b).start = r.start ∧ (modify_end E r e b).length = r.length)
      ∨ (modify_end E r e b).whole_file = false := by
  unfold modify_end recompute_at_end
  dsimp only
  by_cases hl : r.locked = true
  · simp [hl]
  · by_cases hgt : e > r.position
    · simp only [hl, hgt, if_false, if_true, Bool.false_eq_true]
      rcases trim_to_internal_whole_file E r r.position (e - r.position) with h | h
      · left; rw [h]; cases b <;> simp
      · right; cases b <;> simp [h]
    · simp [hl, hgt]

end Region

/-- C28: whenever `set_start`, `move_start`, `set_length`, `trim_front`,
`trim_end`, `cut_front`, `cut_end` or `trim_to` changes the start or the
length of the region, the flag `whole_file` is false afterwards. -/
theorem C28_changed_extent_clears_whole_file (E : Env) (r : Region) (pos : timepos_t)
    (len : timecnt_t) :
    (((Region.set_start E r len).start ≠ r.start ∨ (Region.set_start E r len).length ≠ r.length) →
        (Region.set_start E r len).whole_file = false)
      ∧ (((Region.move_start E r len).start ≠ r.start
            ∨ (Region.move_start E r len).length ≠ r.length) →
          (Region.move_start E r len).whole_file = false)
      ∧ (((Region.set_length E r len).start ≠ r.start
            ∨ (Region.set_length E r len).length ≠ r.length) →
          (Region.set_length E r len).whole_file = false)
      ∧ (((Region.trim_front E r pos).start ≠ r.start
            ∨ (Region.trim_front E r pos).length ≠ r.length) →
          (Region.trim_front E r pos).whole_file = false)
      ∧ (((Region.trim_end E r pos).start ≠ r.start
            ∨ (Region.trim_end E r pos).length ≠ r.length) →
          (Region.trim_end E r pos).whole_file = false)
      ∧ (((Region.cut_front E r pos).start ≠ r.start
            ∨ (Region.cut_front E r pos).length ≠ r.length) →
          (Region.cut_front E r pos).whole_file = false)
      ∧ (((Region.cut_end E r pos).start ≠ r.start
            ∨ (Region.cut_end E r pos).length ≠ r.length) →
          (Region.cut_end E r pos).whole_file = false)
      ∧ (((Region.trim_to E r pos len).start ≠ r.start
            ∨ (Region.trim_to E r pos len).length ≠ r.length) →
          (Region.trim_to E r pos len).whole_file = false) := by
  have same : ∀ x : Region, x = r → ¬ (x.start ≠ r.start ∨ x.length ≠ r.length) := by
    intro x hx; subst hx; simp
  have keep : ∀ x : Region, (x.start = r.start ∧ x.length = r.length) →
      ¬ (x.start ≠ r.start ∨ x.length ≠ r.length) := by
    intro x hx; simp [hx.1, hx.2]
  refine ⟨?_, ?_, ?_, ?_, ?_, ?_, ?_, ?_⟩
  · intro h
    rcases Region.set_start_whole_file E r len with e | e
    · exact absurd h (same _ e)
    · exact e
  · intro h
    rcases Region.move_start_whole_file E r len with e | e
    · exact absurd h (same _ e)
    · exact e
  · intro h
    rcases Region.set_length_whole_file E r len with e | e
    · exact absurd h (same _ e)
    · exact e
  · intro h
    rcases Region.modify_front_whole_file E r pos false with e | e
    · exact absurd h (keep _ e)
    · exact e
  · intro h
    rcases Region.modify_end_whole_file E r pos false with e | e
    · exact absurd h (keep _ e)
    · exact e
  · intro h
    rcases Region.modify_front_whole_file E r pos true with e | e
    · exact absurd h (keep _ e)
    · exact e
  · intro h
    rcases Region.modify_end_whole_file E r pos true with e | e
    · exact absurd h (keep _ e)
    · exact e
  · intro h
    rcases Region.trim_to_whole_file E r pos len with e | e
    · exact absurd h (same _ e)
    · exact e

/-- C28 at work: a whole-file region over sources of lengths 10 and 20 loses
the flag when `set_length (3)` shortens it. -/
theorem C28_changed_extent_clears_whole_file_witness :
    region_with_onsets.whole_file = true
      ∧ (Region.set_length sample_env region_with_onsets 3).length
          ≠ region_with_onsets.length
      ∧ (Region.set_length sample_env region_with_onsets 3).whole_file = false :=
  ⟨by decide, by decide,
    (C28_changed_extent_clears_whole_file sample_env region_with_onsets 0 3).2.2.1
      (Or.inr (by decide))⟩

namespace Region

/-! ## Change notification under suspension -/

theorem mem_add (c : PropertyChange) (q p : PropertyID) :
    p ∈ PropertyChange.add c q ↔ p ∈ c ∨ p = q := by
  unfold PropertyChange.add
  split_ifs with h
  · constructor
    · intro hp; exact Or.inl hp
    · rintro (hp | hp)
      · exact hp
      · rw [hp]; exact h
  · simp

/-- The identities of `add_all c other` are those of `c` and of `other`. -/
theorem mem_add_all (c other : PropertyChange) (p : PropertyID) :
    p ∈ PropertyChange.add_all c other ↔ p ∈ c ∨ p ∈ other := by
  unfold PropertyChange.add_all
  induction other generalizing c with
  | nil => simp
  | cons q t ih =>
    simp only [List.foldl_cons, List.mem_cons]
    rw [ih, mem_add]
    tauto

theorem quiet_refl (a : Region) : quiet a a :=
  ⟨rfl, rfl, fun _ => rfl⟩

theorem quiet_trans {a b c : Region} (h1 : quiet a b) (h2 : quiet b c) : quiet a c := by
  obtain ⟨f1, s1, g1⟩ := h1
  obtain ⟨f2, s2, g2⟩ := h2
  refine ⟨f2.trans f1, s2.trans s1, fun hs => ?_⟩
  have hb : b.property_changes_suspended = true := by
    unfold property_changes_suspended at hs ⊢
    rw [f1]; exact hs
  rw [g2 hb, g1 hs]

@[simp] theorem send_change_stateful_frozen (r : Region) (c : PropertyChange) :
    (send_change r c).stateful_frozen = r.stateful_frozen := by
  unfold send_change stateful_send_change; dsimp only; split_ifs <;> rfl

@[simp] theorem send_change_shared (r : Region) (c : PropertyChange) :
    (send_change r c).shared = r.shared := by
  unfold send_change stateful_send_change; dsimp only; split_ifs <;> rfl

/-- While notification is suspended `send_change` only merges the set into the
pending change-set. -/
theorem send_change_suspended (r : Region) (c : PropertyChange)
    (hs : r.property_changes_suspended = true) :
    send_change r c = with_pending r (PropertyChange.add_all r.pending_changed c) := by
  unfold send_change stateful_send_change with_pending
  cases c with
  | nil => rfl
  | cons q t =>
    have hs2 : property_changes_suspended
        { r with pending_changed := PropertyChange.add_all r.pending_changed (q :: t) }
        = true := hs
    simp only [List.isEmpty_cons, Bool.false_eq_true, if_false, hs, if_true, hs2,
      Bool.not_true]

theorem quiet_send_change {a x : Region} (c : PropertyChange) (h : quiet a x) :
    quiet a (send_change x c) := by
  refine quiet_trans h ⟨by simp, by simp, fun hs => ?_⟩
  rw [send_change_suspended x c hs]
  rfl

theorem quiet_do_first_edit {a x : Region} (E : Env) (h : quiet a x) :
    quiet a (do_first_edit E x) := by
  refine quiet_trans h ?_
  unfold do_first_edit
  dsimp only
  split_ifs
  · refine ⟨by simp, by simp, fun hs => ?_⟩
    have hs1 : property_changes_suspended
        { x with name := E.new_region_name x.name,
                 first_edit := FirstEdit.EditChangesNothing } = true := hs
    rw [send_change_suspended _ _ hs1]
    simp [with_pending, is_change_signal]
  · exact quiet_refl x

theorem quiet_maybe_invalidate_transients {a x : Region} (h : quiet a x) :
    quiet a (maybe_invalidate_transients x) := by
  refine quiet_trans h ?_
  unfold maybe_invalidate_transients
  dsimp only
  split_ifs
  · exact quiet_send_change _ ⟨rfl, rfl, fun _ => rfl⟩
  · exact ⟨rfl, rfl, fun _ => rfl⟩

theorem quiet_set_position_internal {a x : Region} (E : Env) (pos : timepos_t)
    (h : quiet a x) : quiet a (set_position_internal E x pos) := by
  refine quiet_trans h ?_
  unfold set_position_internal
  dsimp only
  split_ifs <;> exact ⟨rfl, rfl, fun _ => rfl⟩

theorem quiet_trim_to_internal {a x : Region} (E : Env) (pos : timepos_t) (len : timecnt_t)
    (h : quiet a x) : quiet a (trim_to_internal E x pos len) := by
  refine quiet_trans h ?_
  have h1 : ∀ (ns : timecnt_t) (wc : PropertyChange), quiet x (trim_step_start x ns wc).1 := by
    intro ns wc
    unfold trim_step_start set_start_internal
    split_ifs <;> exact ⟨rfl, rfl, fun _ => rfl⟩
  have h2 : ∀ (y : Region) (wc : PropertyChange), quiet x y →
      quiet x (trim_step_position E y pos wc).1 := by
    intro y wc hy
    unfold trim_step_position
    dsimp only
    split_ifs
    · exact quiet_set_position_internal E pos (quiet_trans hy ⟨rfl, rfl, fun _ => rfl⟩)
    · exact quiet_set_position_internal E pos hy
    · exact hy
  have h3 : ∀ (y : Region) (nl : timecnt_t) (wc : PropertyChange), quiet x y →
      quiet x (trim_step_length y nl wc).1 := by
    intro y nl wc hy
    unfold trim_step_length set_length_internal
    dsimp only
    split_ifs
    · exact quiet_trans hy ⟨rfl, rfl, fun _ => rfl⟩
    · exact quiet_trans hy ⟨rfl, rfl, fun _ => rfl⟩
    · exact hy
  unfold trim_to_internal
  dsimp only
  split_ifs
  all_goals
    repeat (first
      | exact quiet_refl _
      | apply quiet_send_change
      | apply quiet_do_first_edit
      | exact quiet_trans (h3 _ _ _ (h2 _ _ (h1 _ _))) ⟨rfl, rfl, fun _ => rfl⟩)

/-- A change of members other than the suspension level, the shared handle
and the signal log keeps `quiet`. -/
theorem quiet_update {a x y : Region} (h : quiet a x)
    (hf : y.stateful_frozen = x.stateful_frozen) (hs : y.shared = x.shared)
    (hsig : y.signals = x.signals) : quiet a y :=
  quiet_trans h ⟨hf, hs, fun _ => by rw [hsig]⟩

theorem quiet_modify_front (E : Env) (r : Region) (p : timepos_t) (b : Bool) :
    quiet r (modify_front E r p b) := by
  unfold modify_front recompute_at_start
  dsimp only
  split_ifs
  all_goals
    first
      | exact quiet_refl _
      | (apply quiet_maybe_invalidate_transients
         exact quiet_trim_to_internal E _ _ (quiet_refl r))

theorem quiet_modify_end (E : Env) (r : Region) (e : timepos_t) (b : Bool) :
    quiet r (modify_end E r e b) := by
  unfold modify_end recompute_at_end
  dsimp only
  split_ifs
  all_goals
    first
      | exact quiet_refl _
      | exact quiet_trim_to_internal E _ _ (quiet_refl r)

/-- No mutator changes the suspension level or the shared handle, and while
notification is suspended none emits a signal that carries a change-set. -/
theorem quiet_mutate (E : Env) (r : Region) (m : Mutation) : quiet r (mutate E r m) := by
  cases m with
  | set_position pos =>
    show quiet r (set_position E r pos)
    unfold set_position; dsimp only; split_ifs
    all_goals
      repeat (first
        | exact quiet_refl _
        | apply quiet_send_change
        | apply quiet_do_first_edit
        | apply quiet_maybe_invalidate_transients
        | apply quiet_set_position_internal
        | apply quiet_trim_to_internal
        | exact ⟨rfl, rfl, fun _ => rfl⟩)
  | set_initial_position pos =>
    show quiet r (set_initial_position E r pos)
    unfold set_initial_position recompute_position_from_time_domain; dsimp only; split_ifs
    all_goals
      repeat (first
        | exact quiet_refl _
        | apply quiet_send_change
        | apply quiet_do_first_edit
        | apply quiet_maybe_invalidate_transients
        | apply quiet_set_position_internal
        | apply quiet_trim_to_internal
        | exact ⟨rfl, rfl, fun _ => rfl⟩)
  | nudge_position n =>
    show quiet r (nudge_position E r n)
    unfold nudge_position; dsimp only; split_ifs
    all_goals
      repeat (first
        | exact quiet_refl _
        | apply quiet_send_change
        | apply quiet_do_first_edit
        | apply quiet_maybe_invalidate_transients
        | apply quiet_set_position_internal
        | apply quiet_trim_to_internal
        | exact ⟨rfl, rfl, fun _ => rfl⟩)
  | set_start pos =>
    show quiet r (set_start E r pos)
    unfold set_start set_start_internal; dsimp only; split_ifs
    all_goals
      repeat (first
        | exact quiet_refl _
        | apply quiet_send_change
        | apply quiet_do_first_edit
        | apply quiet_maybe_invalidate_transients
        | apply quiet_set_position_internal
        | apply quiet_trim_to_internal
        | exact ⟨rfl, rfl, fun _ => rfl⟩)
  | move_start distance =>
    show quiet r (move_start E r distance)
    unfold move_start set_start_internal
    split_ifs
    · exact quiet_refl _
    · split
      · exact quiet_refl _
      · dsimp only; split_ifs
        all_goals
          repeat (first
            | exact quiet_refl _
            | apply quiet_send_change
            | apply quiet_do_first_edit
            | apply quiet_maybe_invalidate_transients
            | apply quiet_set_position_internal
            | apply quiet_trim_to_internal
            | exact ⟨rfl, rfl, fun _ => rfl⟩)
  | set_length len =>
    show quiet r (set_length E r len)
    unfold set_length set_length_internal maybe_uncopy recompute_at_end; dsimp only; split_ifs
    all_goals
      repeat (first
        | exact quiet_refl _
        | apply quiet_send_change
        | apply quiet_do_first_edit
        | apply quiet_maybe_invalidate_transients
        | apply quiet_set_position_internal
        | apply quiet_trim_to_internal
        | exact ⟨rfl, rfl, fun _ => rfl⟩)
  | trim_to position length =>
    show quiet r (trim_to E r position length)
    unfold trim_to recompute_at_end recompute_at_start; dsimp only; split_ifs
    all_goals
      repeat (first
        | exact quiet_refl _
        | apply quiet_send_change
        | apply quiet_do_first_edit
        | apply quiet_maybe_invalidate_transients
        | apply quiet_set_position_internal
        | apply quiet_trim_to_internal
        | exact ⟨rfl, rfl, fun _ => rfl⟩)
  | trim_front new_position => exact quiet_modify_front E r new_position false
  | cut_front new_position => exact quiet_modify_front E r new_position true
  | trim_end new_endpoint => exact quiet_modify_end E r new_endpoint false
  | cut_end new_endpoint => exact quiet_modify_end E r new_endpoint true
  | set_sync_position absolute_pos =>
    show quiet r (set_sync_position r absolute_pos)
    unfold set_sync_position maybe_uncopy; dsimp only; split_ifs
    all_goals
      repeat (first
        | exact quiet_refl _
        | apply quiet_send_change
        | apply quiet_do_first_edit
        | apply quiet_maybe_invalidate_transients
        | apply quiet_set_position_internal
        | apply quiet_trim_to_internal
        | exact ⟨rfl, rfl, fun _ => rfl⟩)
  | clear_sync_position =>
    show quiet r (clear_sync_position r)
    unfold clear_sync_position maybe_uncopy; dsimp only; split_ifs
    all_goals
      repeat (first
        | exact quiet_refl _
        | apply quiet_send_change
        | apply quiet_do_first_edit
        | apply quiet_maybe_invalidate_transients
        | apply quiet_set_position_internal
        | apply quiet_trim_to_internal
        | exact ⟨rfl, rfl, fun _ => rfl⟩)
  | set_name str =>
    show quiet r (set_name r str).2
    unfold set_name session_object_set_name; dsimp only; split_ifs
    · exact quiet_refl _
    · apply quiet_send_change
      exact ⟨rfl, rfl, fun _ => by simp [is_change_signal]⟩
  | set_hidden yn =>
    show quiet r (set_hidden r yn)
    unfold set_hidden; split_ifs
    all_goals
      repeat (first
        | exact quiet_refl _
        | apply quiet_send_change
        | apply quiet_do_first_edit
        | apply quiet_maybe_invalidate_transients
        | apply quiet_set_position_internal
        | apply quiet_trim_to_internal
        | exact ⟨rfl, rfl, fun _ => rfl⟩)
  | set_muted yn =>
    show quiet r (set_muted r yn)
    unfold set_muted; split_ifs
    all_goals
      repeat (first
        | exact quiet_refl _
        | apply quiet_send_change
        | apply quiet_do_first_edit
        | apply quiet_maybe_invalidate_transients
        | apply quiet_set_position_internal
        | apply quiet_trim_to_internal
        | exact ⟨rfl, rfl, fun _ => rfl⟩)
  | set_locked yn =>
    show quiet r (set_locked r yn)
    unfold set_locked; split_ifs
    all_goals
      repeat (first
        | exact quiet_refl _
        | apply quiet_send_change
        | apply quiet_do_first_edit
        | apply quiet_maybe_invalidate_transients
        | apply quiet_set_position_internal
        | apply quiet_trim_to_internal
        | exact ⟨rfl, rfl, fun _ => rfl⟩)
  | set_video_locked yn =>
    show quiet r (set_video_locked r yn)
    unfold set_video_locked; split_ifs
    all_goals
      repeat (first
        | exact quiet_refl _
        | apply quiet_send_change
        | apply quiet_do_first_edit
        | apply quiet_maybe_invalidate_transients
        | apply quiet_set_position_internal
        | apply quiet_trim_to_internal
        | exact ⟨rfl, rfl, fun _ => rfl⟩)
  | set_position_locked yn =>
    show quiet r (set_position_locked r yn)
    unfold set_position_locked; split_ifs
    all_goals
      repeat (first
        | exact quiet_refl _
        | apply quiet_send_change
        | apply quiet_do_first_edit
        | apply quiet_maybe_invalidate_transients
        | apply quiet_set_position_internal
        | apply quiet_trim_to_internal
        | exact ⟨rfl, rfl, fun _ => rfl⟩)
  | set_whole_file yn => exact ⟨rfl, rfl, fun _ => rfl⟩
  | set_automatic yn => exact ⟨rfl, rfl, fun _ => rfl⟩

/-! ### The pending change-set does not steer the mutators -/

/-- The base case: a region and the same region with another pending set. -/
theorem pending_extends_base {P Q : PropertyChange} {b x : Region}
    (hQ : ∀ p : PropertyID, p ∈ Q ↔ p ∈ P ∨ p ∈ b.pending_changed)
    (hx : x.pending_changed = b.pending_changed) :
    pending_extends P (with_pending x Q) x :=
  ⟨Q, rfl, fun p => by rw [hx]; exact hQ p⟩

/-- Outside suspension `send_change` leaves the pending change-set alone. -/
theorem send_change_not_suspended (r : Region) (c Q : PropertyChange)
    (hs : r.property_changes_suspended = false) :
    send_change (with_pending r Q) c = with_pending (send_change r c) Q
      ∧ (send_change r c).pending_changed = r.pending_changed := by
  have hs1 : (with_pending r Q).property_changes_suspended = false := hs
  unfold send_change stateful_send_change
  cases c with
  | nil => exact ⟨rfl, rfl⟩
  | cons q t =>
    have hs2 : property_changes_suspended
        { r with signals := r.signals ++ [Signal.PropertyChanged (q :: t)] } = false := hs
    have hs3 : property_changes_suspended
        { with_pending r Q with signals := (with_pending r Q).signals
            ++ [Signal.PropertyChanged (q :: t)] } = false := hs
    simp only [List.isEmpty_cons, Bool.false_eq_true, if_false, hs, hs1, hs2, hs3,
      Bool.not_false, if_true]
    cases hsh : r.shared
    · have hsh1 : (with_pending r Q).shared = false := hsh
      simp only [hsh1, Bool.false_eq_true, if_false]
      constructor <;> first | rfl | trivial
    · have hsh1 : (with_pending r Q).shared = true := hsh
      simp only [hsh1, if_true]
      constructor <;> first | rfl | trivial

theorem pending_extends_send_change {P : PropertyChange} {a b : Region} (c : PropertyChange)
    (h : pending_extends P a b) : pending_extends P (send_change a c) (send_change b c) := by
  obtain ⟨Q, rfl, hQ⟩ := h
  cases hs : b.property_changes_suspended
  · obtain ⟨e1, e2⟩ := send_change_not_suspended b c Q hs
    rw [e1]
    exact pending_extends_base hQ e2
  · have hs1 : (with_pending b Q).property_changes_suspended = true := hs
    rw [send_change_suspended _ _ hs1, send_change_suspended _ _ hs]
    refine ⟨PropertyChange.add_all Q c, rfl, fun p => ?_⟩
    show p ∈ PropertyChange.add_all Q c
      ↔ p ∈ P ∨ p ∈ PropertyChange.add_all b.pending_changed c
    rw [mem_add_all, mem_add_all, hQ]
    tauto

/-- A change of members other than the pending change-set, made alike on both
sides, keeps `pending_extends`. -/
theorem pending_extends_update {P : PropertyChange} {a b : Region} (f : Region → Region)
    (hf : ∀ (x : Region) (Q : PropertyChange),
      f (with_pending x Q) = with_pending (f x) Q
        ∧ (f x).pending_changed = x.pending_changed)
    (h : pending_extends P a b) : pending_extends P (f a) (f b) := by
  obtain ⟨Q, rfl, hQ⟩ := h
  rw [(hf b Q).1]
  exact pending_extends_base hQ (hf b Q).2

theorem pending_extends_do_first_edit {P : PropertyChange} {a b : Region} (E : Env)
    (h : pending_extends P a b) :
    pending_extends P (do_first_edit E a) (do_first_edit E b) := by
  have h1 := pending_extends_update
    (fun z : Region =>
      { z with name := E.new_region_name z.name,
               first_edit := FirstEdit.EditChangesNothing })
    (fun _ _ => ⟨rfl, rfl⟩) h
  have h2 := pending_extends_send_change [PropertyID.name] h1
  have hk := pending_extends_update
    (fun z : Region => { z with signals := z.signals ++ [Signal.CheckNewRegion] })
    (fun _ _ => ⟨rfl, rfl⟩) h2
  obtain ⟨Q, rfl, hQ⟩ := h
  unfold do_first_edit
  dsimp only
  have c1 : (with_pending b Q).first_edit = b.first_edit := rfl
  have c2 : (with_pending b Q).playlist = b.playlist := rfl
  rw [c1, c2]
  split_ifs
  · exact hk
  · exact pending_extends_base hQ rfl

theorem pending_extends_maybe_invalidate_transients {P : PropertyChange} {a b : Region}
    (h : pending_extends P a b) :
    pending_extends P (maybe_invalidate_transients a) (maybe_invalidate_transients b) := by
  have h1 : pending_extends P { a with onsets := [] } { b with onsets := [] } :=
    pending_extends_update (fun z => { z with onsets := [] }) (fun _ _ => ⟨rfl, rfl⟩) h
  have h2 := pending_extends_send_change [PropertyID.valid_transients] h1
  obtain ⟨Q, rfl, hQ⟩ := h
  unfold maybe_invalidate_transients
  dsimp only
  have c1 : (with_pending b Q).valid_transients = b.valid_transients := rfl
  have c2 : (with_pending b Q).onsets = b.onsets := rfl
  rw [c1, c2]
  split_ifs
  · exact h2
  · exact h1

/-- The pending change-set plays no part in `set_position_internal`. -/
theorem set_position_internal_with_pending (E : Env) (x : Region) (pos : timepos_t)
    (Q : PropertyChange) :
    set_position_internal E (with_pending x Q) pos
        = with_pending (set_position_internal E x pos) Q
      ∧ (set_position_internal E x pos).pending_changed = x.pending_changed := by
  unfold set_position_internal with_pending
  dsimp only
  split_ifs <;> exact ⟨rfl, rfl⟩

@[simp] theorem with_pending_locked (x : Region) (Q : PropertyChange) :
    (with_pending x Q).locked = x.locked := rfl

@[simp] theorem with_pending_position_locked (x : Region) (Q : PropertyChange) :
    (with_pending x Q).position_locked = x.position_locked := rfl

@[simp] theorem with_pending_video_locked (x : Region) (Q : PropertyChange) :
    (with_pending x Q).video_locked = x.video_locked := rfl

@[simp] theorem with_pending_start (x : Region) (Q : PropertyChange) :
    (with_pending x Q).start = x.start := rfl

@[simp] theorem with_pending_length (x : Region) (Q : PropertyChange) :
    (with_pending x Q).length = x.length := rfl

@[simp] theorem with_pending_position (x : Region) (Q : PropertyChange) :
    (with_pending x Q).position = x.position := rfl

@[simp] theorem with_pending_sync_marked (x : Region) (Q : PropertyChange) :
    (with_pending x Q).sync_marked = x.sync_marked := rfl

@[simp] theorem with_pending_sync_position (x : Region) (Q : PropertyChange) :
    (with_pending x Q).sync_position = x.sync_position := rfl

@[simp] theorem with_pending_name (x : Region) (Q : PropertyChange) :
    (with_pending x Q).name = x.name := rfl

@[simp] theorem with_pending_hidden (x : Region) (Q : PropertyChange) :
    (with_pending x Q).hidden = x.hidden := rfl

@[simp] theorem with_pending_muted (x : Region) (Q : PropertyChange) :
    (with_pending x Q).muted = x.muted := rfl

@[simp] theorem with_pending_position_time_domain (x : Region) (Q : PropertyChange) :
    (with_pending x Q).position_time_domain = x.position_time_domain := rfl

@[simp] theorem with_pending_first_edit (x : Region) (Q : PropertyChange) :
    (with_pending x Q).first_edit = x.first_edit := rfl

@[simp] theorem with_pending_playlist (x : Region) (Q : PropertyChange) :
    (with_pending x Q).playlist = x.playlist := rfl

@[simp] theorem with_pending_valid_transients (x : Region) (Q : PropertyChange) :
    (with_pending x Q).valid_transients = x.valid_transients := rfl

@[simp] theorem with_pending_onsets (x : Region) (Q : PropertyChange) :
    (with_pending x Q).onsets = x.onsets := rfl

@[simp] theorem with_pending_sources (x : Region) (Q : PropertyChange) :
    (with_pending x Q).sources = x.sources := rfl

@[simp] theorem with_pending_stateful_frozen (x : Region) (Q : PropertyChange) :
    (with_pending x Q).stateful_frozen = x.stateful_frozen := rfl

@[simp] theorem with_pending_shared (x : Region) (Q : PropertyChange) :
    (with_pending x Q).shared = x.shared := rfl

@[simp] theorem with_pending_signals (x : Region) (Q : PropertyChange) :
    (with_pending x Q).signals = x.signals := rfl

@[simp] theorem property_changes_suspended_with_pending (x : Region) (Q : PropertyChange) :
    property_changes_suspended (with_pending x Q) = property_changes_suspended x := rfl

@[simp] theorem verify_start_with_pending (x : Region) (pos : timecnt_t) (Q : PropertyChange) :
    verify_start (with_pending x Q) pos = verify_start x pos := rfl

@[simp] theorem verify_length_with_pending (x : Region) (len : timecnt_t) (Q : PropertyChange) :
    verify_length (with_pending x Q) len = verify_length x len := rfl

@[simp] theorem source_length_mutable_with_pending (x : Region) (Q : PropertyChange) :
    source_length_mutable (with_pending x Q) = source_length_mutable x := rfl

@[simp] theorem end__with_pending (x : Region) (Q : PropertyChange) :
    end_ (with_pending x Q) = end_ x := rfl

@[simp] theorem source_position_with_pending (x : Region) (Q : PropertyChange) :
    source_position (with_pending x Q) = source_position x := rfl

@[simp] theorem modify_front_length_with_pending (x : Region) (np : timepos_t) (Q : PropertyChange) :
    modify_front_length (with_pending x Q) np = modify_front_length x np := rfl

@[simp] theorem verify_start_and_length_with_pending (x : Region) (ns nl : timecnt_t)
    (Q : PropertyChange) :
    verify_start_and_length (with_pending x Q) ns nl = verify_start_and_length x ns nl := rfl

@[simp] theorem trim_new_start_with_pending (E : Env) (x : Region) (pos : timepos_t)
    (Q : PropertyChange) :
    trim_new_start E (with_pending x Q) pos = trim_new_start E x pos := rfl

@[simp] theorem modify_front_position_with_pending (E : Env) (x : Region) (p : timepos_t)
    (Q : PropertyChange) :
    modify_front_position E (with_pending x Q) p = modify_front_position E x p := rfl

@[simp] theorem move_start_target_with_pending (E : Env) (x : Region) (d : timecnt_t)
    (Q : PropertyChange) :
    move_start_target E (with_pending x Q) d = move_start_target E x d := rfl

@[simp] theorem set_position_internal_with_pending_eq (E : Env) (x : Region) (pos : timepos_t)
    (Q : PropertyChange) :
    set_position_internal E (with_pending x Q) pos
      = with_pending (set_position_internal E x pos) Q :=
  (set_position_internal_with_pending E x pos Q).1

/-- The pending change-set plays no part in the three blocks of
`trim_to_internal`. -/
theorem trim_step_start_with_pending (x : Region) (ns : timecnt_t) (wc Q : PropertyChange) :
    (trim_step_start (with_pending x Q) ns wc).1 = with_pending (trim_step_start x ns wc).1 Q
      ∧ (trim_step_start (with_pending x Q) ns wc).2 = (trim_step_start x ns wc).2
      ∧ (trim_step_start x ns wc).1.pending_changed = x.pending_changed := by
  unfold trim_step_start set_start_internal with_pending
  dsimp only
  split_ifs <;> exact ⟨rfl, rfl, rfl⟩

theorem trim_step_position_with_pending (E : Env) (x : Region) (pos : timepos_t)
    (wc Q : PropertyChange) :
    (trim_step_position E (with_pending x Q) pos wc).1
        = with_pending (trim_step_position E x pos wc).1 Q
      ∧ (trim_step_position E (with_pending x Q) pos wc).2 = (trim_step_position E x pos wc).2
      ∧ (trim_step_position E x pos wc).1.pending_changed = x.pending_changed := by
  unfold trim_step_position set_position_internal with_pending property_changes_suspended
  dsimp only
  split_ifs <;> exact ⟨rfl, rfl, rfl⟩

theorem trim_step_length_with_pending (x : Region) (nl : timecnt_t) (wc Q : PropertyChange) :
    (trim_step_length (with_pending x Q) nl wc).1 = with_pending (trim_step_length x nl wc).1 Q
      ∧ (trim_step_length (with_pending x Q) nl wc).2 = (trim_step_length x nl wc).2
      ∧ (trim_step_length x nl wc).1.pending_changed = x.pending_changed := by
  unfold trim_step_length set_length_internal with_pending property_changes_suspended
  dsimp only
  split_ifs <;> exact ⟨rfl, rfl, rfl⟩

@[simp] theorem trim_step_start_with_pending_fst (x : Region) (ns : timecnt_t)
    (wc Q : PropertyChange) :
    (trim_step_start (with_pending x Q) ns wc).1 = with_pending (trim_step_start x ns wc).1 Q :=
  (trim_step_start_with_pending x ns wc Q).1

@[simp] theorem trim_step_start_with_pending_snd (x : Region) (ns : timecnt_t)
    (wc Q : PropertyChange) :
    (trim_step_start (with_pending x Q) ns wc).2 = (trim_step_start x ns wc).2 :=
  (trim_step_start_with_pending x ns wc Q).2.1

@[simp] theorem trim_step_position_with_pending_fst (E : Env) (x : Region) (pos : timepos_t)
    (wc Q : PropertyChange) :
    (trim_step_position E (with_pending x Q) pos wc).1
      = with_pending (trim_step_position E x pos wc).1 Q :=
  (trim_step_position_with_pending E x pos wc Q).1

@[simp] theorem trim_step_position_with_pending_snd (E : Env) (x : Region) (pos : timepos_t)
    (wc Q : PropertyChange) :
    (trim_step_position E (with_pending x Q) pos wc).2 = (trim_step_position E x pos wc).2 :=
  (trim_step_position_with_pending E x pos wc Q).2.1

@[simp] theorem trim_step_length_with_pending_fst (x : Region) (nl : timecnt_t)
    (wc Q : PropertyChange) :
    (trim_step_length (with_pending x Q) nl wc).1
      = with_pending (trim_step_length x nl wc).1 Q :=
  (trim_step_length_with_pending x nl wc Q).1

@[simp] theorem trim_step_length_with_pending_snd (x : Region) (nl : timecnt_t)
    (wc Q : PropertyChange) :
    (trim_step_length (with_pending x Q) nl wc).2 = (trim_step_length x nl wc).2 :=
  (trim_step_length_with_pending x nl wc Q).2.1

/-- The base case, with the left side given up to unfolding. -/
theorem pending_extends_of_eq {P Q : PropertyChange} {a b x : Region}
    (hQ : ∀ p : PropertyID, p ∈ Q ↔ p ∈ P ∨ p ∈ b.pending_changed)
    (hx : x.pending_changed = b.pending_changed) (ha : a = with_pending x Q) :
    pending_extends P a x :=
  ⟨Q, ha, fun p => by rw [hx]; exact hQ p⟩

theorem pending_extends_trim_to_internal {P : PropertyChange} {a b : Region} (E : Env)
    (pos : timepos_t) (len : timecnt_t) (h : pending_extends P a b) :
    pending_extends P (trim_to_internal E a pos len) (trim_to_internal E b pos len) := by
  obtain ⟨Q, rfl, hQ⟩ := h
  have hS : ∀ (ns nl : timecnt_t) (w1 w2 w3 : PropertyChange),
      (trim_step_length (trim_step_position E (trim_step_start b ns w1).1 pos w2).1 nl
        w3).1.pending_changed = b.pending_changed := by
    intro ns nl w1 w2 w3
    exact (trim_step_length_with_pending _ nl w3 []).2.2.trans
      ((trim_step_position_with_pending E _ pos w2 []).2.2.trans
        (trim_step_start_with_pending b ns w1 []).2.2)
  unfold trim_to_internal
  dsimp only
  simp only [with_pending_locked, verify_start_and_length_with_pending,
    trim_new_start_with_pending, trim_step_start_with_pending_fst,
    trim_step_start_with_pending_snd, trim_step_position_with_pending_fst,
    trim_step_position_with_pending_snd, trim_step_length_with_pending_fst,
    trim_step_length_with_pending_snd]
  split_ifs
  all_goals
    repeat (first
      | exact pending_extends_of_eq hQ rfl rfl
      | apply pending_extends_send_change
      | apply pending_extends_do_first_edit
      | exact pending_extends_of_eq hQ (hS _ _ _ _ _) rfl)

theorem pending_extends_modify_front {P : PropertyChange} {a b : Region} (E : Env)
    (p : timepos_t) (fade : Bool) (h : pending_extends P a b) :
    pending_extends P (modify_front E a p fade) (modify_front E b p fade) := by
  obtain ⟨Q, rfl, hQ⟩ := h
  have hb : pending_extends P (with_pending b Q) b := pending_extends_of_eq hQ rfl rfl
  have ht := pending_extends_trim_to_internal E (modify_front_position E b p)
    (modify_front_length b (modify_front_position E b p)) hb
  cases fade
  · have h3 := pending_extends_maybe_invalidate_transients ht
    unfold modify_front recompute_at_start
    dsimp only
    simp only [with_pending_locked, end__with_pending, modify_front_position_with_pending,
      modify_front_length_with_pending, ite_self, Bool.false_eq_true, if_false]
    split_ifs
    all_goals first | exact hb | exact h3
  · have h2 := pending_extends_update
      (fun z : Region => { z with right_of_split := true }) (fun _ _ => ⟨rfl, rfl⟩) ht
    have h3 := pending_extends_maybe_invalidate_transients h2
    unfold modify_front recompute_at_start
    dsimp only
    simp only [with_pending_locked, end__with_pending, modify_front_position_with_pending,
      modify_front_length_with_pending, ite_self, if_true]
    split_ifs
    all_goals first | exact hb | exact h3

theorem pending_extends_modify_end {P : PropertyChange} {a b : Region} (E : Env)
    (e : timepos_t) (fade : Bool) (h : pending_extends P a b) :
    pending_extends P (modify_end E a e fade) (modify_end E b e fade) := by
  obtain ⟨Q, rfl, hQ⟩ := h
  have hb : pending_extends P (with_pending b Q) b := pending_extends_of_eq hQ rfl rfl
  have ht := pending_extends_trim_to_internal E b.position (e - b.position) hb
  cases fade
  · unfold modify_end recompute_at_end
    dsimp only
    simp only [with_pending_locked, with_pending_position, ite_self, Bool.false_eq_true,
      if_false]
    split_ifs
    all_goals first | exact hb | exact ht
  · have h2 := pending_extends_update
      (fun z : Region => { z with left_of_split := true }) (fun _ _ => ⟨rfl, rfl⟩) ht
    unfold modify_end recompute_at_end
    dsimp only
    simp only [with_pending_locked, with_pending_position, ite_self, if_true]
    split_ifs
    all_goals first | exact hb | exact h2

/-- A mutator run on two regions that differ in the pending change-set only
leaves two regions that differ in the pending change-set only, and the
identities it reports are added alike on both sides. The movability predicate
must not read the pending change-set. -/
theorem pending_extends_mutate {P : PropertyChange} {a b : Region} (E : Env)
    (hcm : ∀ (x : Region) (Q : PropertyChange), E.can_move (with_pending x Q) = E.can_move x)
    (m : Mutation) (h : pending_extends P a b) :
    pending_extends P (mutate E a m) (mutate E b m) := by
  obtain ⟨Q, rfl, hQ⟩ := h
  cases m with
  | set_position pos =>
    show pending_extends P (set_position E (with_pending b Q) pos) (set_position E b pos)
    unfold set_position
    try dsimp only
    try simp only [with_pending_locked, with_pending_position_locked, with_pending_video_locked,
      with_pending_start, with_pending_length, with_pending_position, with_pending_sync_marked,
      with_pending_sync_position, with_pending_name, with_pending_hidden, with_pending_muted,
      with_pending_position_time_domain, property_changes_suspended_with_pending,
      verify_start_with_pending, verify_length_with_pending, end__with_pending,
      modify_front_position_with_pending, modify_front_length_with_pending,
      move_start_target_with_pending, set_position_internal_with_pending_eq, ite_self, hcm]
    try split_ifs
    all_goals
      repeat (first
        | exact pending_extends_of_eq hQ rfl rfl
        | apply pending_extends_send_change
        | apply pending_extends_do_first_edit
        | apply pending_extends_maybe_invalidate_transients
        | exact pending_extends_trim_to_internal E _ _ (pending_extends_of_eq hQ rfl rfl)
        | exact pending_extends_of_eq hQ (set_position_internal_with_pending E _ _ []).2 rfl)
  | set_initial_position pos =>
    show pending_extends P (set_initial_position E (with_pending b Q) pos) (set_initial_position E b pos)
    unfold set_initial_position recompute_position_from_time_domain
    try dsimp only
    try simp only [with_pending_locked, with_pending_position_locked, with_pending_video_locked,
      with_pending_start, with_pending_length, with_pending_position, with_pending_sync_marked,
      with_pending_sync_position, with_pending_name, with_pending_hidden, with_pending_muted,
      with_pending_position_time_domain, property_changes_suspended_with_pending,
      verify_start_with_pending, verify_length_with_pending, end__with_pending,
      modify_front_position_with_pending, modify_front_length_with_pending,
      move_start_target_with_pending, set_position_internal_with_pending_eq, ite_self, hcm]
    try split_ifs
    all_goals
      repeat (first
        | exact pending_extends_of_eq hQ rfl rfl
        | apply pending_extends_send_change
        | apply pending_extends_do_first_edit
        | apply pending_extends_maybe_invalidate_transients
        | exact pending_extends_trim_to_internal E _ _ (pending_extends_of_eq hQ rfl rfl)
        | exact pending_extends_of_eq hQ (set_position_internal_with_pending E _ _ []).2 rfl)
  | nudge_position n =>
    show pending_extends P (nudge_position E (with_pending b Q) n) (nudge_position E b n)
    unfold nudge_position
    try dsimp only
    try simp only [with_pending_locked, with_pending_position_locked, with_pending_video_locked,
      with_pending_start, with_pending_length, with_pending_position, with_pending_sync_marked,
      with_pending_sync_position, with_pending_name, with_pending_hidden, with_pending_muted,
      with_pending_position_time_domain, property_changes_suspended_with_pending,
      verify_start_with_pending, verify_length_with_pending, end__with_pending,
      modify_front_position_with_pending, modify_front_length_with_pending,
      move_start_target_with_pending, set_position_internal_with_pending_eq, ite_self]
    try split_ifs
    all_goals
      repeat (first
        | exact pending_extends_of_eq hQ rfl rfl
        | apply pending_extends_send_change
        | apply pending_extends_do_first_edit
        | apply pending_extends_maybe_invalidate_transients
        | exact pending_extends_trim_to_internal E _ _ (pending_extends_of_eq hQ rfl rfl)
        | exact pending_extends_of_eq hQ (set_position_internal_with_pending E _ _ []).2 rfl)
  | set_start pos =>
    show pending_extends P (set_start E (with_pending b Q) pos) (set_start E b pos)
    unfold set_start set_start_internal
    try dsimp only
    try simp only [with_pending_locked, with_pending_position_locked, with_pending_video_locked,
      with_pending_start, with_pending_length, with_pending_position, with_pending_sync_marked,
      with_pending_sync_position, with_pending_name, with_pending_hidden, with_pending_muted,
      with_pending_position_time_domain, property_changes_suspended_with_pending,
      verify_start_with_pending, verify_length_with_pending, end__with_pending,
      modify_front_position_with_pending, modify_front_length_with_pending,
      move_start_target_with_pending, set_position_internal_with_pending_eq, ite_self]
    try split_ifs
    all_goals
      repeat (first
        | exact pending_extends_of_eq hQ rfl rfl
        | apply pending_extends_send_change
        | apply pending_extends_do_first_edit
        | apply pending_extends_maybe_invalidate_transients
        | exact pending_extends_trim_to_internal E _ _ (pending_extends_of_eq hQ rfl rfl)
        | exact pending_extends_of_eq hQ (set_position_internal_with_pending E _ _ []).2 rfl)
  | move_start distance =>
    show pending_extends P (move_start E (with_pending b Q) distance) (move_start E b distance)
    unfold move_start set_start_internal
    simp only [with_pending_locked, with_pending_position_locked, with_pending_video_locked,
      with_pending_start, move_start_target_with_pending]
    cases hmt : move_start_target E b distance with
    | none =>
      dsimp only
      split_ifs <;> exact pending_extends_of_eq hQ rfl rfl
    | some ns =>
      dsimp only
      split_ifs
      all_goals
        repeat (first
          | exact pending_extends_of_eq hQ rfl rfl
          | apply pending_extends_send_change
          | apply pending_extends_do_first_edit
          | apply pending_extends_maybe_invalidate_transients
          | exact pending_extends_trim_to_internal E _ _ (pending_extends_of_eq hQ rfl rfl)
          | exact pending_extends_of_eq hQ (set_position_internal_with_pending E _ _ []).2 rfl)
  | set_length len =>
    show pending_extends P (set_length E (with_pending b Q) len) (set_length E b len)
    unfold set_length set_length_internal maybe_uncopy recompute_at_end
    try dsimp only
    try simp only [with_pending_locked, with_pending_position_locked, with_pending_video_locked,
      with_pending_start, with_pending_length, with_pending_position, with_pending_sync_marked,
      with_pending_sync_position, with_pending_name, with_pending_hidden, with_pending_muted,
      with_pending_position_time_domain, property_changes_suspended_with_pending,
      verify_start_with_pending, verify_length_with_pending, end__with_pending,
      modify_front_position_with_pending, modify_front_length_with_pending,
      move_start_target_with_pending, set_position_internal_with_pending_eq, ite_self]
    try split_ifs
    all_goals
      repeat (first
        | exact pending_extends_of_eq hQ rfl rfl
        | apply pending_extends_send_change
        | apply pending_extends_do_first_edit
        | apply pending_extends_maybe_invalidate_transients
        | exact pending_extends_trim_to_internal E _ _ (pending_extends_of_eq hQ rfl rfl)
        | exact pending_extends_of_eq hQ (set_position_internal_with_pending E _ _ []).2 rfl)
  | trim_to position length =>
    show pending_extends P (trim_to E (with_pending b Q) position length) (trim_to E b position length)
    unfold trim_to recompute_at_end recompute_at_start
    try dsimp only
    try simp only [with_pending_locked, with_pending_position_locked, with_pending_video_locked,
      with_pending_start, with_pending_length, with_pending_position, with_pending_sync_marked,
      with_pending_sync_position, with_pending_name, with_pending_hidden, with_pending_muted,
      with_pending_position_time_domain, property_changes_suspended_with_pending,
      verify_start_with_pending, verify_length_with_pending, end__with_pending,
      modify_front_position_with_pending, modify_front_length_with_pending,
      move_start_target_with_pending, set_position_internal_with_pending_eq, ite_self]
    try split_ifs
    all_goals
      repeat (first
        | exact pending_extends_of_eq hQ rfl rfl
        | apply pending_extends_send_change
        | apply pending_extends_do_first_edit
        | apply pending_extends_maybe_invalidate_transients
        | exact pending_extends_trim_to_internal E _ _ (pending_extends_of_eq hQ rfl rfl)
        | exact pending_extends_of_eq hQ (set_position_internal_with_pending E _ _ []).2 rfl)
  | trim_front new_position =>
    exact pending_extends_modify_front E new_position false (pending_extends_of_eq hQ rfl rfl)
  | cut_front new_position =>
    exact pending_extends_modify_front E new_position true (pending_extends_of_eq hQ rfl rfl)
  | trim_end new_endpoint =>
    exact pending_extends_modify_end E new_endpoint false (pending_extends_of_eq hQ rfl rfl)
  | cut_end new_endpoint =>
    exact pending_extends_modify_end E new_endpoint true (pending_extends_of_eq hQ rfl rfl)
  | set_sync_position absolute_pos =>
    show pending_extends P (set_sync_position (with_pending b Q) absolute_pos) (set_sync_position b absolute_pos)
    unfold set_sync_position maybe_uncopy
    try dsimp only
    try simp only [with_pending_locked, with_pending_position_locked, with_pending_video_locked,
      with_pending_start, with_pending_length, with_pending_position, with_pending_sync_marked,
      with_pending_sync_position, with_pending_name, with_pending_hidden, with_pending_muted,
      with_pending_position_time_domain, property_changes_suspended_with_pending,
      verify_start_with_pending, verify_length_with_pending, end__with_pending,
      modify_front_position_with_pending, modify_front_length_with_pending,
      move_start_target_with_pending, set_position_internal_with_pending_eq, ite_self]
    try split_ifs
    all_goals
      repeat (first
        | exact pending_extends_of_eq hQ rfl rfl
        | apply pending_extends_send_change
        | apply pending_extends_do_first_edit
        | apply pending_extends_maybe_invalidate_transients
        | exact pending_extends_trim_to_internal E _ _ (pending_extends_of_eq hQ rfl rfl)
        | exact pending_extends_of_eq hQ (set_position_internal_with_pending E _ _ []).2 rfl)
  | clear_sync_position =>
    show pending_extends P (clear_sync_position (with_pending b Q)) (clear_sync_position b)
    unfold clear_sync_position maybe_uncopy
    try dsimp only
    try simp only [with_pending_locked, with_pending_position_locked, with_pending_video_locked,
      with_pending_start, with_pending_length, with_pending_position, with_pending_sync_marked,
      with_pending_sync_position, with_pending_name, with_pending_hidden, with_pending_muted,
      with_pending_position_time_domain, property_changes_suspended_with_pending,
      verify_start_with_pending, verify_length_with_pending, end__with_pending,
      modify_front_position_with_pending, modify_front_length_with_pending,
      move_start_target_with_pending, set_position_internal_with_pending_eq, ite_self]
    try split_ifs
    all_goals
      repeat (first
        | exact pending_extends_of_eq hQ rfl rfl
        | apply pending_extends_send_change
        | apply pending_extends_do_first_edit
        | apply pending_extends_maybe_invalidate_transients
        | exact pending_extends_trim_to_internal E _ _ (pending_extends_of_eq hQ rfl rfl)
        | exact pending_extends_of_eq hQ (set_position_internal_with_pending E _ _ []).2 rfl)
  | set_name str =>
    show pending_extends P (set_name (with_pending b Q) str).2 (set_name b str).2
    unfold set_name session_object_set_name
    dsimp only
    simp only [with_pending_name]
    split_ifs
    · exact pending_extends_of_eq hQ rfl rfl
    · dsimp only
      apply pending_extends_send_change
      exact pending_extends_of_eq hQ rfl rfl
  | set_hidden yn =>
    show pending_extends P (set_hidden (with_pending b Q) yn) (set_hidden b yn)
    unfold set_hidden
    try dsimp only
    try simp only [with_pending_locked, with_pending_position_locked, with_pending_video_locked,
      with_pending_start, with_pending_length, with_pending_position, with_pending_sync_marked,
      with_pending_sync_position, with_pending_name, with_pending_hidden, with_pending_muted,
      with_pending_position_time_domain, property_changes_suspended_with_pending,
      verify_start_with_pending, verify_length_with_pending, end__with_pending,
      modify_front_position_with_pending, modify_front_length_with_pending,
      move_start_target_with_pending, set_position_internal_with_pending_eq, ite_self]
    try split_ifs
    all_goals
      repeat (first
        | exact pending_extends_of_eq hQ rfl rfl
        | apply pending_extends_send_change
        | apply pending_extends_do_first_edit
        | apply pending_extends_maybe_invalidate_transients
        | exact pending_extends_trim_to_internal E _ _ (pending_extends_of_eq hQ rfl rfl)
        | exact pending_extends_of_eq hQ (set_position_internal_with_pending E _ _ []).2 rfl)
  | set_muted yn =>
    show pending_extends P (set_muted (with_pending b Q) yn) (set_muted b yn)
    unfold set_muted
    try dsimp only
    try simp only [with_pending_locked, with_pending_position_locked, with_pending_video_locked,
      with_pending_start, with_pending_length, with_pending_position, with_pending_sync_marked,
      with_pending_sync_position, with_pending_name, with_pending_hidden, with_pending_muted,
      with_pending_position_time_domain, property_changes_suspended_with_pending,
      verify_start_with_pending, verify_length_with_pending, end__with_pending,
      modify_front_position_with_pending, modify_front_length_with_pending,
      move_start_target_with_pending, set_position_internal_with_pending_eq, ite_self]
    try split_ifs
    all_goals
      repeat (first
        | exact pending_extends_of_eq hQ rfl rfl
        | apply pending_extends_send_change
        | apply pending_extends_do_first_edit
        | apply pending_extends_maybe_invalidate_transients
        | exact pending_extends_trim_to_internal E _ _ (pending_extends_of_eq hQ rfl rfl)
        | exact pending_extends_of_eq hQ (set_position_internal_with_pending E _ _ []).2 rfl)
  | set_locked yn =>
    show pending_extends P (set_locked (with_pending b Q) yn) (set_locked b yn)
    unfold set_locked
    try dsimp only
    try simp only [with_pending_locked, with_pending_position_locked, with_pending_video_locked,
      with_pending_start, with_pending_length, with_pending_position, with_pending_sync_marked,
      with_pending_sync_position, with_pending_name, with_pending_hidden, with_pending_muted,
      with_pending_position_time_domain, property_changes_suspended_with_pending,
      verify_start_with_pending, verify_length_with_pending, end__with_pending,
      modify_front_position_with_pending, modify_front_length_with_pending,
      move_start_target_with_pending, set_position_internal_with_pending_eq, ite_self]
    try split_ifs
    all_goals
      repeat (first
        | exact pending_extends_of_eq hQ rfl rfl
        | apply pending_extends_send_change
        | apply pending_extends_do_first_edit
        | apply pending_extends_maybe_invalidate_transients
        | exact pending_extends_trim_to_internal E _ _ (pending_extends_of_eq hQ rfl rfl)
        | exact pending_extends_of_eq hQ (set_position_internal_with_pending E _ _ []).2 rfl)
  | set_video_locked yn =>
    show pending_extends P (set_video_locked (with_pending b Q) yn) (set_video_locked b yn)
    unfold set_video_locked
    try dsimp only
    try simp only [with_pending_locked, with_pending_position_locked, with_pending_video_locked,
      with_pending_start, with_pending_length, with_pending_position, with_pending_sync_marked,
      with_pending_sync_position, with_pending_name, with_pending_hidden, with_pending_muted,
      with_pending_position_time_domain, property_changes_suspended_with_pending,
      verify_start_with_pending, verify_length_with_pending, end__with_pending,
      modify_front_position_with_pending, modify_front_length_with_pending,
      move_start_target_with_pending, set_position_internal_with_pending_eq, ite_self]
    try split_ifs
    all_goals
      repeat (first
        | exact pending_extends_of_eq hQ rfl rfl
        | apply pending_extends_send_change
        | apply pending_extends_do_first_edit
        | apply pending_extends_maybe_invalidate_transients
        | exact pending_extends_trim_to_internal E _ _ (pending_extends_of_eq hQ rfl rfl)
        | exact pending_extends_of_eq hQ (set_position_internal_with_pending E _ _ []).2 rfl)
  | set_position_locked yn =>
    show pending_extends P (set_position_locked (with_pending b Q) yn) (set_position_locked b yn)
    unfold set_position_locked
    try dsimp only
    try simp only [with_pending_locked, with_pending_position_locked, with_pending_video_locked,
      with_pending_start, with_pending_length, with_pending_position, with_pending_sync_marked,
      with_pending_sync_position, with_pending_name, with_pending_hidden, with_pending_muted,
      with_pending_position_time_domain, property_changes_suspended_with_pending,
      verify_start_with_pending, verify_length_with_pending, end__with_pending,
      modify_front_position_with_pending, modify_front_length_with_pending,
      move_start_target_with_pending, set_position_internal_with_pending_eq, ite_self]
    try split_ifs
    all_goals
      repeat (first
        | exact pending_extends_of_eq hQ rfl rfl
        | apply pending_extends_send_change
        | apply pending_extends_do_first_edit
        | apply pending_extends_maybe_invalidate_transients
        | exact pending_extends_trim_to_internal E _ _ (pending_extends_of_eq hQ rfl rfl)
        | exact pending_extends_of_eq hQ (set_position_internal_with_pending E _ _ []).2 rfl)
  | set_whole_file yn => exact pending_extends_of_eq hQ rfl rfl
  | set_automatic yn => exact pending_extends_of_eq hQ rfl rfl

/-- No sequence of mutators changes the suspension level or the shared
handle, and while notification is suspended none emits a signal that carries
a change-set. -/
theorem quiet_mutate_all (E : Env) (ms : List Mutation) (r : Region) :
    quiet r (mutate_all E r ms) := by
  induction ms generalizing r with
  | nil => exact quiet_refl r
  | cons m rest ih => exact quiet_trans (quiet_mutate E r m) (ih (mutate E r m))

/-- After one mutator the pending change-set holds what was pending before and
what the mutator reports. -/
theorem mem_pending_mutate (E : Env)
    (hcm : ∀ (x : Region) (Q : PropertyChange), E.can_move (with_pending x Q) = E.can_move x)
    (r : Region) (m : Mutation) (p : PropertyID) :
    p ∈ (mutate E r m).pending_changed ↔ p ∈ r.pending_changed ∨ p ∈ touched E r m := by
  have h0 : pending_extends r.pending_changed r (with_pending r []) :=
    ⟨r.pending_changed, rfl, fun q => by simp [with_pending]⟩
  obtain ⟨Q, e, hQ⟩ := pending_extends_mutate E hcm m h0
  rw [e]
  exact hQ p

/-- After a sequence of mutators the pending change-set holds what was pending
before and what each mutator reported. -/
theorem mem_pending_mutate_all (E : Env)
    (hcm : ∀ (x : Region) (Q : PropertyChange), E.can_move (with_pending x Q) = E.can_move x)
    (ms : List Mutation) (r : Region) (p : PropertyID) :
    p ∈ (mutate_all E r ms).pending_changed
      ↔ p ∈ r.pending_changed ∨ ∃ c ∈ touched_all E r ms, p ∈ c := by
  induction ms generalizing r with
  | nil => simp [mutate_all, touched_all]
  | cons m rest ih =>
    simp only [mutate_all, touched_all, List.mem_cons, exists_eq_or_imp]
    rw [ih, mem_pending_mutate E hcm]
    tauto

/-- The function `mid_thaw` leaves the members modelled here as they are. -/
theorem mid_thaw_eq (r : Region) (c : PropertyChange) : mid_thaw r c = r := by
  unfold mid_thaw recompute_at_start recompute_at_end
  dsimp only
  split_ifs <;> rfl

/-- Resuming from one level of suspension sends the pending change-set once,
if it is not empty, and clears it. -/
theorem resume_property_changes_signals (r : Region) (h1 : r.stateful_frozen = 1) :
    (resume_property_changes r).signals
        = r.signals ++ (if r.pending_changed = [] then []
            else Signal.PropertyChanged r.pending_changed ::
              (if r.shared then [Signal.RegionPropertyChanged r.pending_changed] else []))
      ∧ (resume_property_changes r).pending_changed = []
      ∧ (resume_property_changes r).property_changes_suspended = false := by
  have hs : r.property_changes_suspended = true := by
    unfold property_changes_suspended; rw [h1]; rfl
  have hs0 : property_changes_suspended
      { r with stateful_frozen := r.stateful_frozen - 1 } = false := by
    unfold property_changes_suspended; dsimp only; rw [h1]; rfl
  have hs1 : property_changes_suspended
      { { r with stateful_frozen := r.stateful_frozen - 1 } with pending_changed := [] }
      = false := hs0
  unfold resume_property_changes
  simp only [hs, if_true, hs0, Bool.false_eq_true, if_false, mid_thaw_eq]
  by_cases hp : r.pending_changed = []
  · simp only [hp, if_true, List.append_nil]
    unfold send_change
    exact ⟨rfl, rfl, hs0⟩
  · simp only [hp, if_false]
    obtain ⟨e1, e2⟩ := send_change_not_suspended
      { { r with stateful_frozen := r.stateful_frozen - 1 } with pending_changed := [] }
      r.pending_changed [] hs1
    refine ⟨?_, e2, ?_⟩
    · rw [send_change_signals _ _ hp hs1]
    · unfold property_changes_suspended
      rw [send_change_stateful_frozen]
      exact hs0

end Region

/-! ## Suspension (C26) -/

/-- C26, as stated, fails when the mutations report nothing: between
`suspend_property_changes` and the resume, `set_whole_file (true)` changes the
flag and `set_length (0)` is rejected; the resume emits no change-set at
all. -/
theorem C26_resume_after_silent_mutations_emits_nothing :
    region_at_five.property_changes_suspended = false
      ∧ region_at_five.whole_file = false
      ∧ (Region.mutate_all sample_env (Region.suspend_property_changes region_at_five)
          silent_mutations).whole_file = true
      ∧ (Region.resume_property_changes
          (Region.mutate_all sample_env (Region.suspend_property_changes region_at_five)
            silent_mutations)).signals = [] := by
  decide

/-- C26, amended: for every region that is not suspended and has nothing
pending, and every sequence of mutator calls made between
`suspend_property_changes` and the resume, no signal carrying a change-set
(`PropertyChanged` or `RegionPropertyChanged`) is emitted while suspended; the
pending change-set then holds exactly the identities the calls reported; and
the resume emits nothing when that set is empty, and otherwise emits it
exactly once, on the object's signal and, when a shared handle exists, on
`RegionPropertyChanged`, and leaves nothing pending. The movability predicate
must not read the pending change-set. -/
theorem C26_resume_emits_one_batched_change_set (E : Env) (r : Region)
    (ms : List Region.Mutation)
    (hcm : ∀ (x : Region) (Q : PropertyChange),
      E.can_move (Region.with_pending x Q) = E.can_move x)
    (h0 : r.stateful_frozen = 0) (hp : r.pending_changed = []) :
    (Region.mutate_all E (Region.suspend_property_changes r) ms).signals.filter
        Region.is_change_signal = r.signals.filter Region.is_change_signal
      ∧ (∀ p : PropertyID,
          p ∈ (Region.mutate_all E (Region.suspend_property_changes r) ms).pending_changed
            ↔ ∃ c ∈ Region.touched_all E (Region.suspend_property_changes r) ms, p ∈ c)
      ∧ (Region.resume_property_changes
            (Region.mutate_all E (Region.suspend_property_changes r) ms)).signals
          = (Region.mutate_all E (Region.suspend_property_changes r) ms).signals
            ++ (if (Region.mutate_all E (Region.suspend_property_changes r) ms).pending_changed
                  = [] then []
                else Signal.PropertyChanged
                    (Region.mutate_all E (Region.suspend_property_changes r) ms).pending_changed
                  :: (if r.shared then
                        [Signal.RegionPropertyChanged
                          (Region.mutate_all E (Region.suspend_property_changes r)
                            ms).pending_changed]
                      else []))
      ∧ (Region.resume_property_changes
            (Region.mutate_all E (Region.suspend_property_changes r) ms)).pending_changed = []
      ∧ (Region.resume_property_changes
            (Region.mutate_all E (Region.suspend_property_changes r)
              ms)).property_changes_suspended = false := by
  have hf1 : (Region.suspend_property_changes r).stateful_frozen = 1 := by
    unfold Region.suspend_property_changes Region.stateful_suspend_property_changes
    dsimp only
    rw [h0]
  have hsus : (Region.suspend_property_changes r).property_changes_suspended = true := by
    unfold Region.property_changes_suspended; rw [hf1]; rfl
  have hpend : (Region.suspend_property_changes r).pending_changed = [] := hp
  obtain ⟨q1, q2, q3⟩ := Region.quiet_mutate_all E ms (Region.suspend_property_changes r)
  have hsh : (Region.mutate_all E (Region.suspend_property_changes r) ms).shared = r.shared :=
    q2
  obtain ⟨s1, s2, s3⟩ := Region.resume_property_changes_signals
    (Region.mutate_all E (Region.suspend_property_changes r) ms) (q1.trans hf1)
  refine ⟨q3 hsus, fun p => ?_, ?_, s2, s3⟩
  · rw [Region.mem_pending_mutate_all E hcm, hpend]
    simp
  · rw [s1, hsh]

/-- C26 at work: a move, a new length and a new start made while suspended
emit nothing, and the resume emits the one change-set that holds position,
length and start. -/
theorem C26_resume_emits_one_batched_change_set_witness :
    region_at_five.stateful_frozen = 0 ∧ region_at_five.pending_changed = []
      ∧ (Region.mutate_all sample_env (Region.suspend_property_changes region_at_five)
          sample_mutations).signals = []
      ∧ (Region.mutate_all sample_env (Region.suspend_property_changes region_at_five)
          sample_mutations).pending_changed
          = [PropertyID.position, PropertyID.length, PropertyID.start]
      ∧ (Region.resume_property_changes
            (Region.mutate_all sample_env (Region.suspend_property_changes region_at_five)
              sample_mutations)).signals
          = (Region.mutate_all sample_env (Region.suspend_property_changes region_at_five)
              sample_mutations).signals
            ++ (if (Region.mutate_all sample_env
                      (Region.suspend_property_changes region_at_five)
                      sample_mutations).pending_changed = [] then []
                else Signal.PropertyChanged
                    (Region.mutate_all sample_env
                      (Region.suspend_property_changes region_at_five)
                      sample_mutations).pending_changed
                  :: (if region_at_five.shared then
                        [Signal.RegionPropertyChanged
                          (Region.mutate_all sample_env
                            (Region.suspend_property_changes region_at_five)
                            sample_mutations).pending_changed]
                      else [])) :=
  ⟨by decide, by decide, by decide, by decide,
    (C26_resume_emits_one_batched_change_set sample_env region_at_five sample_mutations
      (fun _ _ => rfl) (by decide) (by decide)).2.2.1⟩

namespace Region

/-! ## Restoring from a node -/

theorem send_change_stretch_shift (r : Region) (c : PropertyChange) :
    (send_change r c).stretch = r.stretch ∧ (send_change r c).shift = r.shift
      ∧ (send_change r c).muted = r.muted := by
  unfold send_change stateful_send_change; dsimp only; split_ifs <;> exact ⟨rfl, rfl, rfl⟩

theorem set_state_reset_length_stretch_shift (r : Region) :
    (set_state_reset_length r).stretch = r.stretch
      ∧ (set_state_reset_length r).shift = r.shift := by
  unfold set_state_reset_length
  split
  · split_ifs <;> exact ⟨rfl, rfl⟩
  · exact ⟨rfl, rfl⟩

theorem set_state_fix_stretch_shift_values (r : Region) :
    (set_state_fix_stretch_shift r).stretch
        = (if r.stretch.is_zero then float.one else r.stretch)
      ∧ (set_state_fix_stretch_shift r).shift
        = (if r.shift.is_zero then float.one else r.shift) := by
  unfold set_state_fix_stretch_shift
  dsimp only
  split_ifs <;> exact ⟨rfl, rfl⟩

theorem set_state_legacy_mute_fields (r : Region) (flags : Option String) :
    (set_state_legacy_mute r flags).stretch = r.stretch
      ∧ (set_state_legacy_mute r flags).shift = r.shift
      ∧ (∀ text : String, flags = some text → contains_text text "Muted" = true →
          (set_state_legacy_mute r flags).muted = true) := by
  unfold set_state_legacy_mute set_muted
  cases flags with
  | none => simp
  | some text =>
    dsimp only
    obtain ⟨h1, h2, h3⟩ := send_change_stretch_shift { r with muted := true } [PropertyID.muted]
    split_ifs with ha hb
    · refine ⟨h1, h2, fun _ _ _ => h3⟩
    · refine ⟨rfl, rfl, fun _ _ _ => ?_⟩
      cases hm : r.muted
      · exact absurd hm (by simpa using hb)
      · rfl
    · refine ⟨rfl, rfl, fun t ht hc => ?_⟩
      cases ht
      exact absurd hc ha

theorem set_state_values (r : Region) (node : XMLNode) (send : Bool) :
    (r._set_state node send).2.2.stretch
        = (if (node.set_values r).1.stretch.is_zero then float.one
           else (node.set_values r).1.stretch)
      ∧ (r._set_state node send).2.2.shift
        = (if (node.set_values r).1.shift.is_zero then float.one
           else (node.set_values r).1.shift)
      ∧ (∀ text : String, node.flags = some text → contains_text text "Muted" = true →
          (r._set_state node send).2.2.muted = true) := by
  unfold _set_state
  dsimp only
  obtain ⟨a1, a2⟩ := set_state_reset_length_stretch_shift (node.set_values r).1
  obtain ⟨b1, b2⟩ := set_state_fix_stretch_shift_values
    (set_state_reset_length (node.set_values r).1)
  rw [a1] at b1
  rw [a2] at b2
  generalize set_state_fix_stretch_shift (set_state_reset_length (node.set_values r).1) = r4
    at b1 b2 ⊢
  have c : (if send = true then send_change r4 (node.set_values r).2 else r4).stretch
        = r4.stretch
      ∧ (if send = true then send_change r4 (node.set_values r).2 else r4).shift = r4.shift := by
    obtain ⟨h1, h2, -⟩ := send_change_stretch_shift r4 (node.set_values r).2
    split_ifs
    · exact ⟨h1, h2⟩
    · exact ⟨rfl, rfl⟩
  generalize (if send = true then send_change r4 (node.set_values r).2 else r4) = r5 at c ⊢
  obtain ⟨d1, d2, d3⟩ := set_state_legacy_mute_fields r5 node.flags
  generalize set_state_legacy_mute r5 node.flags = r6 at d1 d2 d3 ⊢
  have f : ∀ x : Region,
      (if x.user_transients.length = 0 then { x with valid_transients := false }
        else x).stretch = x.stretch
      ∧ (if x.user_transients.length = 0 then { x with valid_transients := false }
        else x).shift = x.shift
      ∧ (if x.user_transients.length = 0 then { x with valid_transients := false }
        else x).muted = x.muted := by
    intro x
    split_ifs <;> exact ⟨rfl, rfl, rfl⟩
  obtain ⟨f1, f2, f3⟩ := f r6
  exact ⟨f1.trans (d1.trans (c.1.trans b1)), f2.trans (d2.trans (c.2.trans b2)),
    fun t ht hc => f3.trans (d3 t ht hc)⟩

end Region

/-! ## Restoring from a node (C31) -/

/-- C31: after `_set_state`, for every node and whether or not the change is
sent, stretch and shift are not zero: a loaded value that compares equal to
`0.0f` is replaced by `1.0f` and every other loaded value is kept; and when
the text of the property "flags" of the node contains "Muted", the region is
muted afterwards. -/
theorem C31_set_state_repairs_stretch_shift_and_mute (r : Region) (node : XMLNode)
    (send : Bool) :
    (r._set_state node send).2.2.stretch.is_zero = false
      ∧ (r._set_state node send).2.2.shift.is_zero = false
      ∧ ((node.set_values r).1.stretch.is_zero = true →
          (r._set_state node send).2.2.stretch = float.one)
      ∧ ((node.set_values r).1.stretch.is_zero = false →
          (r._set_state node send).2.2.stretch = (node.set_values r).1.stretch)
      ∧ ((node.set_values r).1.shift.is_zero = true →
          (r._set_state node send).2.2.shift = float.one)
      ∧ ((node.set_values r).1.shift.is_zero = false →
          (r._set_state node send).2.2.shift = (node.set_values r).1.shift)
      ∧ (∀ text : String, node.flags = some text → contains_text text "Muted" = true →
          (r._set_state node send).2.2.muted = true) := by
  obtain ⟨h1, h2, h3⟩ := Region.set_state_values r node send
  have hone : float.one.is_zero = false := by decide
  refine ⟨?_, ?_, ?_, ?_, ?_, ?_, h3⟩
  · rw [h1]
    cases hz : (node.set_values r).1.stretch.is_zero
    · simpa using hz
    · simpa using hone
  · rw [h2]
    cases hz : (node.set_values r).1.shift.is_zero
    · simpa using hz
    · simpa using hone
  · intro hz; rw [h1, hz]; rfl
  · intro hz; rw [h1, hz]; rfl
  · intro hz; rw [h2, hz]; rfl
  · intro hz; rw [h2, hz]; rfl

/-- C31 at work: a legacy node with the stored stretch 0, the stored shift
1.5 and the flags text "Opaque,Muted,DefaultFadeIn". -/
theorem C31_set_state_repairs_stretch_shift_and_mute_witness :
    (node_legacy_muted.set_values region_at_five).1.stretch.is_zero = true
      ∧ (region_at_five._set_state node_legacy_muted true).2.2.stretch = float.one
      ∧ (node_legacy_muted.set_values region_at_five).1.shift.is_zero = false
      ∧ (region_at_five._set_state node_legacy_muted true).2.2.shift
          = float.finite false 3 (-1)
      ∧ contains_text "Opaque,Muted,DefaultFadeIn" "Muted" = true
      ∧ region_at_five.muted = false
      ∧ (region_at_five._set_state node_legacy_muted true).2.2.muted = true :=
  ⟨by decide,
    (C31_set_state_repairs_stretch_shift_and_mute region_at_five node_legacy_muted true).2.2.1
      (by decide),
    by decide,
    (C31_set_state_repairs_stretch_shift_and_mute region_at_five node_legacy_muted
      true).2.2.2.2.2.1 (by decide),
    by decide, by decide,
    (C31_set_state_repairs_stretch_shift_and_mute region_at_five node_legacy_muted
      true).2.2.2.2.2.2 "Opaque,Muted,DefaultFadeIn" rfl (by decide)⟩

/-! ## Rejected trims and the snapshot under suspension (C32 and C33) -/

/-- The targets that the trims by absolute target reject: `trim_front (p)` and
`cut_front (p)` with `p ≥ end - 1`, and `trim_end (e)` and `cut_end (e)` with
`e ≤ position`, return the region as it was, so that start, position, length,
`whole_file` and the split flags are unchanged and no signal is emitted. -/
theorem rejected_trim_targets_return (E : Env) (r : Region) (p e : timepos_t) :
    (r.end_ - 1 ≤ p → Region.trim_front E r p = r ∧ Region.cut_front E r p = r)
      ∧ (e ≤ r.position → Region.trim_end E r e = r ∧ Region.cut_end E r e = r) := by
  constructor
  · intro h
    have h2 : ¬ p < Region.timepos_decrement r.end_ := by
      unfold Region.timepos_decrement
      unfold timepos_t at *
      omega
    unfold Region.trim_front Region.cut_front Region.modify_front
    simp [h2]
  · intro h
    have h2 : ¬ e > r.position := by
      unfold timepos_t at *
      omega
    unfold Region.trim_end Region.cut_end Region.modify_end
    simp [h2]

/-- C32, the code at a failing input: the region with start 10, length 5 and
position 5 over one fixed-length source of length 10 is unlocked, and the
targets 8 for the end (after the position 5) and 7 for the front (before
`end - 1 = 9`) are not among the rejected ones. `trim_end (8)`, `cut_end (8)`
and `trim_front (7)` are carried out and leave the length 0, a span that is
not positive: `verify_start_and_length` clamps the length to zero and the
result is not tested. -/
theorem C32_accepted_trims_leave_zero_length :
    region_at_source_end.locked = false
      ∧ region_at_source_end.length = 5
      ∧ ¬ (8 : Int) ≤ region_at_source_end.position
      ∧ ¬ region_at_source_end.end_ - 1 ≤ (7 : Int)
      ∧ (Region.trim_end sample_env region_at_source_end 8).length = 0
      ∧ (Region.cut_end sample_env region_at_source_end 8).length = 0
      ∧ (Region.trim_front sample_env region_at_source_end 7).length = 0
      ∧ Region.trim_end sample_env region_at_source_end 5 = region_at_source_end
      ∧ Region.trim_front sample_env region_at_source_end 9 = region_at_source_end := by
  decide

/-- C33, the code at a failing input: the region at position 5 with length 10
is suspended, which snapshots `last_position = 5` and `last_length = 10`.
After `trim_to (7, 3)` and `trim_to (9, 2)` the shadow values are 7 and 3, the
position and the length before the second trim, and not the snapshot; after
`trim_front (7)` and `trim_end (12)` the shadow length is 8. One trim alone
leaves the snapshot in place. -/
theorem C33_second_trim_overwrites_snapshot :
    (Region.suspend_property_changes region_at_five).property_changes_suspended = true
      ∧ (Region.suspend_property_changes region_at_five).last_position = 5
      ∧ (Region.suspend_property_changes region_at_five).last_length = 10
      ∧ (Region.mutate_all sample_env (Region.suspend_property_changes region_at_five)
          [Region.Mutation.trim_to 7 3]).last_position = 5
      ∧ (Region.mutate_all sample_env (Region.suspend_property_changes region_at_five)
          [Region.Mutation.trim_to 7 3]).last_length = 10
      ∧ (Region.mutate_all sample_env (Region.suspend_property_changes region_at_five)
          two_trims).last_position = 7
      ∧ (Region.mutate_all sample_env (Region.suspend_property_changes region_at_five)
          two_trims).last_length = 3
      ∧ (Region.mutate_all sample_env (Region.suspend_property_changes region_at_five)
          front_then_end_trim).last_length = 8 := by
  decide

/-! ## Latest possible sample (C36) -/

/-- C36, the code at a failing input: for the region at position 7 with start
2 over one source of length 10, `latest_possible_sample ()` returns
`7 + 10 - 1 = 16`; the position plus the source extent past the start, minus
one, is `7 + (10 - 2) - 1 = 14`. With start 0 the two agree. -/
theorem C36_latest_possible_sample_ignores_start :
    region_trimmed_front.position = 7 ∧ region_trimmed_front.start = 2
      ∧ region_trimmed_front.sources = [{ id := 1, length := 10 }]
      ∧ Region.latest_possible_sample sample_env region_trimmed_front = 16
      ∧ region_trimmed_front.position + 10 - region_trimmed_front.start - 1 = 14
      ∧ Region.latest_possible_sample sample_env region_at_five
          = region_at_five.position + 10 - region_at_five.start - 1 := by
  decide

namespace Region

/-! ## The partial copy -/

theorem use_sources_loop_length (s : List Source) (unique : List Nat) (r : Region)
    (u : UseCount) :
    (use_sources_loop s unique r u).1.length = r.length := by
  induction s generalizing unique r u with
  | nil => simp [use_sources_loop]
  | cons x t ih =>
    unfold use_sources_loop
    dsimp only
    split_ifs
    · rw [ih]
    · rw [ih]

theorem set_master_sources_length (r : Region) (u : UseCount) (srcs : List Source)
    (st : Region × UseCount) (h : set_master_sources r u srcs = some st) :
    st.1.length = r.length := by
  unfold set_master_sources at h
  dsimp only at h
  split_ifs at h
  cases h
  rfl

/-- What the copy with an offset holds: the start of `other` plus the offset,
the length of `other` as it is, and the sources of `other`. -/
theorem new_copy_with_offset_extent (u : UseCount) (other : Region) (o : timecnt_t)
    (st : Region × UseCount) (h : new_copy_with_offset u other o = some st) :
    st.1.start = other.start + o ∧ st.1.length = other.length
      ∧ st.1.sources = other.sources := by
  unfold new_copy_with_offset at h
  dsimp only at h
  split at h
  · cases h
  · rename_i r2 u2 heq
    cases h
    have hl := set_master_sources_length _ _ _ _ heq
    obtain ⟨hs, -, -⟩ := (copy_sources_some
      { copy_state other with locked := false, whole_file := false, hidden := false }
      u other rfl).2 _ heq
    dsimp only at hl hs
    unfold use_sources at hl
    rw [use_sources_loop_length] at hl
    have hl2 : r2.length = other.length := hl
    unfold offset_copy_sync
    dsimp only
    split_ifs <;> exact ⟨rfl, hl2, hs⟩

end Region

/-! ## Partial copy (C35) -/

/-- C35, as stated, fails: the region with start 0 and length 10 over one
fixed-length source of length 10 lies within its source, and its copy from the
offset 3 has start 3 and the length 10, which ends at 13, beyond the source. -/
theorem C35_partial_copy_exceeds_source :
    region_one_source.start + region_one_source.length ≤ 10
      ∧ region_one_source.sources = [{ id := 1, length := 10 }]
      ∧ (0 : Int) ≤ 3 ∧ (3 : Int) < region_one_source.length
      ∧ (Region.new_copy_with_offset no_use region_one_source 3).map
          (fun st => (st.1.start, st.1.length, st.1.sources))
          = some (3, 10, [{ id := 1, length := 10 }]) := by
  decide

/-- C35, amended: the region `Region (other, o)` has the start of `other` plus
`o`, the length of `other` unchanged and the sources of `other`, so that its
`start + length` is `other.start + other.length + o`; it lies within every
source, the shortest included, exactly when `other.start + other.length + o`
does. The constructor returns for every `other` whose source lists are as long
as each other. -/
theorem C35_partial_copy_extent (u : UseCount) (other : Region) (o : timecnt_t) :
    (∀ st, Region.new_copy_with_offset u other o = some st →
        st.1.start + st.1.length = other.start + other.length + o
          ∧ st.1.sources = other.sources
          ∧ ((∀ s ∈ st.1.sources, st.1.start + st.1.length ≤ s.length)
              ↔ ∀ s ∈ other.sources, other.start + other.length + o ≤ s.length))
      ∧ (other.sources.length = other.master_sources.length →
          ∃ st, Region.new_copy_with_offset u other o = some st) := by
  constructor
  · intro st h
    obtain ⟨h1, h2, h3⟩ := Region.new_copy_with_offset_extent u other o st h
    have hsum : st.1.start + st.1.length = other.start + other.length + o := by
      rw [h1, h2]
      unfold timecnt_t
      omega
    refine ⟨hsum, h3, ?_⟩
    rw [h3, hsum]
  · exact new_copy_with_offset_returns u other o

/-- C35 at work: the region with start 0 and length 5 over sources of lengths
10 and 20, copied from the offset 3, ends at 8, within the shortest source. -/
theorem C35_partial_copy_extent_witness :
    region_two_sources.sources.length = region_two_sources.master_sources.length
      ∧ (∀ s ∈ region_two_sources.sources,
          region_two_sources.start + region_two_sources.length + 3 ≤ s.length)
      ∧ ∃ st, Region.new_copy_with_offset no_use region_two_sources 3 = some st
          ∧ st.1.start + st.1.length = 8
          ∧ ∀ s ∈ st.1.sources, st.1.start + st.1.length ≤ s.length := by
  refine ⟨by decide, by decide, ?_⟩
  obtain ⟨st, hst⟩ := (C35_partial_copy_extent no_use region_two_sources 3).2 (by decide)
  obtain ⟨h1, -, h3⟩ := (C35_partial_copy_extent no_use region_two_sources 3).1 st hst
  exact ⟨st, hst, h1, h3.2 (by decide)⟩

namespace Region

/-! ## Use counts against the source lists -/

theorem occurrences_eq (r : Region) (i : Nat) :
    occurrences r i = ((r.sources.map Source.id).count i : Int)
      + ((r.master_sources.map Source.id).count i : Int) := rfl

/-- The uses that `use_sources` adds are the entries it appends. -/
theorem use_sources_balance (r : Region) (u : UseCount) (s : List Source) (i : Nat) :
    (use_sources r u s).2 i - occurrences (use_sources r u s).1 i = u i - occurrences r i := by
  obtain ⟨l1, l2⟩ := use_sources_lists r u s
  rw [use_sources_counts, occurrences_eq, occurrences_eq, l1, l2]
  simp only [List.map_append, List.count_append, Nat.cast_add]
  omega

/-- The uses that `drop_sources` takes back are the entries it removes. -/
theorem drop_sources_balance (r : Region) (u : UseCount) (i : Nat) :
    (drop_sources r u).2 i = u i - occurrences r i
      ∧ occurrences (drop_sources r u).1 i = 0 := by
  unfold drop_sources
  dsimp only
  rw [foldl_dec_use_count, foldl_dec_use_count, occurrences_eq, occurrences_eq]
  simp only [List.map_nil, List.count_nil, Nat.cast_zero, add_zero, and_true]
  omega

/-- The uses that `set_master_sources` moves are the master entries it
replaces. -/
theorem set_master_sources_balance (r : Region) (u : UseCount) (srcs : List Source)
    (st : Region × UseCount) (h : set_master_sources r u srcs = some st) (i : Nat) :
    st.2 i - occurrences st.1 i = u i - occurrences r i := by
  unfold set_master_sources at h
  dsimp only at h
  split_ifs at h
  cases h
  dsimp only
  rw [foldl_inc_use_count, foldl_dec_use_count, occurrences_eq, occurrences_eq]
  dsimp only
  omega

theorem source_deleted_balance (r : Region) (u : UseCount) (d : Bool) (i : Nat) :
    (source_deleted r u d).2 i - occurrences (source_deleted r u d).1 i
      = u i - occurrences r i := by
  obtain ⟨h1, h2⟩ := drop_sources_balance r u i
  unfold source_deleted
  dsimp only
  split_ifs
  · have h3 : occurrences { (drop_sources r u).1 with
        signals := (drop_sources r u).1.signals ++ [Signal.DropReferences] } i
        = occurrences (drop_sources r u).1 i := rfl
    dsimp only
    rw [h3, h1, h2]
    omega
  · rw [h1, h2]
    omega

theorem apply_source_op_balance (st st1 : Region × UseCount) (op : SourceOp)
    (h : apply_source_op st op = some st1) (i : Nat) :
    st1.2 i - occurrences st1.1 i = st.2 i - occurrences st.1 i := by
  cases op with
  | use_sources s =>
    unfold apply_source_op at h
    cases h
    exact use_sources_balance st.1 st.2 s i
  | set_master_sources srcs =>
    unfold apply_source_op at h
    exact set_master_sources_balance st.1 st.2 srcs st1 h i
  | drop_sources =>
    unfold apply_source_op at h
    cases h
    obtain ⟨h1, h2⟩ := drop_sources_balance st.1 st.2 i
    rw [h1, h2]
    omega
  | source_deleted d =>
    unfold apply_source_op at h
    cases h
    exact source_deleted_balance st.1 st.2 d i

theorem apply_source_ops_balance (ops : List SourceOp) (st st1 : Region × UseCount)
    (h : apply_source_ops ops st = some st1) (i : Nat) :
    st1.2 i - occurrences st1.1 i = st.2 i - occurrences st.1 i := by
  induction ops generalizing st with
  | nil =>
    unfold apply_source_ops at h
    cases h
    rfl
  | cons op rest ih =>
    unfold apply_source_ops at h
    split at h
    · cases h
    · rename_i st2 heq
      rw [ih st2 h]
      exact apply_source_op_balance st st2 op heq i

theorem copy_sync_occurrences (r other : Region) (i : Nat) :
    occurrences (copy_sync r other) i = occurrences r i := by
  unfold copy_sync
  split_ifs <;> rfl

theorem offset_copy_sync_occurrences (r other : Region) (i : Nat) :
    occurrences (offset_copy_sync r other) i = occurrences r i := by
  unfold offset_copy_sync
  split_ifs <;> rfl

/-- On a region without sources, `use_sources` applies exactly the uses of the
entries it leaves in the two lists. -/
theorem use_sources_fresh (r : Region) (u : UseCount) (s : List Source) (i : Nat)
    (h1 : r.sources = []) (h2 : r.master_sources = []) :
    (use_sources r u s).2 i - u i = occurrences (use_sources r u s).1 i := by
  have hb := use_sources_balance r u s i
  have h0 : occurrences r i = 0 := by
    rw [occurrences_eq, h1, h2]
    rfl
  rw [h0] at hb
  omega

/-- The two calls that open the copying constructors, on a region without
sources. -/
theorem copy_sources_balance (r1 : Region) (u : UseCount) (other : Region)
    (st : Region × UseCount) (h1 : r1.sources = []) (h2 : r1.master_sources = [])
    (h : set_master_sources (use_sources r1 u other.sources).1
      (use_sources r1 u other.sources).2 other.master_sources = some st) (i : Nat) :
    st.2 i - u i = occurrences st.1 i := by
  have hf := use_sources_fresh r1 u other.sources i h1 h2
  have hm := set_master_sources_balance _ _ _ _ h i
  omega

theorem new_from_sources_balance (u : UseCount) (srcs : List Source)
    (st : Region × UseCount) (h : new_from_sources u srcs = some st) (i : Nat) :
    st.2 i - u i = occurrences st.1 i := by
  unfold new_from_sources at h
  split at h
  · cases h
  · cases h
    exact use_sources_fresh _ u srcs i rfl rfl

theorem new_copy_balance (u : UseCount) (other : Region)
    (st : Region × UseCount) (h : new_copy u other = some st) (i : Nat) :
    st.2 i - u i = occurrences st.1 i := by
  unfold new_copy at h
  dsimp only at h
  split at h
  · cases h
  · rename_i r2 u2 heq
    cases h
    have hc := copy_sources_balance _ u other _ rfl rfl heq i
    dsimp only
    rw [copy_sync_occurrences]
    exact hc

theorem new_copy_with_offset_balance (u : UseCount) (other : Region) (o : timecnt_t)
    (st : Region × UseCount) (h : new_copy_with_offset u other o = some st) (i : Nat) :
    st.2 i - u i = occurrences st.1 i := by
  unfold new_copy_with_offset at h
  dsimp only at h
  split at h
  · cases h
  · rename_i r2 u2 heq
    cases h
    have hc := copy_sources_balance _ u other _ rfl rfl heq i
    dsimp only
    rw [offset_copy_sync_occurrences]
    exact hc

theorem new_copy_with_sources_balance (u : UseCount) (other : Region) (srcs : List Source)
    (st : Region × Region × UseCount) (h : new_copy_with_sources u other srcs = some st)
    (i : Nat) :
    st.2.2 i - u i = occurrences st.1 i := by
  unfold new_copy_with_sources at h
  split at h
  · cases h
  · dsimp only at h
    cases h
    exact use_sources_fresh _ u srcs i rfl rfl

end Region
/-! ## Reference-count accounting (C37) -/

/-- C37: for every source identity `i`, with `u` the use counts before the
region applies any call, the uses the region has applied to the source
(`inc_use_count` calls minus `dec_use_count` calls, the change of the count)
equal the occurrences of the source in `sources` plus those in
`master_sources`: after each of the four constructors that attach sources,
and, when it holds before, after every sequence of `use_sources`,
`set_master_sources`, `drop_sources` and `source_deleted` calls that runs
without a failed assertion; after `drop_sources` it is zero. -/
theorem C37_use_counts_match_source_lists (u : UseCount) (other : Region)
    (srcs : List Source) (o : timecnt_t) (ops : List Region.SourceOp) (i : Nat) :
    (∀ st, Region.new_from_sources u srcs = some st →
        st.2 i - u i = Region.occurrences st.1 i)
      ∧ (∀ st, Region.new_copy u other = some st →
          st.2 i - u i = Region.occurrences st.1 i)
      ∧ (∀ st, Region.new_copy_with_offset u other o = some st →
          st.2 i - u i = Region.occurrences st.1 i)
      ∧ (∀ st, Region.new_copy_with_sources u other srcs = some st →
          st.2.2 i - u i = Region.occurrences st.1 i)
      ∧ (∀ (r : Region) (u1 : UseCount) (st : Region × UseCount),
          u1 i - u i = Region.occurrences r i →
          Region.apply_source_ops ops (r, u1) = some st →
          st.2 i - u i = Region.occurrences st.1 i)
      ∧ (∀ (r : Region) (u1 : UseCount),
          u1 i - u i = Region.occurrences r i →
          (Region.drop_sources r u1).2 i - u i = 0
            ∧ Region.occurrences (Region.drop_sources r u1).1 i = 0) := by
  refine ⟨fun st h => Region.new_from_sources_balance u srcs st h i,
    fun st h => Region.new_copy_balance u other st h i,
    fun st h => Region.new_copy_with_offset_balance u other o st h i,
    fun st h => Region.new_copy_with_sources_balance u other srcs st h i, ?_, ?_⟩
  · intro r u1 st hinv h
    have hb := Region.apply_source_ops_balance ops (r, u1) st h i
    dsimp only at hb
    omega
  · intro r u1 hinv
    obtain ⟨h1, h2⟩ := Region.drop_sources_balance r u1 i
    exact ⟨by omega, h2⟩

/-- C37 at work: source 1 is used twice by the region over sources 1 and 2;
after five calls that end with the source lists `[5]` and `[5]`, the region
has no use of source 1 left and two uses of source 5. -/
theorem C37_use_counts_match_source_lists_witness :
    (2 : Int) - no_use 1 = Region.occurrences region_two_sources 1
      ∧ (Region.apply_source_ops sample_source_ops (region_two_sources, fun _ => 2)).map
          (fun st => (st.1.sources.map Source.id, st.2 1, st.2 5))
          = some ([5], 0, 4)
      ∧ ∃ st, Region.apply_source_ops sample_source_ops (region_two_sources, fun _ => 2)
            = some st
          ∧ st.2 1 - no_use 1 = Region.occurrences st.1 1 := by
  have hsome : (Region.apply_source_ops sample_source_ops
      (region_two_sources, fun _ => 2)).isSome = true := by decide
  obtain ⟨st, hst⟩ := Option.isSome_iff_exists.mp hsome
  exact ⟨by decide, by decide, st, hst,
    (C37_use_counts_match_source_lists no_use region_two_sources [] 0 sample_source_ops
      1).2.2.2.2.1 region_two_sources (fun _ => 2) st (by decide) hst⟩

namespace Region

/-! ## The end of the region against the domain maximum -/

/-- After `set_position_internal (pos)` the position is `pos`, and the length
is `max - pos` when the region really moves and would pass the maximum, and
unchanged otherwise. -/
theorem set_position_internal_extent (E : Env) (r : Region) (pos : timepos_t) :
    (set_position_internal E r pos).position = pos
      ∧ (set_position_internal E r pos).length
          = (if r.position ≠ pos ∧ E.timepos_max - r.length < pos then E.timepos_max - pos
             else r.length) := by
  refine ⟨?_, set_position_internal_length E r pos⟩
  unfold set_position_internal; dsimp only
  split_ifs <;> first | rfl | simp_all

theorem set_position_extent (E : Env) (r : Region) (pos : timepos_t) :
    (set_position E r pos).position = (if E.can_move r then pos else r.position)
      ∧ (set_position E r pos).length
          = (if E.can_move r = true ∧ r.position ≠ pos ∧ E.timepos_max - r.length < pos
              then E.timepos_max - pos
             else r.length) := by
  obtain ⟨h1, h2⟩ := set_position_internal_extent E r pos
  unfold set_position
  cases hcm : E.can_move r
  · simp
  · simp only [Bool.not_true, Bool.false_eq_true, if_false, send_change_position,
      send_change_length, h1, h2, if_true, true_and]

theorem set_initial_position_extent (E : Env) (r : Region) (pos : timepos_t) :
    (set_initial_position E r pos).position = (if E.can_move r then pos else r.position)
      ∧ (set_initial_position E r pos).length
          = (if E.can_move r = true ∧ r.position ≠ pos ∧ E.timepos_max - r.length < pos
              then E.timepos_max - pos
             else r.length) := by
  unfold set_initial_position recompute_position_from_time_domain
  cases hcm : E.can_move r
  · simp
  · simp only [Bool.not_true, Bool.false_eq_true, if_false, send_change_position,
      send_change_length, if_true, true_and]
    by_cases hp : r.position = pos
    · simp [hp]
    · simp only [hp, ne_eq, not_false_eq_true, if_true, true_and]
      split_ifs <;> exact ⟨rfl, rfl⟩

theorem nudge_position_extent (E : Env) (r : Region) (n : timecnt_t)
    (hl : r.locked = false) (hv : r.video_locked = false) (hn : n ≠ 0) :
    (nudge_position E r n).position = nudge_target E r n
      ∧ (nudge_position E r n).length
          = (if r.position ≠ nudge_target E r n ∧ E.timepos_max - r.length < nudge_target E r n
              then E.timepos_max - nudge_target E r n
             else r.length) := by
  obtain ⟨h1, h2⟩ := set_position_internal_extent E r (nudge_target E r n)
  unfold nudge_position
  simp only [hl, hv, hn, Bool.or_self, Bool.false_eq_true, if_false, send_change_position,
    send_change_length]
  exact ⟨h1, h2⟩

theorem set_length_position (E : Env) (r : Region) (len : timecnt_t) :
    (set_length E r len).position = r.position := by
  unfold set_length set_length_internal maybe_uncopy recompute_at_end; dsimp only
  split_ifs <;> simp

/-- A length that would carry the end past the maximum is refused. -/
theorem set_length_rejects_overflow (E : Env) (r : Region) (len : timecnt_t)
    (h : r.position + len > E.timepos_max) : set_length E r len = r := by
  have h2 : E.timepos_max - len < r.position := by
    unfold timepos_t timecnt_t at *
    omega
  unfold set_length
  simp only [h2, if_true]
  split_ifs <;> rfl

end Region
/-! ## No overflow of the region end (C38) -/

/-- C38: if `position + length` is within the domain maximum before the call,
it still is after `set_position`, `set_initial_position`, `nudge_position` and
`set_length`; a move of a movable region to a position `p` with
`p + length` beyond the maximum leaves the position `p` and shrinks the length
to `maximum - p`, and so does a nudge that arrives at such a position; and
`set_length (len)` with `position + len` beyond the maximum is rejected, the
region returned as it was. -/
theorem C38_region_end_stays_within_maximum (E : Env) (r : Region) (pos : timepos_t)
    (n len : timecnt_t) (hend : r.position + r.length ≤ E.timepos_max) :
    (Region.set_position E r pos).position + (Region.set_position E r pos).length
        ≤ E.timepos_max
      ∧ (Region.set_initial_position E r pos).position
          + (Region.set_initial_position E r pos).length ≤ E.timepos_max
      ∧ (Region.nudge_position E r n).position + (Region.nudge_position E r n).length
          ≤ E.timepos_max
      ∧ (Region.set_length E r len).position + (Region.set_length E r len).length
          ≤ E.timepos_max
      ∧ (E.can_move r = true → pos + r.length > E.timepos_max →
          (Region.set_position E r pos).position = pos
            ∧ (Region.set_position E r pos).length = E.timepos_max - pos
            ∧ (Region.set_initial_position E r pos).position = pos
            ∧ (Region.set_initial_position E r pos).length = E.timepos_max - pos)
      ∧ (r.locked = false → r.video_locked = false → n ≠ 0 →
          Region.nudge_target E r n + r.length > E.timepos_max →
          (Region.nudge_position E r n).position = Region.nudge_target E r n
            ∧ (Region.nudge_position E r n).length
                = E.timepos_max - Region.nudge_target E r n)
      ∧ (r.position + len > E.timepos_max → Region.set_length E r len = r) := by
  obtain ⟨p1, p2⟩ := Region.set_position_extent E r pos
  obtain ⟨i1, i2⟩ := Region.set_initial_position_extent E r pos
  refine ⟨?_, ?_, ?_, ?_, ?_, ?_, Region.set_length_rejects_overflow E r len⟩
  · rw [p1, p2]
    clear p1 p2 i1 i2
    cases hcm : E.can_move r
    · simpa using hend
    · simp only [if_true, true_and]
      unfold timepos_t timecnt_t at *
      split_ifs <;> omega
  · rw [i1, i2]
    clear p1 p2 i1 i2
    cases hcm : E.can_move r
    · simpa using hend
    · simp only [if_true, true_and]
      unfold timepos_t timecnt_t at *
      split_ifs <;> omega
  · by_cases hmv : r.locked = false ∧ r.video_locked = false ∧ n ≠ 0
    · obtain ⟨a1, a2⟩ := Region.nudge_position_extent E r n hmv.1 hmv.2.1 hmv.2.2
      rw [a1, a2]
      clear p1 p2 i1 i2 a1 a2
      generalize Region.nudge_target E r n = t
      unfold timepos_t timecnt_t at *
      split_ifs <;> omega
    · have hsame : Region.nudge_position E r n = r := by
        unfold Region.nudge_position
        by_cases hl : r.locked = true
        · simp [hl]
        · by_cases hv : r.video_locked = true
          · simp [hv]
          · have hn : n = 0 := by
              by_contra hne
              exact hmv ⟨by simpa using hl, by simpa using hv, hne⟩
            simp [hn]
      rw [hsame]
      exact hend
  · rw [Region.set_length_position]
    rcases Region.set_length_length E r len with h | h
    · rw [h]; exact hend
    · by_cases hov : r.position + len > E.timepos_max
      · rw [Region.set_length_rejects_overflow E r len hov]; exact hend
      · rw [h]
        unfold Region.verify_length
        unfold timepos_t timecnt_t at *
        split_ifs
        · dsimp only; omega
        · dsimp only
          have := min_le_left len (Region.maxlen_from r.sources r.start)
          omega
  · intro hcm hov
    have hne : r.position ≠ pos := by
      intro e
      rw [e] at hend
      unfold timepos_t timecnt_t at *
      omega
    have hlt : E.timepos_max - r.length < pos := by
      unfold timepos_t timecnt_t at *
      omega
    rw [p1, p2, i1, i2]
    simp [hcm, hne, hlt]
  · intro hl hv hn hov
    obtain ⟨a1, a2⟩ := Region.nudge_position_extent E r n hl hv hn
    have hne : r.position ≠ Region.nudge_target E r n := by
      intro e
      rw [← e] at hov
      unfold timepos_t timecnt_t at *
      omega
    have hlt : E.timepos_max - r.length < Region.nudge_target E r n := by
      unfold timepos_t timecnt_t at *
      omega
    rw [a1, a2]
    simp [hne, hlt]

/-- C38 at work: the region of length 10 at position 5 is moved to three
units before the maximum and keeps the length 3; a length that would pass the
maximum from there is refused. -/
theorem C38_region_end_stays_within_maximum_witness :
    region_at_five.position + region_at_five.length ≤ sample_env.timepos_max
      ∧ sample_env.can_move region_at_five = true
      ∧ sample_env.timepos_max - 3 + region_at_five.length > sample_env.timepos_max
      ∧ (Region.set_position sample_env region_at_five (sample_env.timepos_max - 3)).length
          = sample_env.timepos_max - (sample_env.timepos_max - 3)
      ∧ region_at_five.position + sample_env.timepos_max > sample_env.timepos_max
      ∧ Region.set_length sample_env region_at_five sample_env.timepos_max
          = region_at_five :=
  ⟨by decide, by decide, by decide,
    ((C38_region_end_stays_within_maximum sample_env region_at_five
      (sample_env.timepos_max - 3) 1 sample_env.timepos_max (by decide)).2.2.2.2.1
      (by decide) (by decide)).2.1,
    by decide,
    (C38_region_end_stays_within_maximum sample_env region_at_five
      (sample_env.timepos_max - 3) 1 sample_env.timepos_max (by decide)).2.2.2.2.2.2
      (by decide)⟩

namespace Region

/-! ## Trim capabilities and the start against the source start -/

/-- An unlocked region can always trim the front later; only a locked region
has no trim capability. -/
theorem can_trim_unlocked (E : Env) (r : Region) (hl : r.locked = false) :
    (can_trim E r).FrontTrimLater = true := by
  unfold can_trim
  simp only [hl, Bool.false_eq_true, if_false]
  split
  · split_ifs <;> rfl
  · split_ifs <;> rfl

/-- For an unlocked region with a first source, `EndTrimLater` is set exactly
when `start + length` is below the length of that source. -/
theorem can_trim_end_later (E : Env) (r : Region) (s : Source) (hl : r.locked = false)
    (hs : r.source = some s) :
    (can_trim E r).EndTrimLater = true ↔ r.start + r.length < s.length := by
  unfold can_trim
  simp only [hl, Bool.false_eq_true, if_false, hs]
  split_ifs <;> simp_all

theorem locked_trims_return (E : Env) (r : Region) (hl : r.locked = true) (p e pos : timepos_t)
    (len : timecnt_t) :
    trim_front E r p = r ∧ trim_end E r e = r ∧ trim_to E r pos len = r := by
  unfold trim_front trim_end trim_to modify_front modify_end
  simp [hl]

/-- The start that a trim derives is not negative when the start is not and
the region cannot trim before the source start. -/
theorem trim_new_start_nonneg (E : Env) (r : Region) (pos : timepos_t)
    (hno : E.can_trim_start_before_source_start = false) (h0 : 0 ≤ r.start)
    (hmax : 0 ≤ E.timecnt_max) : 0 ≤ trim_new_start E r pos := by
  unfold trim_new_start
  simp only [hno, Bool.false_eq_true, not_false_eq_true, and_true]
  unfold timepos_t timecnt_t at *
  split_ifs <;> omega

theorem move_start_nonneg (E : Env) (r : Region) (d : timecnt_t)
    (h0 : 0 ≤ r.start) (hmax : 0 ≤ E.timecnt_max) : 0 ≤ (move_start E r d).start := by
  rcases move_start_start E r d with h | h
  · rw [h]; exact h0
  · unfold move_start_target at h
    unfold timecnt_t at *
    dsimp only at h
    split_ifs at h <;> simp only [Option.some.injEq] at h <;> omega

theorem modify_front_start_nonneg (E : Env) (r : Region) (p : timepos_t) (b : Bool)
    (hno : E.can_trim_start_before_source_start = false) (h0 : 0 ≤ r.start)
    (hmax : 0 ≤ E.timecnt_max) : 0 ≤ (modify_front E r p b).start := by
  by_cases hl : r.locked = false
  · by_cases hlt : p < timepos_decrement r.end_
    · rw [(modify_front_fields E r p b hl hlt).1, (trim_to_internal_fields E r _ _ hl).1]
      exact trim_new_start_nonneg E r _ hno h0 hmax
    · have : modify_front E r p b = r := by
        unfold modify_front
        simp [hlt]
      rw [this]; exact h0
  · have : modify_front E r p b = r := by
      unfold modify_front
      simp [hl]
    rw [this]; exact h0

theorem modify_end_start_same (E : Env) (r : Region) (e : timepos_t) (b : Bool) :
    (modify_end E r e b).start = r.start := by
  by_cases hl : r.locked = false
  · by_cases hgt : e > r.position
    · rw [(modify_end_fields E r e b hl hgt).1, (trim_to_internal_fields E r _ _ hl).1,
        trim_new_start_same_position]
    · have : modify_end E r e b = r := by
        unfold modify_end
        simp [hgt]
      rw [this]
  · have : modify_end E r e b = r := by
      unfold modify_end
      simp [hl]
    rw [this]

/-- A front trim that is carried out leaves the position its clamped target. -/
theorem modify_front_position_result (E : Env) (r : Region) (p : timepos_t) (b : Bool) :
    (modify_front E r p b).position = r.position
      ∨ (modify_front E r p b).position = modify_front_position E r p := by
  by_cases hl : r.locked = false
  · by_cases hlt : p < timepos_decrement r.end_
    · right
      rw [(modify_front_fields E r p b hl hlt).2.2, (trim_to_internal_fields E r _ _ hl).2.2.1]
    · left
      have : modify_front E r p b = r := by
        unfold modify_front
        simp [hlt]
      rw [this]
  · left
    have : modify_front E r p b = r := by
      unfold modify_front
      simp [hl]
    rw [this]

end Region

/-! ## Trim capabilities and the source start (C39 and C40) -/

/-- C39, as stated, fails for a region whose length is negative: `trim_to
(20, -5)` leaves the region over one fixed-length source of length 10 with
start 20 and length -5. It is unlocked, `start + length = 15` is not below the
source length and `can_trim ()` lacks `EndTrimLater`, yet `trim_end (25)`
raises the length from -5 to 0. -/
theorem C39_trim_end_raises_negative_length :
    (Region.trim_to sample_env region_one_source 20 (-5)).locked = false
      ∧ (Region.trim_to sample_env region_one_source 20 (-5)).sources
          = [{ id := 1, length := 10 }]
      ∧ (Region.trim_to sample_env region_one_source 20 (-5)).start = 20
      ∧ (Region.trim_to sample_env region_one_source 20 (-5)).length = -5
      ∧ (Region.can_trim sample_env
          (Region.trim_to sample_env region_one_source 20 (-5))).EndTrimLater = false
      ∧ (Region.trim_end sample_env
          (Region.trim_to sample_env region_one_source 20 (-5)) 25).length = 0
      ∧ (Region.trim_to sample_env region_one_source 20 (-5)).length
          < (Region.trim_end sample_env
              (Region.trim_to sample_env region_one_source 20 (-5)) 25).length := by
  decide

/-- C39, amended: for every unlocked region with a single fixed-length source
and a length that is not negative, `can_trim ()` lacks `EndTrimLater` exactly when
`start + length` is at least the source length, and then no `trim_end (e)`
increases the length; and when `can_trim ()` returns no flags, the region is
locked and `trim_front`, `trim_end` and `trim_to` return it as it was, with
start, position and length unchanged. -/
theorem C39_can_trim_agrees_with_trims (E : Env) (r : Region) (s : Source)
    (p e pos : timepos_t) (len : timecnt_t) :
    (r.locked = false → r.sources = [s] → s.length_mutable = false → 0 ≤ r.length →
        ((Region.can_trim E r).EndTrimLater = false ↔ r.start + r.length ≥ s.length)
          ∧ ((Region.can_trim E r).EndTrimLater = false →
              (Region.trim_end E r e).length ≤ r.length))
      ∧ (Region.can_trim E r = {} →
          r.locked = true
            ∧ Region.trim_front E r p = r ∧ Region.trim_end E r e = r
            ∧ Region.trim_to E r pos len = r) := by
  constructor
  · intro hl hs hm hlen
    have hsrc : r.source = some s := by
      unfold Region.source
      rw [hs]
      rfl
    have hiff := Region.can_trim_end_later E r s hl hsrc
    have hiff2 : (Region.can_trim E r).EndTrimLater = false ↔ r.start + r.length ≥ s.length := by
      constructor
      · intro h
        have : ¬ r.start + r.length < s.length := fun hlt => by
          rw [hiff.2 hlt] at h
          cases h
        unfold timecnt_t at *
        omega
      · intro h
        cases hc : (Region.can_trim E r).EndTrimLater
        · rfl
        · have := hiff.1 hc
          unfold timecnt_t at *
          omega
    refine ⟨hiff2, fun hct => ?_⟩
    have hge := hiff2.1 hct
    unfold Region.trim_end
    by_cases hgt : e > r.position
    · rw [(Region.modify_end_fields E r e false hl hgt).2.1,
        (Region.trim_to_internal_fields E r _ _ hl).2.1, Region.trim_new_start_same_position]
      have hmut : r.source_length_mutable = false := by
        unfold Region.source_length_mutable
        rw [hsrc]
        exact hm
      unfold Region.verify_start_and_length Region.maxlen_from
      simp only [hmut, Bool.false_eq_true, if_false, hs, List.foldl_cons, List.foldl_nil]
      have h2 : max 0 (s.length - r.start) ≤ r.length :=
        max_le hlen (by unfold timecnt_t at *; omega)
      exact le_trans (min_le_right _ _) h2
    · have : Region.modify_end E r e false = r := by
        unfold Region.modify_end
        simp [hgt]
      rw [this]
  · intro hct
    have hl : r.locked = true := by
      cases hc : r.locked
      · have := Region.can_trim_unlocked E r hc
        rw [hct] at this
        cases this
      · rfl
    exact ⟨hl, Region.locked_trims_return E r hl p e pos len⟩

/-- C39 at work: the region that covers its source of length 10 entirely
cannot trim its end later, and `trim_end (20)` leaves the length 10; a locked
region has no trim capability. -/
theorem C39_can_trim_agrees_with_trims_witness :
    region_one_source.locked = false
      ∧ region_one_source.sources = [{ id := 1, length := 10 }]
      ∧ (0 : Int) ≤ region_one_source.length
      ∧ (Region.can_trim sample_env region_one_source).EndTrimLater = false
      ∧ (Region.trim_end sample_env region_one_source 20).length
          ≤ region_one_source.length
      ∧ Region.can_trim sample_env { region_one_source with locked := true } = {}
      ∧ Region.trim_to sample_env { region_one_source with locked := true } 3 4
          = { region_one_source with locked := true } :=
  ⟨by decide, by decide, by decide, by decide,
    ((C39_can_trim_agrees_with_trims sample_env region_one_source { id := 1, length := 10 }
      0 20 0 0).1 (by decide) (by decide) (by decide) (by decide)).2 (by decide),
    by decide,
    ((C39_can_trim_agrees_with_trims sample_env { region_one_source with locked := true }
      { id := 1, length := 10 } 0 20 3 4).2 (by decide)).2.2.2⟩

/-- C40: for every region that cannot trim before its source start and whose
start is not negative, the start is still not negative after `move_start`,
`trim_front`, `cut_front`, `trim_end` and `trim_to` with any arguments; and a
`trim_front (p)` that moves the position leaves it no earlier than the
timeline position of source offset zero, `position - start`, or 0 when that is
negative, as does every `trim_front (p)` of a region whose position is not
negative. -/
theorem C40_start_stays_nonnegative (E : Env) (r : Region) (d len : timecnt_t)
    (p e pos : timepos_t) (hno : E.can_trim_start_before_source_start = false)
    (h0 : 0 ≤ r.start) (hmax : 0 ≤ E.timecnt_max) :
    0 ≤ (Region.move_start E r d).start
      ∧ 0 ≤ (Region.trim_front E r p).start
      ∧ 0 ≤ (Region.cut_front E r p).start
      ∧ 0 ≤ (Region.trim_end E r e).start
      ∧ 0 ≤ (Region.trim_to E r pos len).start
      ∧ ((Region.trim_front E r p).position ≠ r.position →
          max (r.position - r.start) 0 ≤ (Region.trim_front E r p).position)
      ∧ (0 ≤ r.position →
          max (r.position - r.start) 0 ≤ (Region.trim_front E r p).position) := by
  have hsz : max (r.position - r.start) 0 ≤ Region.modify_front_position E r p := by
    unfold Region.modify_front_position Region.source_position
    simp only [hno, Bool.not_false, if_true]
    unfold timepos_t timecnt_t at *
    split_ifs <;> omega
  refine ⟨Region.move_start_nonneg E r d h0 hmax,
    Region.modify_front_start_nonneg E r p false hno h0 hmax,
    Region.modify_front_start_nonneg E r p true hno h0 hmax, ?_, ?_, ?_, ?_⟩
  · unfold Region.trim_end
    rw [Region.modify_end_start_same]
    exact h0
  · by_cases hl : r.locked = false
    · rw [(Region.trim_to_fields E r pos len hl).1]
      exact Region.trim_new_start_nonneg E r pos hno h0 hmax
    · have : Region.trim_to E r pos len = r := by
        unfold Region.trim_to
        simp [hl]
      rw [this]; exact h0
  · intro hne
    unfold Region.trim_front at hne ⊢
    rcases Region.modify_front_position_result E r p false with h | h
    · exact absurd h hne
    · rw [h]; exact hsz
  · intro hp
    unfold Region.trim_front
    rcases Region.modify_front_position_result E r p false with h | h
    · rw [h]
      unfold timepos_t timecnt_t at *
      omega
    · rw [h]; exact hsz

/-- C40 at work: the region at position 7 with start 2 has its source offset
zero at 5; `trim_front (0)` stops there, with start 0. -/
theorem C40_start_stays_nonnegative_witness :
    sample_env.can_trim_start_before_source_start = false
      ∧ (0 : Int) ≤ region_trimmed_front.start
      ∧ (0 : Int) ≤ sample_env.timecnt_max
      ∧ (Region.trim_front sample_env region_trimmed_front 0).position = 5
      ∧ (Region.trim_front sample_env region_trimmed_front 0).start = 0
      ∧ max (region_trimmed_front.position - region_trimmed_front.start) 0
          ≤ (Region.trim_front sample_env region_trimmed_front 0).position :=
  ⟨by decide, by decide, by decide, by decide, by decide,
    (C40_start_stays_nonnegative sample_env region_trimmed_front 0 0 0 0 0 (by decide)
      (by decide) (by decide)).2.2.2.2.2.2 (by decide)⟩

namespace Region

/-! ## The change-set of one trim -/

theorem do_first_edit_nothing (E : Env) (r : Region)
    (h : r.first_edit = FirstEdit.EditChangesNothing) : do_first_edit E r = r := by
  unfold do_first_edit
  simp [h]

/-- The first block of a trim touches the start only and records it exactly
when the start changes. -/
theorem trim_step_start_notify (r : Region) (ns : timecnt_t) (wc : PropertyChange) :
    (trim_step_start r ns wc).1.signals = r.signals
      ∧ (trim_step_start r ns wc).1.shared = r.shared
      ∧ (trim_step_start r ns wc).1.stateful_frozen = r.stateful_frozen
      ∧ (trim_step_start r ns wc).1.first_edit = r.first_edit
      ∧ (trim_step_start r ns wc).1.length = r.length
      ∧ (trim_step_start r ns wc).1.position = r.position
      ∧ (∀ p : PropertyID, p ∈ (trim_step_start r ns wc).2
          ↔ p ∈ wc ∨ (p = PropertyID.start ∧ r.start ≠ ns)) := by
  unfold trim_step_start set_start_internal
  by_cases h : r.start = ns
  · simp [h]
  · simp only [h, ne_eq, not_false_eq_true, if_true, and_true, true_and]
    intro p
    exact mem_add wc PropertyID.start p

/-- The second block of a trim records the position exactly when it changes,
and keeps the length when the new position leaves room for it. -/
theorem trim_step_position_notify (E : Env) (r : Region) (pos : timepos_t)
    (wc : PropertyChange) :
    (trim_step_position E r pos wc).1.signals = r.signals
      ∧ (trim_step_position E r pos wc).1.shared = r.shared
      ∧ (trim_step_position E r pos wc).1.stateful_frozen = r.stateful_frozen
      ∧ (trim_step_position E r pos wc).1.first_edit = r.first_edit
      ∧ (pos + r.length ≤ E.timepos_max → (trim_step_position E r pos wc).1.length = r.length)
      ∧ (∀ p : PropertyID, p ∈ (trim_step_position E r pos wc).2
          ↔ p ∈ wc ∨ (p = PropertyID.position ∧ r.position ≠ pos)) := by
  unfold trim_step_position
  by_cases h : r.position = pos
  · simp [h]
  · simp only [h, ne_eq, not_false_eq_true, if_true, and_true]
    refine ⟨?_, ?_, ?_, ?_, ?_, fun p => mem_add wc PropertyID.position p⟩
    · unfold set_position_internal; dsimp only
      split_ifs <;> rfl
    · unfold set_position_internal; dsimp only
      split_ifs <;> rfl
    · unfold set_position_internal; dsimp only
      split_ifs <;> rfl
    · unfold set_position_internal; dsimp only
      split_ifs <;> rfl
    · intro hfit
      rw [set_position_internal_length]
      have hno : ¬ E.timepos_max - r.length < pos := by
        unfold timepos_t timecnt_t at *
        omega
      split_ifs with h1 h2 h3 <;> first | rfl | (exact absurd h1.2 hno) | simp_all

/-- The third block of a trim records the length exactly when it changes. -/
theorem trim_step_length_notify (r : Region) (nl : timecnt_t) (wc : PropertyChange) :
    (trim_step_length r nl wc).1.signals = r.signals
      ∧ (trim_step_length r nl wc).1.shared = r.shared
      ∧ (trim_step_length r nl wc).1.stateful_frozen = r.stateful_frozen
      ∧ (trim_step_length r nl wc).1.first_edit = r.first_edit
      ∧ (∀ p : PropertyID, p ∈ (trim_step_length r nl wc).2
          ↔ p ∈ wc ∨ (p = PropertyID.length ∧ r.length ≠ nl)) := by
  unfold trim_step_length set_length_internal
  by_cases h : r.length = nl
  · simp [h]
  · simp only [h, ne_eq, not_false_eq_true, if_true, and_true]
    refine ⟨?_, ?_, ?_, ?_, fun p => mem_add wc PropertyID.length p⟩
    all_goals split_ifs <;> rfl

end Region
/-! ## The change-set of `trim_to_internal` (C34) -/

/-- C34, as stated, fails when the move shrinks the length: the region of
length 5 at position 0, whose first source has mutable length, is trimmed to
the position three units before the domain maximum with the length 3. The new
position shrinks the length to 3 before the length is compared, so the one
change-set emitted holds start and position and not length, although the
length changed from 5 to 3. -/
theorem C34_trim_to_internal_omits_length :
    region_first_source_mutable.locked = false
      ∧ region_first_source_mutable.first_edit = FirstEdit.EditChangesNothing
      ∧ region_first_source_mutable.property_changes_suspended = false
      ∧ region_first_source_mutable.length = 5
      ∧ (Region.trim_to_internal sample_env region_first_source_mutable
          (sample_env.timepos_max - 3) 3).length = 3
      ∧ (Region.trim_to_internal sample_env region_first_source_mutable
          (sample_env.timepos_max - 3) 3).signals
          = [Signal.PropertyChanged [PropertyID.start, PropertyID.position],
             Signal.RegionPropertyChanged [PropertyID.start, PropertyID.position]] := by
  decide

/-- C34, amended: for every unlocked region with no pending first-edit rename
and notifications not suspended, and every `pos` that leaves room for the
current length below the domain maximum, `trim_to_internal (pos, len)` emits
at most one change-set, once on the object's signal and, when a shared handle
exists, once on `RegionPropertyChanged`; it holds the start identity exactly
when the start changed, the position identity exactly when the position
changed, the length identity exactly when the length changed, and no other
identity; and nothing is emitted when none of the three changed. -/
theorem C34_trim_to_internal_emits_one_change_set (E : Env) (r : Region) (pos : timepos_t)
    (len : timecnt_t) (hl : r.locked = false)
    (hfe : r.first_edit = FirstEdit.EditChangesNothing)
    (hs : r.property_changes_suspended = false)
    (hfit : pos + r.length ≤ E.timepos_max) :
    ∃ c : PropertyChange,
      (Region.trim_to_internal E r pos len).signals
          = r.signals ++ (if c = [] then []
              else Signal.PropertyChanged c ::
                (if r.shared then [Signal.RegionPropertyChanged c] else []))
        ∧ (PropertyID.start ∈ c ↔ (Region.trim_to_internal E r pos len).start ≠ r.start)
        ∧ (PropertyID.position ∈ c
            ↔ (Region.trim_to_internal E r pos len).position ≠ r.position)
        ∧ (PropertyID.length ∈ c ↔ (Region.trim_to_internal E r pos len).length ≠ r.length)
        ∧ (∀ p ∈ c, p = PropertyID.start ∨ p = PropertyID.position ∨ p = PropertyID.length)
        ∧ (c = [] ↔ ((Region.trim_to_internal E r pos len).start = r.start
            ∧ (Region.trim_to_internal E r pos len).position = r.position
            ∧ (Region.trim_to_internal E r pos len).length = r.length)) := by
  obtain ⟨f1, f2, f3, -⟩ := Region.trim_to_internal_fields E r pos len hl
  have hv : (r.verify_start_and_length (Region.trim_new_start E r pos) len).1 = true := by
    unfold Region.verify_start_and_length; split_ifs <;> rfl
  rw [f1, f2, f3]
  unfold Region.trim_to_internal
  simp only [hl, hv, Bool.false_eq_true, if_false, Bool.not_true]
  generalize (r.verify_start_and_length (Region.trim_new_start E r pos) len).2 = nl
  generalize Region.trim_new_start E r pos = ns
  obtain ⟨a1, a2, a3, a4, a5, a6, a7⟩ := Region.trim_step_start_notify r ns []
  generalize Region.trim_step_start r ns [] = s1 at a1 a2 a3 a4 a5 a6 a7 ⊢
  obtain ⟨b1, b2, b3, b4, b5, b7⟩ := Region.trim_step_position_notify E s1.1 pos s1.2
  rw [a5] at b5
  rw [a6] at b7
  have b5 := b5 hfit
  generalize Region.trim_step_position E s1.1 pos s1.2 = s2 at b1 b2 b3 b4 b5 b7 ⊢
  obtain ⟨c1, c2, c3, c4, c7⟩ := Region.trim_step_length_notify s2.1 nl s2.2
  rw [b5] at c7
  generalize Region.trim_step_length s2.1 nl s2.2 = s3 at c1 c2 c3 c4 c7 ⊢
  have hmem : ∀ p : PropertyID, p ∈ s3.2 ↔
      ((p = PropertyID.start ∧ r.start ≠ ns) ∨ (p = PropertyID.position ∧ r.position ≠ pos))
        ∨ (p = PropertyID.length ∧ r.length ≠ nl) := by
    intro p
    rw [c7, b7, a7]
    simp
  have hsig : s3.1.signals = r.signals := by rw [c1, b1, a1]
  have hsh : s3.1.shared = r.shared := by rw [c2, b2, a2]
  have hfr : s3.1.stateful_frozen = r.stateful_frozen := by rw [c3, b3, a3]
  have hfe3 : s3.1.first_edit = FirstEdit.EditChangesNothing := by rw [c4, b4, a4, hfe]
  clear a1 a2 a3 a4 a5 a6 a7 b1 b2 b3 b4 b5 b7 c1 c2 c3 c4 c7
  refine ⟨s3.2, ?_, ?_, ?_, ?_, ?_, ?_⟩
  · have hdfe : Region.do_first_edit E { s3.1 with whole_file := false }
        = { s3.1 with whole_file := false } := Region.do_first_edit_nothing E _ hfe3
    have hsame : (if PropertyChange.contains_any s3.2
          (PropertyChange.add (PropertyChange.add [] PropertyID.start) PropertyID.length) = true
        then Region.do_first_edit E { s3.1 with whole_file := false }
        else { s3.1 with whole_file := false }) = { s3.1 with whole_file := false } := by
      split_ifs
      · exact hdfe
      · rfl
    rw [hsame]
    by_cases hc : s3.2 = []
    · simp [hc, hsig]
    · have hemp : s3.2.isEmpty = false := by
        cases hq : s3.2 with
        | nil => exact absurd hq hc
        | cons a t => rfl
      have hsus : Region.property_changes_suspended { s3.1 with whole_file := false }
          = false := by
        unfold Region.property_changes_suspended at hs ⊢
        dsimp only
        rw [hfr]
        exact hs
      simp only [hemp, Bool.not_false, if_true, hc, if_false]
      rw [Region.send_change_signals _ _ hc hsus]
      dsimp only
      rw [hsig, hsh]
  · rw [hmem]
    constructor
    · rintro ((⟨-, h⟩ | ⟨h, -⟩) | ⟨h, -⟩)
      · exact fun e => h e.symm
      · cases h
      · cases h
    · intro h
      exact Or.inl (Or.inl ⟨rfl, fun e => h e.symm⟩)
  · rw [hmem]
    constructor
    · rintro ((⟨h, -⟩ | ⟨-, h⟩) | ⟨h, -⟩)
      · cases h
      · exact fun e => h e.symm
      · cases h
    · intro h
      exact Or.inl (Or.inr ⟨rfl, fun e => h e.symm⟩)
  · rw [hmem]
    constructor
    · rintro ((⟨h, -⟩ | ⟨h, -⟩) | ⟨-, h⟩)
      · cases h
      · cases h
      · exact fun e => h e.symm
    · intro h
      exact Or.inr ⟨rfl, fun e => h e.symm⟩
  · intro p hp
    rcases (hmem p).1 hp with (⟨h, -⟩ | ⟨h, -⟩) | ⟨h, -⟩
    · exact Or.inl h
    · exact Or.inr (Or.inl h)
    · exact Or.inr (Or.inr h)
  · constructor
    · intro hc
      have hnone : ∀ p : PropertyID, ¬ p ∈ s3.2 := by
        intro p; rw [hc]; exact List.not_mem_nil p
      refine ⟨?_, ?_, ?_⟩
      · by_contra h
        exact hnone PropertyID.start
          ((hmem _).2 (Or.inl (Or.inl ⟨rfl, fun e => h e.symm⟩)))
      · by_contra h
        exact hnone PropertyID.position
          ((hmem _).2 (Or.inl (Or.inr ⟨rfl, fun e => h e.symm⟩)))
      · by_contra h
        exact hnone PropertyID.length ((hmem _).2 (Or.inr ⟨rfl, fun e => h e.symm⟩))
    · rintro ⟨h1, h2, h3⟩
      apply List.eq_nil_iff_forall_not_mem.2
      intro p hp
      rcases (hmem p).1 hp with (⟨-, h⟩ | ⟨-, h⟩) | ⟨-, h⟩
      · exact h h1.symm
      · exact h h2.symm
      · exact h h3.symm

/-- C34 at work: the region at position 5 with length 10 and start 0 is
trimmed to position 7 and length 3; the one change-set holds start, position
and length. -/
theorem C34_trim_to_internal_emits_one_change_set_witness :
    region_at_five.locked = false
      ∧ region_at_five.first_edit = FirstEdit.EditChangesNothing
      ∧ region_at_five.property_changes_suspended = false
      ∧ (7 : Int) + region_at_five.length ≤ sample_env.timepos_max
      ∧ (Region.trim_to_internal sample_env region_at_five 7 3).signals
          = [Signal.PropertyChanged
              [PropertyID.start, PropertyID.position, PropertyID.length],
             Signal.RegionPropertyChanged
              [PropertyID.start, PropertyID.position, PropertyID.length]]
      ∧ ∃ c : PropertyChange,
          (Region.trim_to_internal sample_env region_at_five 7 3).signals
              = region_at_five.signals ++ (if c = [] then []
                  else Signal.PropertyChanged c ::
                    (if region_at_five.shared then [Signal.RegionPropertyChanged c] else []))
            ∧ (PropertyID.length ∈ c
                ↔ (Region.trim_to_internal sample_env region_at_five 7 3).length
                    ≠ region_at_five.length) := by
  refine ⟨by decide, by decide, by decide, by decide, by decide, ?_⟩
  obtain ⟨c, h1, -, -, h4, -⟩ := C34_trim_to_internal_emits_one_change_set sample_env
    region_at_five 7 3 (by decide) (by decide) (by decide) (by decide)
  exact ⟨c, h1, h4⟩

end ARDOUR
